import Mathlib

/-!
# DCF77 decoder (dcf77_clock.c): a shallow embedding and its verified properties

The bit vector `int8_t data[60]` is a `List Int`; a pointer `&data[p]` is the pair of the
whole list and the offset `p`, so that a read past the end of a block (but inside the array)
sees what the C code sees.  A symbol is `0`, `1`, or negative (unknown, `-1` in the source).
Functions that write through a pointer return the new contents next to their result.
-/

namespace DCF77

/-! ## C arithmetic -/

/-- C remainder `a % b` (truncating toward zero). -/
def c_rem (a b : Int) : Int := Int.tmod a b

/-- C quotient `a / b` (truncating toward zero). -/
def c_div (a b : Int) : Int := Int.tdiv a b

/-- Conversion of an `int` to `int8_t` (two's complement wrap). -/
def int8 (x : Int) : Int := (x + 128) % 256 - 128

/-- Conversion of an `int` to `uint8_t`. -/
def uint8 (x : Int) : Int := x % 256

/-- Conversion to a 32-bit `int` (two's complement wrap). -/
def int32 (x : Int) : Int := (x + 2147483648) % 4294967296 - 2147483648

/-- Read `data[i]` of an `int8_t` array.  A read outside the list gives 0; on the 60-symbol
array of `main` no function below reads outside. -/
def rd (data : List Int) (i : Nat) : Int := data.getD i 0

/-! ## check_parity (lines 173-207) -/

/-- The loop `for (i = 0 ; i < count - 1 ; i++)` of `check_parity` that counts the ones
(`parity`) and the unknown symbols (`fail`); `n` is the number of iterations left. -/
def check_parity_count (data : List Int) (p : Nat) : Nat → Nat → Int → Int → Int × Int
  | 0, _, parity, fail => (parity, fail)
  | n + 1, i, parity, fail =>
    if rd data (p + i) < 0 then check_parity_count data p n (i + 1) parity (fail + 1)
    else check_parity_count data p n (i + 1) (parity + rd data (p + i)) fail

/-- The loop `for (i = 0 ; i < count ; i++)` of `check_parity` that overwrites the first
unknown symbol with `(parity + data[count]) % 2` and stops; `n` is the number of iterations
left.  Returns the array and `parity`. -/
def check_parity_fix (data : List Int) (p count : Nat) (parity : Int) :
    Nat → Nat → List Int × Int
  | 0, _ => (data, parity)
  | n + 1, i =>
    if rd data (p + i) < 0 then
      let v := c_rem (parity + rd data (p + count)) 2
      (data.set (p + i) v, if v ≠ 0 then parity + 1 else parity)
    else check_parity_fix data p count parity n (i + 1)

/-- The function `check_parity (&data[p], count)`: the return value and the array afterwards. -/
def check_parity (data : List Int) (p count : Nat) : Int × List Int :=
  if rd data p < 0 then (0, data)
  else if rd data (p + (count - 1)) < 0 then (0, data)
  else
    let pf := check_parity_count data p (count - 1) 0 0 0
    if pf.2 > 1 then (0, data)
    else
      let fx := if pf.2 > 0 then check_parity_fix data p count pf.1 count 0 else (data, pf.1)
      if c_rem fx.2 2 = rd fx.1 (p + (count - 1)) then
        (if pf.2 ≠ 0 then (0, fx.1) else (1, fx.1))
      else (-1, fx.1)

/-! ## check_number (lines 214-228) -/

/-- The loop of `check_number`: returns the final `i` and `number`; `n` is the number of
iterations left. -/
def check_number_loop (data : List Int) (p : Nat) : Nat → Nat → Int → Nat × Int
  | 0, i, number => (i, number)
  | n + 1, i, number =>
    if rd data (p + i) < 0 then (i, number)
    else check_number_loop data p n (i + 1)
      (if rd data (p + i) = 1 then number + 2 ^ (i % 4) else number)

/-- The function `check_number (&data[p], count, start, end)`. -/
def check_number (data : List Int) (p count : Nat) (start stop : Int) : Int :=
  if rd data p < 0 then -1
  else
    let r := check_number_loop data p count 0 0
    if r.1 < count ∨ r.2 < start ∨ r.2 > stop then -1 else r.2

/-! ## The decoded time and the field decoders (lines 232-355) -/

/-- The struct `dcf77_time`; the `int8_t` fields and the `time_t stamp` are integers. -/
structure dcf77_time where
  min : Int
  min_chk : Int
  hour : Int
  hour_chk : Int
  day : Int
  day_chk : Int
  wday : Int
  wday_chk : Int
  mon : Int
  mon_chk : Int
  year : Int
  year_chk : Int
  tz : Int
  tz_chk : Int
  dst : Int
  lsec : Int
  alert : Int
  check : Int
  stamp_chk : Int
  stamp : Int
  deriving DecidableEq

/-- The function `init_dcf77_time` (lines 638-659). -/
def init_dcf77_time : dcf77_time :=
  { min := -2, min_chk := 0, hour := -2, hour_chk := 0, day := -2, day_chk := 0,
    wday := -2, wday_chk := 0, mon := -2, mon_chk := 0, year := -2, year_chk := 0,
    tz := -2, tz_chk := 0, dst := -2, check := -50, lsec := 0, alert := 0,
    stamp := 0, stamp_chk := 0 }

/-- The function `check_data_sync`. -/
def check_data_sync (data : List Int) : Int :=
  if rd data 0 = 0 then 1 else if rd data 0 = 1 then -1 else 0

/-- The function `check_data_tz`: the return value and the new `*tz`. -/
def check_data_tz (data : List Int) : Int × Int :=
  let tz : Int :=
    if rd data 17 = 0 ∧ rd data 18 = 1 then 1
    else if rd data 17 = 1 ∧ rd data 18 = 0 then 2
    else -1
  (if tz > 0 then 1 else -1, tz)

/-- The function `check_data_time`. -/
def check_data_time (data : List Int) : Int :=
  if rd data 20 = 1 then 1 else -1

/-- The function `check_data_min`: the array after `check_parity` and the new `*min`.
All values stored are between -10 and 59, so the `int8_t` stores are exact. -/
def check_data_min (data : List Int) (min : Int) : List Int × Int :=
  let pr := check_parity data 21 8
  if pr.1 > 0 then
    let m0 := check_number pr.2 21 4 0 9
    let m1 := if m0 ≥ 0 then m0 + check_number pr.2 25 3 0 5 * 10 else m0
    (pr.2, if m1 < 0 ∨ m1 > 59 then -1 else m1)
  else (pr.2, min)

/-- The function `check_data_hour`: the array after `check_parity` and the new `*hour`. -/
def check_data_hour (data : List Int) (hour : Int) : List Int × Int :=
  let pr := check_parity data 29 7
  if pr.1 > 0 then
    let h0 := check_number pr.2 29 4 0 9
    let h1 := if h0 ≥ 0 then h0 + check_number pr.2 33 2 0 2 * 10 else h0
    (pr.2, if h1 < 0 ∨ h1 > 23 then -1 else h1)
  else (pr.2, hour)

/-- The function `check_data_dst`: the new `*dst`. -/
def check_data_dst (data : List Int) (hour : Int) : Int :=
  let dst := rd data 16
  if dst = 1 ∧ hour < 1 ∧ hour > 4 then 0 else dst

/-- The function `check_data_day`: the new `*day`. -/
def check_data_day (data : List Int) : Int :=
  let d0 := check_number data 36 4 0 9
  let d1 := if d0 ≥ 0 then d0 + check_number data 40 2 0 3 * 10 else d0
  if d1 < 1 ∨ d1 > 31 then -1 else d1

/-- The function `check_data_wday`: the new `*wday`. -/
def check_data_wday (data : List Int) : Int :=
  check_number data 42 3 1 7

/-- The function `check_data_mon`: the new `*mon`. -/
def check_data_mon (data : List Int) : Int :=
  let m0 := check_number data 45 4 0 9
  let m1 := if m0 ≥ 0 ∧ rd data 49 > 0 then m0 + rd data 49 * 10 else m0
  if m1 < 1 ∨ m1 > 12 then -1 else m1

/-- The function `check_data_year`: the new `*year`. -/
def check_data_year (data : List Int) : Int :=
  let y0 := check_number data 50 4 0 9
  let y1 := if y0 ≥ 0 then y0 + check_number data 54 4 0 9 * 10 else y0
  if y1 < 0 ∨ y1 > 99 then -1 else y1

/-- The function `check_data_date`: the return value and the array after `check_parity`. -/
def check_data_date (data : List Int) : Int × List Int :=
  let pr := check_parity data 36 23
  (0 + pr.1, pr.2)

/-- The function `check_data_lsec`: the return value and the new `*lsec`. -/
def check_data_lsec (data : List Int) (day mon : Int) : Int × Int :=
  let lsec := rd data 19
  if lsec = 1 then
    if (mon = 6 ∧ day = 30) ∨ (mon = 12 ∧ day = 31) ∨ (mon = 3 ∧ day = 31) ∨
        (mon = 9 ∧ day = 30) then (1, lsec)
    else (-1, -5)
  else if lsec = 0 then (1, lsec)
  else (0, lsec)

/-- The decoding part of `check_data` (lines 439-454): the array and `*now` afterwards.
The check score stays between -5 and 5, so its `int8_t` stores are exact. -/
def check_data_fields (data : List Int) (now : dcf77_time) : List Int × dcf77_time :=
  let c1 := 0 + check_data_sync data
  let c2 := c1 + check_data_time data
  let tz := check_data_tz data
  let c3 := c2 + tz.1
  let mn := check_data_min data now.min
  let hr := check_data_hour mn.1 now.hour
  let dst := check_data_dst hr.1 hr.2
  let day := check_data_day hr.1
  let wday := check_data_wday hr.1
  let mon := check_data_mon hr.1
  let year := check_data_year hr.1
  let dt := check_data_date hr.1
  let c4 := c3 + dt.1
  let ls := check_data_lsec dt.2 day mon
  let c5 := c4 + ls.1
  let lsec := if ls.2 = -5 then 0 else ls.2
  let alert := if rd dt.2 15 = 1 then 1 else now.alert
  (dt.2, { now with check := c5, tz := tz.2, min := mn.2, hour := hr.2, dst := dst, day := day,
                    wday := wday, mon := mon, year := year, lsec := lsec, alert := alert })

/-! ## The consistency voter: the rest of check_data (lines 461-634) -/

/-- The struct `tm` of the C library. -/
structure tm where
  tm_sec : Int
  tm_min : Int
  tm_hour : Int
  tm_mday : Int
  tm_mon : Int
  tm_year : Int
  tm_wday : Int
  tm_yday : Int
  tm_isdst : Int
  deriving DecidableEq

/-- The two C library functions that `check_data` calls, under the time zone that `main`
selects (`TZ=:Europe/Berlin`).  They are not part of the repository, so the embedding takes
them as a parameter. -/
structure Libc where
  localtime_r : Int → tm
  mktime : tm → Int

/-- The pattern that the unlocked branch repeats for each field: `lk` says that the last
value is known, `nk` that the decoded value is known, `e` is the expected value, `lc` the
last confidence; `f` and `c` are the field and its confidence in `*now`.  Returns the new
field and confidence of `*now`. -/
def vote_field (lk nk : Bool) (e lc f c : Int) : Int × Int :=
  if lk then
    if nk then
      if f = e then (f, int8 (lc + 1))
      else if lc > 0 then (e, int8 (lc - 1))
      else (f, lc)
    else (e, lc)
  else (f, c)

/-- The `struct tm` that the unlocked branch fills from `*now` before it calls `mktime`
(lines 550-558). -/
def stamp_tm (now : dcf77_time) : tm :=
  { tm_sec := 0, tm_min := now.min, tm_hour := now.hour, tm_mday := now.day,
    tm_mon := now.mon - 1, tm_year := now.year + 100, tm_wday := 0, tm_yday := 0,
    tm_isdst := now.tz - 1 }

/-- The unlocked branch of `check_data` (`last->stamp == 0`, lines 463-562): `*now` and
`*last` afterwards. -/
def check_data_unlocked (L : Libc) (now last : dcf77_time) : dcf77_time × dcf77_time :=
  let mn := vote_field (decide (last.min ≥ 0)) (decide (now.min ≥ 0))
    (c_rem (last.min + 1) 60) last.min_chk now.min now.min_chk
  let last1 : dcf77_time :=
    if mn.1 = 0 ∧ last.hour ≥ 0 then { last with hour := c_rem (last.hour + 1) 24 } else last
  let hr := vote_field (decide (last1.hour ≥ 0)) (decide (now.hour ≥ 0))
    last1.hour last1.hour_chk now.hour now.hour_chk
  let dy := vote_field (decide (last1.day > 0)) (decide (now.day > 0))
    last1.day last1.day_chk now.day now.day_chk
  let wd := vote_field (decide (last1.wday > 0)) (decide (now.wday > 0))
    last1.wday last1.wday_chk now.wday now.wday_chk
  let mo := vote_field (decide (last1.mon > 0)) (decide (now.mon > 0))
    last1.mon last1.mon_chk now.mon now.mon_chk
  let yr := vote_field (decide (last1.year ≥ 0)) (decide (now.year ≥ 0))
    last1.year last1.year_chk now.year now.year_chk
  let tz := vote_field (decide (last1.tz > 0)) (decide (now.tz > 0))
    last1.tz last1.tz_chk now.tz now.tz_chk
  let now1 : dcf77_time :=
    { now with min := mn.1, min_chk := mn.2, hour := hr.1, hour_chk := hr.2,
               day := dy.1, day_chk := dy.2, wday := wd.1, wday_chk := wd.2,
               mon := mo.1, mon_chk := mo.2, year := yr.1, year_chk := yr.2,
               tz := tz.1, tz_chk := tz.2 }
  if now1.min_chk > 1 ∧ now1.hour_chk > 1 ∧ now1.day_chk > 1 ∧ now1.wday_chk > 1 ∧
      now1.mon_chk > 1 ∧ now1.year_chk > 1 ∧ now1.tz_chk > 1 then
    let stamp := L.mktime (stamp_tm now1)
    let back := L.localtime_r stamp
    ({ now1 with stamp := if back.tm_wday ≠ c_rem now1.wday 7 then 0 else stamp }, last1)
  else (now1, last1)

/-- The locked branch of `check_data` (`last->stamp != 0`, lines 566-632): `*now` and `*last`
afterwards.  The second component of each `let` pair is the local error count `check`. -/
def check_data_locked (L : Libc) (now last : dcf77_time) : dcf77_time × dcf77_time :=
  let stamp := last.stamp + 60
  let t := L.localtime_r stamp
  let mn : Int × Int :=
    if now.min ≠ t.tm_min then (int8 t.tm_min, if now.min ≥ 0 then 1 else 0) else (now.min, 0)
  let hr : Int × Int :=
    if now.hour ≠ t.tm_hour then (int8 t.tm_hour, if now.hour ≥ 0 then mn.2 + 1 else mn.2)
    else (now.hour, mn.2)
  let dy : Int × Int :=
    if now.day ≠ t.tm_mday then (int8 t.tm_mday, if now.day > 0 then hr.2 + 1 else hr.2)
    else (now.day, hr.2)
  let mo : Int × Int :=
    if now.mon ≠ t.tm_mon + 1 then (int8 (t.tm_mon + 1), if now.mon > 0 then dy.2 + 1 else dy.2)
    else (now.mon, dy.2)
  let yr : Int × Int :=
    if now.year ≠ t.tm_year - 100 then
      (int8 (t.tm_year - 100), if now.year ≥ 0 then mo.2 + 1 else mo.2)
    else (now.year, mo.2)
  let wd : Int × Int :=
    if c_rem now.wday 7 ≠ t.tm_wday then
      (if int8 t.tm_wday = 0 then 7 else int8 t.tm_wday, if now.wday > 0 then yr.2 + 1 else yr.2)
    else (now.wday, yr.2)
  let tz : Int × Int :=
    if now.tz ≠ t.tm_isdst + 1 then (last.tz, if now.tz ≥ 0 then wd.2 + 1 else wd.2)
    else (now.tz, wd.2)
  let check := tz.2
  let last1 : dcf77_time := if mn.1 = 1 then { last with dst := 0, lsec := 0 } else last
  let last2 : dcf77_time :=
    if now.dst ≠ 0 then { last1 with dst := int8 (last1.dst + now.dst) } else last1
  let last3 : dcf77_time :=
    if now.lsec ≠ 0 then { last2 with lsec := int8 (last2.lsec + now.lsec) } else last2
  let chk1 := if check ≠ 0 then int8 (last.stamp_chk - 1) else int8 (last.stamp_chk + 1)
  let chk2 := if chk1 > 10 then 10 else chk1
  let now1 : dcf77_time :=
    { now with stamp := stamp, stamp_chk := chk2, min := mn.1, hour := hr.1, day := dy.1,
               mon := mo.1, year := yr.1, wday := wd.1, tz := tz.1 }
  if chk2 < 0 then
    ({ now1 with min_chk := 1, hour_chk := 1, tz_chk := 1, day_chk := 1, mon_chk := 1,
                 wday_chk := 1, year_chk := 1, stamp := 0 }, last3)
  else (now1, last3)

/-- The result of `check_data`: the array, `*now` and `*last` afterwards. -/
structure check_data_result where
  data : List Int
  now : dcf77_time
  last : dcf77_time
  deriving DecidableEq

/-- The function `check_data (data, now, last)` (lines 434-634); the debug output is left
out. -/
def check_data (L : Libc) (data : List Int) (now last : dcf77_time) : check_data_result :=
  let f := check_data_fields data now
  let v := if last.stamp = 0 then check_data_unlocked L f.2 last else check_data_locked L f.2 last
  { data := f.1, now := v.1, last := v.2 }

/-- What `main` does with a completed minute (lines 1073, 1087 and 1111): `check_data` runs
on the collected bits with the freshly initialised `time_now`, and its `*now` becomes the
next `time_last`. -/
def minute_step (L : Libc) (data : List Int) (time_last : dcf77_time) : dcf77_time :=
  (check_data L data init_dcf77_time time_last).now

/-! ## write_bcd (lines 110-121) -/

/-- The loop of `write_bcd`; `n` is the number of iterations left. -/
def write_bcd_loop (low high : Int) (p : Nat) : Nat → Nat → List Char → List Char
  | 0, _, data => data
  | n + 1, i, data =>
    write_bcd_loop low high p n (i + 1)
      ((data.set (p + i) (if low.toNat &&& (1 <<< i) ≠ 0 then '1' else '0')).set (p + i + 4)
        (if high.toNat &&& (1 <<< i) ≠ 0 then '1' else '0'))

/-- The function `write_bcd (&data[p], num)`: the character buffer afterwards. -/
def write_bcd (data : List Char) (p : Nat) (num : Int) : List Char :=
  write_bcd_loop (uint8 (c_rem num 10)) (uint8 (c_div num 10)) p 4 0 data

/-! ## set_ntp_shm (lines 749-824) -/

/-- The struct `timespec`. -/
structure timespec where
  tv_sec : Int
  tv_nsec : Int
  deriving DecidableEq

/-- The struct `time_info_t`. -/
structure time_info_t where
  time : timespec
  clock : timespec
  deriving DecidableEq

/-- The struct `shmTime`. -/
structure shmTime where
  mode : Int
  count : Int
  clockTimeStampSec : Int
  clockTimeStampUSec : Int
  receiveTimeStampSec : Int
  receiveTimeStampUSec : Int
  leap : Int
  precision : Int
  nsamples : Int
  valid : Int
  dummy : List Int
  deriving DecidableEq

/-- The instantaneous precision `prec` that `set_ntp_shm` looks up for `min_dev`. -/
def set_ntp_shm_prec (min_dev : Int) : Int :=
  let tmp := if min_dev < 0 then -min_dev else min_dev
  if tmp < 950 then 20 * 16
  else if tmp < 1900 then 19 * 16
  else if tmp < 3800 then 18 * 16
  else if tmp < 7625 then 17 * 16
  else if tmp < 15250 then 16 * 16
  else if tmp < 30500 then 15 * 16
  else if tmp < 61025 then 14 * 16
  else if tmp < 122050 then 13 * 16
  else if tmp < 244125 then 12 * 16
  else if tmp < 488250 then 11 * 16
  else if tmp < 976500 then 10 * 16
  else if tmp < 1953125 then 9 * 16
  else if tmp < 3906250 then 8 * 16
  else if tmp < 7812500 then 7 * 16
  else if tmp < 15625000 then 6 * 16
  else 5 * 16

/-- The new value of the static variable `precision` of `set_ntp_shm`. -/
def set_ntp_shm_precision (precision min_dev : Int) : Int :=
  let prec := set_ntp_shm_prec min_dev
  let p1 := if prec > precision then precision + 1 else precision
  if prec < p1 then p1 - 2 else p1

/-- The writes of `set_ntp_shm` to the shared-memory record, in program order;
`precision` is the static variable after its update. -/
def set_ntp_shm_writes (now : dcf77_time) (sig_now : time_info_t) (precision : Int) :
    List (shmTime → shmTime) :=
  [ fun s => { s with valid := 0 },
    fun s => { s with clockTimeStampSec := now.stamp },
    fun s => { s with clockTimeStampUSec := 0 },
    fun s => { s with receiveTimeStampSec := sig_now.clock.tv_sec },
    fun s => { s with receiveTimeStampUSec := int32 (c_div sig_now.clock.tv_nsec 1000) },
    fun s => { s with precision := -(Int.shiftRight precision 4) },
    fun s => { s with leap := if now.lsec > 0 then 1 else 0 },
    fun s => { s with count := int32 (s.count + 1) },
    fun s => { s with valid := 1 } ]

/-- The function `set_ntp_shm`: the record and the static `precision` afterwards.  The
global `sig_now` and the static `precision` are passed explicitly; `sig_avr` is used in
commented-out code only; the debug output is left out. -/
def set_ntp_shm (shm : shmTime) (precision : Int) (now : dcf77_time) (min_dev _sig_avr : Int)
    (sig_now : time_info_t) : shmTime × Int :=
  let p := set_ntp_shm_precision precision min_dev
  ((set_ntp_shm_writes now sig_now p).foldl (fun s w => w s) shm, p)

/-! ## The DCF77 frame layout, as the specification words it -/

/-- Bit `i` of the non-negative number `n`, as a symbol. -/
def bcd_bit (n : Int) (i : Nat) : Int := n / 2 ^ i % 2

/-- The even-parity bit of a list of bits. -/
def even_parity (bits : List Int) : Int := bits.sum % 2

/-- The 60-symbol bit vector that encodes a calendar tuple in the DCF77 layout: bit 0 is 0,
bits 1..14 are 0, bit 15 is the alert bit, bit 16 the DST announcement, bits 17/18 are 0/1
for CET (`tz = 1`) and 1/0 for CEST (`tz = 2`), bit 19 is the leap-second announcement,
bit 20 is 1, the BCD digits follow least-significant bit first at 21..27, 29..34, 36..41,
42..44, 45..49 and 50..57 with even-parity bits at 28, 35 and 58, and slot 59 is 0. -/
def encode_frame (t : dcf77_time) : List Int :=
  let mn := [bcd_bit (t.min % 10) 0, bcd_bit (t.min % 10) 1, bcd_bit (t.min % 10) 2,
    bcd_bit (t.min % 10) 3, bcd_bit (t.min / 10) 0, bcd_bit (t.min / 10) 1,
    bcd_bit (t.min / 10) 2]
  let hr := [bcd_bit (t.hour % 10) 0, bcd_bit (t.hour % 10) 1, bcd_bit (t.hour % 10) 2,
    bcd_bit (t.hour % 10) 3, bcd_bit (t.hour / 10) 0, bcd_bit (t.hour / 10) 1]
  let dt := [bcd_bit (t.day % 10) 0, bcd_bit (t.day % 10) 1, bcd_bit (t.day % 10) 2,
    bcd_bit (t.day % 10) 3, bcd_bit (t.day / 10) 0, bcd_bit (t.day / 10) 1,
    bcd_bit t.wday 0, bcd_bit t.wday 1, bcd_bit t.wday 2,
    bcd_bit (t.mon % 10) 0, bcd_bit (t.mon % 10) 1, bcd_bit (t.mon % 10) 2,
    bcd_bit (t.mon % 10) 3, bcd_bit (t.mon / 10) 0,
    bcd_bit (t.year % 10) 0, bcd_bit (t.year % 10) 1, bcd_bit (t.year % 10) 2,
    bcd_bit (t.year % 10) 3, bcd_bit (t.year / 10) 0, bcd_bit (t.year / 10) 1,
    bcd_bit (t.year / 10) 2, bcd_bit (t.year / 10) 3]
  [0, 0, 0, 0, 0, 0, 0, 0, 0, 0, 0, 0, 0, 0, 0, t.alert, t.dst,
    if t.tz = 2 then 1 else 0, if t.tz = 2 then 0 else 1, t.lsec, 1] ++
    mn ++ [even_parity mn] ++ hr ++ [even_parity hr] ++ dt ++ [even_parity dt] ++ [0]

/-- The frame with the symbol at index `i` flipped (0 to 1, 1 to 0). -/
def flip_bit (data : List Int) (i : Nat) : List Int := data.set i (1 - rd data i)

/-- The symbol that a character `'0'` or `'1'` stands for. -/
def char_bit (c : Char) : Int := (c.toNat : Int) - 48

/-- The dates at whose end a leap second may be inserted: 31 March, 30 June, 30 September
and 31 December. -/
def leap_second_date (day mon : Int) : Prop :=
  (mon = 3 ∧ day = 31) ∨ (mon = 6 ∧ day = 30) ∨ (mon = 9 ∧ day = 30) ∨ (mon = 12 ∧ day = 31)

instance (day mon : Int) : Decidable (leap_second_date day mon) := by
  unfold leap_second_date
  infer_instance

/-- The calendar tuple with the seven fields given, no announcement (`dst`, `lsec` and
`alert` are 0) and everything else as initialised. -/
def calendar (min hour day wday mon year tz : Int) : dcf77_time :=
  { init_dcf77_time with min := min, hour := hour, day := day, wday := wday, mon := mon,
                         year := year, tz := tz, dst := 0 }

/-- The calendar tuple of a broken-down local time: month counted from 1, year from 2000,
Sunday as weekday 7, `tz` 1 for standard time and 2 for summer time. -/
def calendar_of_tm (t : tm) : dcf77_time :=
  calendar t.tm_min t.tm_hour t.tm_mday (if t.tm_wday = 0 then 7 else t.tm_wday) (t.tm_mon + 1)
    (t.tm_year - 100) (t.tm_isdst + 1)

/-! ## A model of the C library under TZ=:Europe/Berlin

The Gregorian calendar with CET (UTC+1) and, between 01:00 UTC on the last Sunday of March
and 01:00 UTC on the last Sunday of October, CEST (UTC+2): the rule in force since 1996.
It instantiates `Libc` in the examples. -/

/-- Days from 1970-01-01 to the civil date `y`-`m`-`d`. -/
def days_from_civil (y m d : Int) : Int :=
  let y1 := if m ≤ 2 then y - 1 else y
  let era := y1 / 400
  let yoe := y1 - era * 400
  let doy := (153 * ((m + 9) % 12) + 2) / 5 + d - 1
  era * 146097 + (yoe * 365 + yoe / 4 - yoe / 100 + doy) - 719468

/-- The civil date (year, month, day) of a day number counted from 1970-01-01. -/
def civil_from_days (z : Int) : Int × Int × Int :=
  let z1 := z + 719468
  let era := z1 / 146097
  let doe := z1 - era * 146097
  let yoe := (doe - doe / 1460 + doe / 36524 - doe / 146096) / 365
  let doy := doe - (365 * yoe + yoe / 4 - yoe / 100)
  let mp := (5 * doy + 2) / 153
  let m := if mp < 10 then mp + 3 else mp - 9
  (if m ≤ 2 then yoe + era * 400 + 1 else yoe + era * 400, m, doy - (153 * mp + 2) / 5 + 1)

/-- The day of the week of a day number, Sunday being 0. -/
def weekday_of_days (z : Int) : Int := (z + 4) % 7

/-- The UTC second at which the last Sunday of month `m` (of 31 days) of year `y` reaches
01:00 UTC. -/
def last_sunday_1utc (y m : Int) : Int :=
  let z := days_from_civil y m 31
  (z - weekday_of_days z) * 86400 + 3600

/-- Whether summer time is in force at the UTC second `t`. -/
def berlin_isdst (t : Int) : Bool :=
  let y := (civil_from_days (t / 86400)).1
  decide (last_sunday_1utc y 3 ≤ t ∧ t < last_sunday_1utc y 10)

/-- The model of `localtime_r`. -/
def berlin_localtime (t : Int) : tm :=
  let dst := berlin_isdst t
  let lt := t + 3600 + (if dst then 3600 else 0)
  let z := lt / 86400
  let sod := lt % 86400
  let c := civil_from_days z
  { tm_sec := sod % 60, tm_min := sod / 60 % 60, tm_hour := sod / 3600, tm_mday := c.2.2,
    tm_mon := c.2.1 - 1, tm_year := c.1 - 1900, tm_wday := weekday_of_days z,
    tm_yday := z - days_from_civil c.1 1 1, tm_isdst := if dst then 1 else 0 }

/-- The model of `mktime` for a normalised `struct tm`: a positive `tm_isdst` reads the
fields as summer time, zero as standard time, a negative one leaves the choice to the rule. -/
def berlin_mktime (t : tm) : Int :=
  let civil := days_from_civil (t.tm_year + 1900) (t.tm_mon + 1) t.tm_mday * 86400 +
    t.tm_hour * 3600 + t.tm_min * 60 + t.tm_sec
  if t.tm_isdst > 0 then civil - 7200
  else if t.tm_isdst = 0 then civil - 3600
  else if berlin_isdst (civil - 3600) then civil - 7200 else civil - 3600

/-- The C library model as a `Libc`. -/
def berlin : Libc := { localtime_r := berlin_localtime, mktime := berlin_mktime }

/-! ## Quantities of the voter and the publisher -/

/-- The number of known fields of `*now` that deviate from the prediction of the locked
branch: the value of the local variable `check` at line 619. -/
def locked_errors (L : Libc) (now last : dcf77_time) : Int :=
  (if now.min ≠ (L.localtime_r (last.stamp + 60)).tm_min ∧ now.min ≥ 0 then 1 else 0) +
  (if now.hour ≠ (L.localtime_r (last.stamp + 60)).tm_hour ∧ now.hour ≥ 0 then 1 else 0) +
  (if now.day ≠ (L.localtime_r (last.stamp + 60)).tm_mday ∧ now.day > 0 then 1 else 0) +
  (if now.mon ≠ (L.localtime_r (last.stamp + 60)).tm_mon + 1 ∧ now.mon > 0 then 1 else 0) +
  (if now.year ≠ (L.localtime_r (last.stamp + 60)).tm_year - 100 ∧ now.year ≥ 0 then 1 else 0) +
  (if c_rem now.wday 7 ≠ (L.localtime_r (last.stamp + 60)).tm_wday ∧ now.wday > 0
    then 1 else 0) +
  (if now.tz ≠ (L.localtime_r (last.stamp + 60)).tm_isdst + 1 ∧ now.tz ≥ 0 then 1 else 0)

/-- The value of `now->stamp_chk` after the update and the cap of the locked branch
(lines 619-622), from the error count. -/
def locked_stamp_chk (errors last_chk : Int) : Int :=
  if (if errors ≠ 0 then int8 (last_chk - 1) else int8 (last_chk + 1)) > 10 then 10
  else (if errors ≠ 0 then int8 (last_chk - 1) else int8 (last_chk + 1))

/-- The voting rule of the unlocked branch for one field whose last value is known, as the
specification words it: `now_known` says that the decoded value `dec` is known, `expected` is
the expected value, `last_chk` the last confidence; `res` and `res_chk` are the field and its
confidence in `*now` afterwards.  The first case is stated for `last_chk < 127`, the values
for which the `int8_t` counter can be incremented. -/
def voting_rule (now_known : Prop) (expected last_chk dec res res_chk : Int) : Prop :=
  (now_known ∧ dec = expected → last_chk < 127 → res = dec ∧ res_chk = last_chk + 1) ∧
  (now_known ∧ dec ≠ expected ∧ last_chk > 0 → res = expected ∧ res_chk = last_chk - 1) ∧
  (¬ now_known → res = expected ∧ res_chk = last_chk)

/-- The static `precision` of `set_ntp_shm` after the calls with the deviations `devs`, in
this order, from its initial value `5 * 16`. -/
def precision_after (devs : List Int) : Int :=
  devs.foldl set_ntp_shm_precision (5 * 16)

/-- The states of the shared-memory record during a call of `set_ntp_shm`: the record before
the call and after each of the nine writes, in program order. -/
def set_ntp_shm_states (shm : shmTime) (now : dcf77_time) (sig_now : time_info_t)
    (precision : Int) : List shmTime :=
  List.scanl (fun s w => w s) shm (set_ntp_shm_writes now sig_now precision)

/-- The record that `getShmTime` (lines 728-745) hands out for a zero-filled segment. -/
def getShmTime_fresh : shmTime :=
  { mode := 1, count := 0, clockTimeStampSec := 0, clockTimeStampUSec := 0,
    receiveTimeStampSec := 0, receiveTimeStampUSec := 0, leap := 0, precision := 0,
    nsamples := 0, valid := 0, dummy := List.replicate 10 0 }

/-! ## get_diff, check_tolerance, get_second (lines 125-168) -/

/-- The function `get_diff`: the value of `*diff` afterwards. -/
def get_diff (old new : time_info_t) (tolerance : Int) : timespec :=
  let sec := new.time.tv_sec - old.time.tv_sec
  let nsec := new.time.tv_nsec - old.time.tv_nsec + tolerance
  let d1 : timespec :=
    if nsec ≥ 1000000000 then { tv_sec := sec + 1, tv_nsec := nsec - 1000000000 }
    else { tv_sec := sec, tv_nsec := nsec }
  if d1.tv_nsec < 0 then { tv_sec := d1.tv_sec - 1, tv_nsec := d1.tv_nsec + 1000000000 }
  else d1

/-- The function `check_tolerance`. -/
def check_tolerance (diff : timespec) (sec nsec tolerance : Int) : Int :=
  if diff.tv_sec = sec ∧ diff.tv_nsec ≥ nsec ∧ diff.tv_nsec ≤ nsec + 2 * tolerance then 1
  else 0

/-- The function `get_second`; its first parameter `diff` is not used, and the seconds are
returned as an `int`. -/
def get_second (_diff : timespec) (min sig : time_info_t) (tolerance : Int) : Int :=
  if min.time.tv_sec ≠ 0 then int32 (get_diff min sig tolerance).tv_sec else 0

/-! ## add_minute (lines 386-430) -/

/-- The month and year carry of `add_minute` (lines 411-421), for `dcf->mon > 0`. -/
def add_minute_month (d : dcf77_time) : dcf77_time :=
  let d1 : dcf77_time :=
    if d.mon = 2 ∧ d.year ≥ 0 ∧ d.day > 28 ∧ c_rem d.year 4 ≠ 0 then
      { d with day := 1, mon := int8 (d.mon + 1) }
    else if d.mon = 2 ∧ d.year ≥ 0 ∧ d.day > 29 ∧ c_rem d.year 4 = 0 then
      { d with day := 1, mon := int8 (d.mon + 1) }
    else if (d.mon = 4 ∨ d.mon = 6 ∨ d.mon = 9 ∨ d.mon = 11) ∧ d.day > 30 then
      { d with day := 1, mon := int8 (d.mon + 1) }
    else if (d.mon = 1 ∨ d.mon = 3 ∨ d.mon = 5 ∨ d.mon = 7 ∨ d.mon = 8 ∨ d.mon = 10 ∨
        d.mon = 12) ∧ d.day > 31 then
      { d with day := 1, mon := int8 (d.mon + 1) }
    else d
  if d1.year ≥ 0 then
    if d1.mon > 12 then
      { d1 with mon := 1, year := if int8 (d1.year + 1) > 99 then 0 else int8 (d1.year + 1) }
    else d1
  else d1

/-- The day carry of `add_minute` (lines 403-424), for `dcf->hour / 24 != 0`. -/
def add_minute_day (d : dcf77_time) : dcf77_time :=
  let d1 : dcf77_time :=
    if d.wday > 0 then
      { d with wday := if int8 (d.wday + c_div d.hour 24) > 7
                       then int8 (int8 (d.wday + c_div d.hour 24) - 7)
                       else int8 (d.wday + c_div d.hour 24) }
    else d
  let d2 : dcf77_time :=
    if d1.day ≥ 0 then
      let d3 : dcf77_time := { d1 with day := int8 (d1.day + c_div d1.hour 24) }
      if d3.mon > 0 then add_minute_month d3 else d3
    else d1
  { d2 with hour := c_rem d2.hour 24 }

/-- The calendar part of `add_minute` (lines 395-429). -/
def add_minute_fields (dcf : dcf77_time) (count : Int) : dcf77_time :=
  if dcf.min ≥ 0 then
    let d1 : dcf77_time := { dcf with min := int8 (dcf.min + count) }
    if c_div d1.min 60 ≠ 0 then
      let d2 : dcf77_time :=
        if d1.hour ≥ 0 then
          let d3 : dcf77_time := { d1 with hour := int8 (d1.hour + c_div d1.min 60) }
          if c_div d3.hour 24 ≠ 0 then add_minute_day d3 else d3
        else d1
      { d2 with min := c_rem d2.min 60 }
    else d1
  else dcf

/-- The function `add_minute (dcf, info, count)`: `*dcf` and `*info` afterwards. -/
def add_minute (dcf : dcf77_time) (info : time_info_t) (count : Int) :
    dcf77_time × time_info_t :=
  let info1 : time_info_t :=
    if info.time.tv_sec ≠ 0 then
      { time := { info.time with tv_sec := info.time.tv_sec + count * 60 },
        clock := { info.clock with tv_sec := info.clock.tv_sec + count * 60 } }
    else info
  let d0 : dcf77_time :=
    if dcf.stamp ≠ 0 then { dcf with stamp := dcf.stamp + count * 60 } else dcf
  (add_minute_fields d0 count, info1)

/-! ## init_dcf77_data, init_time_info and gather_data (lines 661-724) -/

/-- The struct `dcf77_data`. -/
structure dcf77_data where
  string : List Char
  block : Int
  deriving DecidableEq

/-- The function `init_dcf77_data`: 128 NUL characters and block 0. -/
def init_dcf77_data : dcf77_data :=
  { string := List.replicate 128 (Char.ofNat 0), block := 0 }

/-- The function `init_time_info`. -/
def init_time_info : time_info_t :=
  { time := { tv_sec := 0, tv_nsec := 0 }, clock := { tv_sec := 0, tv_nsec := 0 } }

/-- The conversion of an `int` to a `char`, as the byte it is stored as. -/
def c_char (x : Int) : Char := Char.ofNat (x % 256).toNat

/-- The element `s[i]` of a character array. -/
def rdc (s : List Char) (i : Nat) : Char := s.getD i (Char.ofNat 0)

/-- The function `strlen`: the number of characters before the first NUL. -/
def c_strlen (s : List Char) : Nat := (s.takeWhile (fun c => c ≠ Char.ofNat 0)).length

/-- The loop of line 685, which stores the symbols `clock_data[1..14]` as characters at
`block * 14`; `n` is the number of iterations left.  `block` is `time->min % 3` and is not
negative for a minute that is not negative. -/
def gather_data_bits (clock_data : List Int) (block : Int) : Nat → Nat → List Char → List Char
  | 0, _, s => s
  | n + 1, i, s =>
    gather_data_bits clock_data block n (i + 1)
      (s.set (block * 14 + i).toNat (c_char (48 + rd clock_data (i + 1))))

/-- Lines 688-702 of `gather_data`: the tail of the line, written for block 2. -/
def gather_data_tail (s : List Char) (time : dcf77_time) : List Char :=
  let s1 := write_bcd s 42 time.min
  let s2 := write_bcd s1 50 time.hour
  let s3 := write_bcd s2 58 time.day
  let s4 := write_bcd s3 66 time.mon
  let s5 := write_bcd s4 71 time.wday
  let s6 := write_bcd s5 74 time.year
  let s7 := s6.set 82 '+'
  let s8 := if time.tz > 0 then s7.set 83 (c_char (48 + time.tz)) else s7.set 83 '0'
  (s8.set 84 (Char.ofNat 10)).set 85 (Char.ofNat 0)

/-- The function `gather_data`: the buffer afterwards and the bytes handed to `write`, if
the function writes.  `fifo_name_len` is `strlen (fifo_name)`; `fifo_open` says whether
`open` succeeds, should it be called; the debug output is left out. -/
def gather_data (data : dcf77_data) (clock_data : List Int) (time : dcf77_time)
    (fifo_name_len : Nat) (fifo_open : Bool) : dcf77_data × Option (List Char) :=
  if fifo_name_len = 0 then (data, none)
  else if time.stamp = 0 ∨ time.tz < 0 ∨ time.wday < 0 then (data, none)
  else
    let block := c_rem time.min 3
    let d1 : dcf77_data := if block = 0 then init_dcf77_data else { data with block := block }
    let s2 := gather_data_bits clock_data block 14 0 d1.string
    if block = 2 then
      let s3 := gather_data_tail s2 time
      ({ string := s3.set 0 (Char.ofNat 0), block := block },
        if rdc s3 0 ≠ Char.ofNat 0 ∧ rdc s3 14 ≠ Char.ofNat 0 ∧ rdc s3 28 ≠ Char.ofNat 0 then
          if fifo_open then some (s3.take (c_strlen s3)) else none
        else none)
    else ({ string := s2, block := block }, none)

/-- One call of `gather_data`: the symbols, the time and whether `open` succeeds. -/
structure gather_call where
  clock_data : List Int
  time : dcf77_time
  fifo_open : Bool

/-- The buffer after a sequence of calls of `gather_data` with a non-empty pipe name. -/
def gather_run (data : dcf77_data) (calls : List gather_call) : dcf77_data :=
  calls.foldl (fun d c => (gather_data d c.clock_data c.time 1 c.fifo_open).1) data

/-! ## The main loop (lines 978-1251) -/

/-- A store `data[i] = v` with an `int` index; a store outside the array is left out. -/
def wr (data : List Int) (i : Int) (v : Int) : List Int :=
  if 0 ≤ i then data.set i.toNat v else data

/-- The four statements that store the symbol of the second (lines 994-997, 1163-1166). -/
def store_data (data : List Int) (sec_cnt sig_short sig_long : Int) : List Int :=
  let d1 := if sig_short ≠ 0 ∧ sig_long = 0 then wr data sec_cnt 0 else data
  let d2 := if sig_short = 0 ∧ sig_long ≠ 0 then wr d1 sec_cnt 1 else d1
  let d3 := if sig_short ≠ 0 ∧ sig_long ≠ 0 ∧ sig_short < sig_long then wr d2 sec_cnt 0 else d2
  if sig_short ≠ 0 ∧ sig_long ≠ 0 ∧ sig_short > sig_long then wr d3 sec_cnt 1 else d3

/-- The first loop of line 1049: the index at which the scan from 58 downwards stops. -/
def shift_scan (data : List Int) : Nat → Int → Int
  | 0, i => i
  | n + 1, i => if i ≥ 0 ∧ rd data i.toNat = -1 then shift_scan data n (i - 1) else i

/-- The second loop (line 1050): `data[j] = data[i]` downwards while `i >= 0`. -/
def shift_copy : Nat → Int → Int → List Int → Int × List Int
  | 0, _, j, data => (j, data)
  | n + 1, i, j, data =>
    if i ≥ 0 then shift_copy n (i - 1) (j - 1) (wr data j (rd data i.toNat)) else (j, data)

/-- The third loop (line 1051): `data[j] = -1` downwards while `j >= 0`. -/
def shift_fill : Nat → Int → List Int → List Int
  | 0, _, data => data
  | n + 1, j, data => if j ≥ 0 then shift_fill n (j - 1) (wr data j (-1)) else data

/-- Lines 1049-1051: the symbols received so far are moved to end at slot 58. -/
def shift_data (data : List Int) : List Int :=
  let i := shift_scan data 60 58
  let r := shift_copy 60 i 58 data
  shift_fill 60 r.1 r.2

/-- The variables of `main` that the loop works on, with the static `precision` of
`set_ntp_shm` and the shared-memory record (`none` without a unit number).  `fifo_name_len`
is `strlen (fifo_name)`; `written` collects the lines handed to `write`, the newest first. -/
structure main_state where
  min_last : time_info_t
  sec_last : time_info_t
  sig_last : time_info_t
  sec_cnt : Int
  min_cnt : Int
  edge_dir : Int
  sig_cnt : Int
  noise : Int
  data : List Int
  min_dev : Int
  tolerance : Int
  sig_stat : List Int
  sig_avr : Int
  sig_short : Int
  sig_long : Int
  time_last : dcf77_time
  time_now : dcf77_time
  block_data : dcf77_data
  ntp_shm : Option shmTime
  precision : Int
  fifo_name_len : Nat
  written : List (List Char)

/-- The block "check more then a minute" (lines 1009-1021 and 1175-1187). -/
def main_more_than_minute (st : main_state) : main_state :=
  let st1 : main_state := { st with min_cnt := st.min_cnt + 1, data := List.replicate 60 (-1) }
  let st2 : main_state :=
    if st1.min_cnt > 2 then
      { st1 with min_last := init_time_info, time_last := init_dcf77_time, min_cnt := 0 }
    else
      { st1 with time_last := (add_minute st1.time_last st1.min_last (c_div st1.sec_cnt 60)).1,
                 min_last := (add_minute st1.time_last st1.min_last (c_div st1.sec_cnt 60)).2 }
  { st2 with sec_cnt := st2.sec_cnt - c_div st2.sec_cnt 60 * 60 }

/-- The publish decision (lines 1093-1109): the global `sig_now`, the shared-memory record
and the static `precision` afterwards. -/
def main_publish (time_now : dcf77_time) (min_dev sig_avr : Int) (sig_now : time_info_t)
    (ntp_shm : Option shmTime) (precision : Int) : time_info_t × Option shmTime × Int :=
  if time_now.stamp ≠ 0 then
    if sig_now.clock.tv_sec + 1200 < time_now.stamp - time_now.tz * 3600 then
      (if sig_avr < 0 then
        { sig_now with clock := { tv_sec := time_now.stamp - time_now.tz * 3600 - 1,
                                  tv_nsec := 1000000000 + sig_avr } }
      else
        { sig_now with clock := { tv_sec := time_now.stamp - time_now.tz * 3600,
                                  tv_nsec := sig_avr } },
       ntp_shm, precision)
    else
      match ntp_shm with
      | some shm =>
        (sig_now, some (set_ntp_shm shm precision time_now min_dev sig_avr sig_now).1,
          (set_ntp_shm shm precision time_now min_dev sig_avr sig_now).2)
      | none => (sig_now, none, precision)
  else (sig_now, ntp_shm, precision)

/-- The block "check minute" for a minute of 60 seconds (lines 1072-1111); `diff` is the
distance from the minute reference.  The result carries the global `sig_now` as well. -/
def main_minute (L : Libc) (st : main_state) (sig_now : time_info_t) (diff : timespec) :
    main_state × time_info_t :=
  let min_dev := c_div (st.min_dev * 15 + (diff.tv_nsec - st.tolerance)) 16
  let r := check_data L st.data st.time_now st.time_last
  let block_data := if r.last.stamp = 0 ∧ r.now.stamp ≠ 0 then init_dcf77_data else st.block_data
  let p := main_publish r.now min_dev st.sig_avr sig_now st.ntp_shm st.precision
  ({ st with min_dev := min_dev, data := List.replicate 60 (-1), block_data := block_data,
             time_last := r.now, min_last := sig_now, sec_last := sig_now, min_cnt := 0,
             sec_cnt := 0, ntp_shm := p.2.1, precision := p.2.2,
             time_now := init_dcf77_time }, p.1)

/-- The second-marker branch (lines 994-1115). -/
def main_second (L : Libc) (fifo_open : Bool) (st : main_state) (sig_now : time_info_t)
    (diff : timespec) : main_state × time_info_t :=
  let st1 : main_state :=
    { st with data := store_data st.data st.sec_cnt st.sig_short st.sig_long,
              sig_short := 0, sig_long := 0 }
  let st2 : main_state :=
    if st1.min_last.time.tv_sec ≠ 0 then
      { st1 with sec_cnt := get_second diff st1.min_last sig_now st1.tolerance }
    else { st1 with sec_cnt := int32 (st1.sec_cnt + diff.tv_sec) }
  let st3 : main_state :=
    if st2.sec_cnt > 59 ∧ diff.tv_sec ≠ 2 then main_more_than_minute st2 else st2
  let st4 : main_state :=
    { st3 with sec_last :=
      { time := { st3.sec_last.time with tv_sec := st3.sec_last.time.tv_sec + 1 },
        clock := { st3.sec_last.clock with tv_sec := st3.sec_last.clock.tv_sec + 1 } } }
  let st5 : main_state :=
    if st4.sec_cnt > 14 ∧ st4.fifo_name_len ≠ 0 ∧ st4.time_last.stamp ≠ 0 ∧
        rdc st4.block_data.string (c_rem st4.time_last.min 3 * 14).toNat = Char.ofNat 0 then
      { st4 with
        block_data :=
          (gather_data st4.block_data st4.data st4.time_last st4.fifo_name_len fifo_open).1,
        written :=
          match (gather_data st4.block_data st4.data st4.time_last st4.fifo_name_len
            fifo_open).2 with
          | some line => line :: st4.written
          | none => st4.written }
    else st4
  let st6 : main_state :=
    if st5.min_last.time.tv_sec = 0 ∧ diff.tv_sec = 2 then
      { st5 with
        min_last :=
          { time := { sig_now.time with tv_sec := sig_now.time.tv_sec - 60 },
            clock := { sig_now.clock with tv_sec := sig_now.clock.tv_sec - 60 } },
        data := if st5.sec_cnt < 59 then shift_data st5.data else st5.data }
    else st5
  let r : main_state × time_info_t :=
    if st6.min_last.time.tv_sec ≠ 0 ∧ diff.tv_sec = 2 then
      if (get_diff st6.min_last sig_now st6.tolerance).tv_sec = 60 then
        main_minute L st6 sig_now (get_diff st6.min_last sig_now st6.tolerance)
      else (st6, sig_now)
    else (st6, sig_now)
  ({ r.1 with noise := r.1.noise - 1 }, r.2)

/-- The statistics of a short or long signal (lines 1122-1125, 1134-1135 and alike);
`nominal` is the nominal length of the signal. -/
def main_signal (st : main_state) (diff : timespec) (nominal : Int) : main_state :=
  let sig_stat := wr st.sig_stat st.sig_cnt (diff.tv_nsec - st.tolerance - nominal)
  { st with sig_stat := sig_stat,
            sig_avr := c_div ((List.range 60).foldl (fun a i => a + rd sig_stat i) 0) 60,
            sig_cnt := if st.sig_cnt + 1 ≥ 60 then 0 else st.sig_cnt + 1,
            noise := st.noise - 1 }

/-- The short-signal branch (lines 1121-1136). -/
def main_short (st : main_state) (diff : timespec) : main_state :=
  main_signal { st with sig_short := (st.sig_short + 1) % 4294967296 } diff 100000000

/-- The long-signal branch (lines 1141-1156). -/
def main_long (st : main_state) (diff : timespec) : main_state :=
  main_signal { st with sig_long := (st.sig_long + 1) % 4294967296 } diff 200000000

/-- The noise branch (lines 1161-1195). -/
def main_noise (st : main_state) (diff : timespec) : main_state :=
  let st3 : main_state :=
    if diff.tv_sec ≠ 0 then
      let st1 : main_state :=
        { st with data := store_data st.data st.sec_cnt st.sig_short st.sig_long,
                  sig_short := 0, sig_long := 0,
                  sec_last :=
                    { time := { st.sec_last.time with
                                tv_sec := st.sec_last.time.tv_sec + diff.tv_sec },
                      clock := { st.sec_last.clock with
                                 tv_sec := st.sec_last.clock.tv_sec + diff.tv_sec } },
                  sec_cnt := int32 (st.sec_cnt + diff.tv_sec) }
      if st1.sec_cnt > 59 then main_more_than_minute st1 else st1
    else st
  { st3 with noise := st3.noise + 1 }

/-- Lines 1198-1199: the noise counter is kept from going below 0, and a counter above 9
puts the decoder into the search state. -/
def main_noise_check (st : main_state) : main_state :=
  let st1 : main_state := if st.noise < 0 then { st with noise := 0 } else st
  if st1.noise > 9 then { st1 with edge_dir := 0 } else st1

/-- The syncing branch (lines 1204-1244). -/
def main_sync (st : main_state) (sig_now : time_info_t) : main_state :=
  let st0 : main_state :=
    { st with time_last := init_dcf77_time, time_now := init_dcf77_time,
              block_data := init_dcf77_data, data := List.replicate 60 (-1),
              sig_stat := List.replicate 60 0, sec_last := init_time_info,
              min_last := init_time_info, sig_short := 0, sig_long := 0, sig_cnt := 0,
              sig_avr := 0, min_cnt := 0, sec_cnt := 0, noise := 0 }
  let diff := get_diff st.sig_last sig_now st.tolerance
  let st1 : main_state :=
    if check_tolerance diff 0 100000000 st0.tolerance ≠ 0 then
      { st0 with edge_dir := -1, sig_short := st0.sig_short + 1, sec_last := st0.sig_last }
    else st0
  let st2 : main_state :=
    if check_tolerance diff 0 200000000 st1.tolerance ≠ 0 then
      { st1 with edge_dir := -1, sig_long := st1.sig_long + 1, sec_last := st1.sig_last }
    else st1
  let st3 : main_state :=
    if check_tolerance diff 0 800000000 st2.tolerance ≠ 0 ∨
        check_tolerance diff 0 900000000 st2.tolerance ≠ 0 then
      { st2 with edge_dir := 1, sec_last := sig_now }
    else st2
  if check_tolerance diff 1 800000000 st3.tolerance ≠ 0 ∨
      check_tolerance diff 1 900000000 st3.tolerance ≠ 0 then
    { st3 with edge_dir := 1, sec_last := sig_now, min_last := sig_now }
  else st3

/-- The branch of the loop body that an edge time `sig_now` takes. -/
inductive edge_class where
  | idle
  | second_marker
  | short_signal
  | long_signal
  | noise
  | syncing
  deriving DecidableEq

/-- The tests of lines 980, 982, 991, 1120, 1140 and 1160, in this order. -/
def classify (st : main_state) (sig_now : time_info_t) : edge_class :=
  if sig_now.time.tv_nsec ≠ st.sig_last.time.tv_nsec ∨
      sig_now.time.tv_sec ≠ st.sig_last.time.tv_sec then
    if st.edge_dir ≠ 0 then
      if (get_diff st.sec_last sig_now st.tolerance).tv_sec ≠ 0 ∧
          check_tolerance (get_diff st.sec_last sig_now st.tolerance)
            (get_diff st.sec_last sig_now st.tolerance).tv_sec 0 st.tolerance ≠ 0 then
        edge_class.second_marker
      else if check_tolerance (get_diff st.sec_last sig_now st.tolerance) 0
          (100000000 + st.sig_avr) st.tolerance ≠ 0 then
        edge_class.short_signal
      else if check_tolerance (get_diff st.sec_last sig_now st.tolerance) 0
          (200000000 + st.sig_avr) st.tolerance ≠ 0 then
        edge_class.long_signal
      else edge_class.noise
    else edge_class.syncing
  else edge_class.idle

/-- One pass of the loop body (lines 980-1248) with the edge time `sig_now`; `fifo_open`
says whether `open` succeeds, should `gather_data` call it. -/
def main_edge (L : Libc) (st : main_state) (sig_now : time_info_t) (fifo_open : Bool) :
    main_state :=
  match classify st sig_now with
  | edge_class.idle => st
  | edge_class.second_marker =>
    let r := main_second L fifo_open st sig_now (get_diff st.sec_last sig_now st.tolerance)
    { main_noise_check r.1 with sig_last := r.2 }
  | edge_class.short_signal =>
    { main_noise_check (main_short st (get_diff st.sec_last sig_now st.tolerance)) with
      sig_last := sig_now }
  | edge_class.long_signal =>
    { main_noise_check (main_long st (get_diff st.sec_last sig_now st.tolerance)) with
      sig_last := sig_now }
  | edge_class.noise =>
    { main_noise_check (main_noise st (get_diff st.sec_last sig_now st.tolerance)) with
      sig_last := sig_now }
  | edge_class.syncing => { main_sync st sig_now with sig_last := sig_now }

/-- The loop over a sequence of edge times. -/
def main_run (L : Libc) (st : main_state) (edges : List (time_info_t × Bool)) : main_state :=
  edges.foldl (fun s e => main_edge L s e.1 e.2) st

/-- Every edge of the sequence takes the noise branch in the state it meets. -/
def noise_run (L : Libc) : main_state → List (time_info_t × Bool) → Bool
  | _, [] => true
  | st, e :: es =>
    decide (classify st e.1 = edge_class.noise) && noise_run L (main_edge L st e.1 e.2) es

/-- The variables of `main` when the loop is entered (lines 863-869 and 950-963), for a
given tolerance, shared-memory record and length of the pipe name.  `noise` and `sig_avr`
have no initial value in the source; the syncing branch, which the first edge takes, sets
both to 0 before they are read. -/
def main_start (tolerance : Int) (ntp_shm : Option shmTime) (fifo_name_len : Nat) :
    main_state :=
  { min_last := init_time_info, sec_last := init_time_info, sig_last := init_time_info,
    sec_cnt := 0, min_cnt := 0, edge_dir := 0, sig_cnt := 0, noise := 0,
    data := List.replicate 60 (-1), min_dev := 0, tolerance := tolerance,
    sig_stat := List.replicate 60 0, sig_avr := 0, sig_short := 0, sig_long := 0,
    time_last := init_dcf77_time, time_now := init_dcf77_time,
    block_data := init_dcf77_data, ntp_shm := ntp_shm, precision := 5 * 16,
    fifo_name_len := fifo_name_len, written := [] }

/-- A call of `gather_data` with a locked time whose fields are in range and with symbols
1..14 that are 0, 1 or unknown. -/
def gather_call_ok (c : gather_call) : Prop :=
  c.time.stamp ≠ 0 ∧ (0 ≤ c.time.min ∧ c.time.min ≤ 59) ∧
  (0 ≤ c.time.hour ∧ c.time.hour ≤ 23) ∧ (1 ≤ c.time.day ∧ c.time.day ≤ 31) ∧
  (1 ≤ c.time.wday ∧ c.time.wday ≤ 7) ∧ (1 ≤ c.time.mon ∧ c.time.mon ≤ 12) ∧
  (0 ≤ c.time.year ∧ c.time.year ≤ 99) ∧ (1 ≤ c.time.tz ∧ c.time.tz ≤ 2) ∧
  ∀ i, i < 14 → rd c.clock_data (i + 1) = -1 ∨ rd c.clock_data (i + 1) = 0 ∨
    rd c.clock_data (i + 1) = 1

instance (c : gather_call) : Decidable (gather_call_ok c) := by
  unfold gather_call_ok
  infer_instance

/-- The buffer of `gather_data` holds each of its three blocks whole: a block whose first
character is set consists of 14 characters `'/'` (unknown), `'0'` or `'1'`. -/
def buffer_ok (s : List Char) : Prop :=
  s.length = 128 ∧
  ∀ b, b < 3 → rdc s (14 * b) ≠ Char.ofNat 0 → ∀ i, i < 14 →
    rdc s (14 * b + i) = '/' ∨ rdc s (14 * b + i) = '0' ∨ rdc s (14 * b + i) = '1'

/-! ## The calendar successor, as the specification words it -/

/-- The length of a month, February having 29 days exactly when the year is a multiple
of 4. -/
def month_length (mon year : Int) : Int :=
  if mon = 2 then (if year % 4 = 0 then 29 else 28)
  else if mon = 4 ∨ mon = 6 ∨ mon = 9 ∨ mon = 11 then 30
  else 31

/-- A fully known valid time: min, hour, day, wday, mon and year are inside their ranges
and the day does not exceed the length of the month. -/
def valid_time (d : dcf77_time) : Prop :=
  (0 ≤ d.min ∧ d.min ≤ 59) ∧ (0 ≤ d.hour ∧ d.hour ≤ 23) ∧
  (1 ≤ d.day ∧ d.day ≤ month_length d.mon d.year) ∧ (1 ≤ d.wday ∧ d.wday ≤ 7) ∧
  (1 ≤ d.mon ∧ d.mon ≤ 12) ∧ (0 ≤ d.year ∧ d.year ≤ 99)

instance (d : dcf77_time) : Decidable (valid_time d) := by
  unfold valid_time
  infer_instance

/-- The day after: the weekday wraps 7 -> 1, the day wraps at the month length carrying
into the month, the month wraps 12 -> 1 carrying into the year, the year wraps 99 -> 0. -/
def next_day (d : dcf77_time) : dcf77_time :=
  if d.day < month_length d.mon d.year then
    { d with wday := if d.wday = 7 then 1 else d.wday + 1, day := d.day + 1 }
  else if d.mon < 12 then
    { d with wday := if d.wday = 7 then 1 else d.wday + 1, day := 1, mon := d.mon + 1 }
  else
    { d with wday := if d.wday = 7 then 1 else d.wday + 1, day := 1, mon := 1,
             year := if d.year = 99 then 0 else d.year + 1 }

/-- The calendar successor minute: min wraps 59 -> 0 carrying into the hour, the hour
wraps 23 -> 0 carrying into the day. -/
def next_minute (d : dcf77_time) : dcf77_time :=
  if d.min < 59 then { d with min := d.min + 1 }
  else if d.hour < 23 then { d with min := 0, hour := d.hour + 1 }
  else next_day { d with min := 0, hour := 0 }

/-- The time `count` minutes later, for a minute and hour carry of at most one day: the
minutes and hours are added up and reduced, and a sum of 24 hours or more gives the day
after. -/
def minutes_later (d : dcf77_time) (count : Int) : dcf77_time :=
  if (d.hour + (d.min + count) / 60) / 24 = 0 then
    { d with min := (d.min + count) % 60, hour := d.hour + (d.min + count) / 60 }
  else
    next_day { d with min := (d.min + count) % 60,
                      hour := (d.hour + (d.min + count) / 60) % 24 }

/-- The function `add_minute` with count 1, applied `n` times to `*dcf` and `*info`. -/
def add_minute_times : Nat → dcf77_time × time_info_t → dcf77_time × time_info_t
  | 0, x => x
  | n + 1, x => add_minute_times n (add_minute x.1 x.2 1)

/-- Each of min, hour, day, wday, mon and year is unknown (negative) or inside its
declared range. -/
def fields_in_range (d : dcf77_time) : Prop :=
  (d.min < 0 ∨ (0 ≤ d.min ∧ d.min ≤ 59)) ∧ (d.hour < 0 ∨ (0 ≤ d.hour ∧ d.hour ≤ 23)) ∧
  (d.day < 0 ∨ (1 ≤ d.day ∧ d.day ≤ 31)) ∧ (d.wday < 0 ∨ (1 ≤ d.wday ∧ d.wday ≤ 7)) ∧
  (d.mon < 0 ∨ (1 ≤ d.mon ∧ d.mon ≤ 12)) ∧ (d.year < 0 ∨ (0 ≤ d.year ∧ d.year ≤ 99))

instance (d : dcf77_time) : Decidable (fields_in_range d) := by
  unfold fields_in_range
  infer_instance

/-! ## The even-parity check, as the specification words it -/

/-- The even-parity check over the symbols `p .. p + count - 1` succeeds: every symbol is a
bit and the number of ones, the parity bit included, is even. -/
def parity_holds (data : List Int) (p count : Nat) : Prop :=
  (∀ i, i < count → rd data (p + i) = 0 ∨ rd data (p + i) = 1) ∧
  (∑ i in Finset.range count, rd data (p + i)) % 2 = 0

instance (data : List Int) (p count : Nat) : Decidable (parity_holds data p count) := by
  unfold parity_holds
  infer_instance

/-- A vector of 60 symbols 0, 1 and unknown (-1). -/
def tri_state (data : List Int) : Prop :=
  ∀ i, i < 60 → rd data i = -1 ∨ rd data i = 0 ∨ rd data i = 1

instance (data : List Int) : Decidable (tri_state data) := by
  unfold tri_state
  infer_instance

/-! ## Properties of check_parity and check_number -/

theorem c_rem_two_of_nonneg (a : Int) (h : 0 ≤ a) : c_rem a 2 = a % 2 := by
  unfold c_rem
  exact Int.tmod_eq_emod h (by decide)

/-- The counting loop on a stretch without unknown symbols. -/
theorem check_parity_count_known (data : List Int) (p : Nat) :
    ∀ (n i : Nat) (parity fail : Int),
      (∀ j, i ≤ j → j < i + n → rd data (p + j) = 0 ∨ rd data (p + j) = 1) →
      check_parity_count data p n i parity fail =
        (parity + ((List.range' i n).countP (fun j => decide (rd data (p + j) = 1)) : Nat), fail) := by
  intro n
  induction n with
  | zero => intro i parity fail _; simp [check_parity_count]
  | succ n ih =>
    intro i parity fail h
    have h0 := h i (le_refl i) (by omega)
    have hrest : ∀ j, i + 1 ≤ j → j < i + 1 + n → rd data (p + j) = 0 ∨ rd data (p + j) = 1 :=
      fun j h1 h2 => h j (by omega) (by omega)
    rw [check_parity_count, List.range'_succ, List.countP_cons]
    rcases h0 with h0 | h0
    · rw [if_neg (by rw [h0]; decide), ih (i + 1) _ _ hrest, h0]
      simp
    · rw [if_neg (by rw [h0]; decide), ih (i + 1) _ _ hrest, h0]
      simp
      omega

/-- The result of `check_parity` on a block of bits, with the number of ones. -/
theorem check_parity_known_eq (data : List Int) (p count : Nat) (hc : 2 ≤ count)
    (hsym : ∀ i, i < count → rd data (p + i) = 0 ∨ rd data (p + i) = 1) :
    check_parity data p count =
      (if (((List.range (count - 1)).countP (fun i => decide (rd data (p + i) = 1)) : Nat) : Int) % 2
          = rd data (p + (count - 1)) then 1 else -1, data) := by
  have h0 : ¬ rd data p < 0 := by
    have := hsym 0 (by omega)
    simp only [Nat.add_zero] at this
    rcases this with h | h <;> rw [h] <;> decide
  have hl : ¬ rd data (p + (count - 1)) < 0 := by
    rcases hsym (count - 1) (by omega) with h | h <;> rw [h] <;> decide
  have hcnt := check_parity_count_known data p (count - 1) 0 0 0
    (fun j _ hj => hsym j (by omega))
  unfold check_parity
  rw [if_neg h0, if_neg hl]
  simp only [hcnt, List.range_eq_range']
  simp only [gt_iff_lt, show ¬ ((1 : Int) < 0) by decide, show ¬ ((0 : Int) < 0) by decide,
    if_false, ne_eq, not_true_eq_false, zero_add]
  rw [c_rem_two_of_nonneg _ (Int.ofNat_nonneg _)]
  split <;> rfl

/-- C2. On a block of `count ≥ 2` symbols without an unknown one, `check_parity` returns 1
exactly when the number of 1-bits among the first `count - 1` symbols has the parity of the
last symbol, returns -1 otherwise, and leaves the array unchanged. -/
theorem check_parity_no_unknown (data : List Int) (p count : Nat) (hc : 2 ≤ count)
    (hsym : ∀ i, i < count → rd data (p + i) = 0 ∨ rd data (p + i) = 1) :
    ((check_parity data p count).1 = 1 ↔
      (((List.range (count - 1)).countP (fun i => decide (rd data (p + i) = 1)) : Nat) : Int) % 2
        = rd data (p + (count - 1))) ∧
    ((((List.range (count - 1)).countP (fun i => decide (rd data (p + i) = 1)) : Nat) : Int) % 2
        ≠ rd data (p + (count - 1)) → (check_parity data p count).1 = -1) ∧
    (check_parity data p count).2 = data := by
  rw [check_parity_known_eq data p count hc hsym]
  refine ⟨?_, ?_, rfl⟩
  · constructor
    · intro h
      by_contra hne
      simp [hne] at h
    · intro h
      simp [h]
  · intro h
    simp [h]

theorem check_parity_no_unknown_witness :
    ((check_parity [0, 1, 1, 0, 1, 1] 1 4).1 = 1 ↔
      (((List.range (4 - 1)).countP (fun i => decide (rd [0, 1, 1, 0, 1, 1] (1 + i) = 1)) : Nat) : Int) % 2
        = rd [0, 1, 1, 0, 1, 1] (1 + (4 - 1))) ∧
    ((((List.range (4 - 1)).countP (fun i => decide (rd [0, 1, 1, 0, 1, 1] (1 + i) = 1)) : Nat) : Int) % 2
        ≠ rd [0, 1, 1, 0, 1, 1] (1 + (4 - 1)) → (check_parity [0, 1, 1, 0, 1, 1] 1 4).1 = -1) ∧
    (check_parity [0, 1, 1, 0, 1, 1] 1 4).2 = [0, 1, 1, 0, 1, 1] :=
  check_parity_no_unknown [0, 1, 1, 0, 1, 1] 1 4 (by decide) (by decide)

/-- The loop of `check_number` stops early when it meets an unknown symbol. -/
theorem check_number_loop_unknown (data : List Int) (p : Nat) :
    ∀ (n i : Nat) (number : Int), (∃ j, i ≤ j ∧ j < i + n ∧ rd data (p + j) < 0) →
      (check_number_loop data p n i number).1 < i + n := by
  intro n
  induction n with
  | zero => intro i number ⟨j, h1, h2, _⟩; omega
  | succ n ih =>
    intro i number ⟨j, h1, h2, h3⟩
    rw [check_number_loop]
    by_cases hi : rd data (p + i) < 0
    · rw [if_pos hi]
      show i < i + (n + 1)
      omega
    · rw [if_neg hi]
      have hj : j ≠ i := fun e => hi (e ▸ h3)
      have := ih (i + 1) (if rd data (p + i) = 1 then number + 2 ^ (i % 4) else number)
        ⟨j, by omega, by omega, h3⟩
      omega

/-- The loop of `check_number` on a stretch of known symbols adds up the weighted bits. -/
theorem check_number_loop_known (data : List Int) (p : Nat) :
    ∀ (n i : Nat) (number : Int),
      (∀ j, i ≤ j → j < i + n → rd data (p + j) = 0 ∨ rd data (p + j) = 1) →
      check_number_loop data p n i number =
        (i + n, number + ∑ j in Finset.range n, rd data (p + (i + j)) * 2 ^ ((i + j) % 4)) := by
  intro n
  induction n with
  | zero => intro i number _; simp [check_number_loop]
  | succ n ih =>
    intro i number h
    have h0 := h i (le_refl i) (by omega)
    have hrest : ∀ j, i + 1 ≤ j → j < i + 1 + n → rd data (p + j) = 0 ∨ rd data (p + j) = 1 :=
      fun j h1 h2 => h j (by omega) (by omega)
    rw [check_number_loop, Finset.sum_range_succ']
    have hshift : ∀ k : Nat, i + 1 + k = i + (k + 1) := fun k => by omega
    rcases h0 with h0 | h0
    · rw [if_neg (by rw [h0]; decide), ih (i + 1) _ hrest]
      simp only [h0, hshift, show ¬ ((0 : Int) = 1) by decide, if_false, Nat.add_zero, zero_mul,
        add_zero]
    · rw [if_neg (by rw [h0]; decide), ih (i + 1) _ hrest]
      simp only [h0, hshift, if_true, Nat.add_zero, one_mul]
      congr 1
      ring

/-- C4. For `count` in 1..8 and any bounds `lo`, `hi` (in particular `lo ≤ hi`),
`check_number` returns -1 if one of the first `count` symbols is unknown; otherwise, with `n` the sum of `data[i] * 2^(i mod 4)`
over `i < count`, it returns `n` when `lo ≤ n ≤ hi` and -1 when `n` is outside. -/
theorem check_number_spec (data : List Int) (p count : Nat) (lo hi : Int)
    (h1 : 1 ≤ count) (h8 : count ≤ 8)
    (hsym : ∀ i, i < count → rd data (p + i) = 0 ∨ rd data (p + i) = 1 ∨ rd data (p + i) < 0) :
    ((∃ i, i < count ∧ rd data (p + i) < 0) → check_number data p count lo hi = -1) ∧
    ((∀ i, i < count → 0 ≤ rd data (p + i)) →
      (lo ≤ ∑ i in Finset.range count, rd data (p + i) * 2 ^ (i % 4) ∧
        ∑ i in Finset.range count, rd data (p + i) * 2 ^ (i % 4) ≤ hi →
          check_number data p count lo hi = ∑ i in Finset.range count, rd data (p + i) * 2 ^ (i % 4)) ∧
      (∑ i in Finset.range count, rd data (p + i) * 2 ^ (i % 4) < lo ∨
        hi < ∑ i in Finset.range count, rd data (p + i) * 2 ^ (i % 4) →
          check_number data p count lo hi = -1)) := by
  constructor
  · rintro ⟨j, hj, hneg⟩
    unfold check_number
    by_cases h0 : rd data p < 0
    · rw [if_pos h0]
    · rw [if_neg h0]
      have := check_number_loop_unknown data p count 0 0 ⟨j, by omega, by omega, hneg⟩
      simp only [Nat.zero_add] at this
      simp [this]
  · intro hk
    have hbits : ∀ j, 0 ≤ j → j < 0 + count → rd data (p + j) = 0 ∨ rd data (p + j) = 1 := by
      intro j _ hj
      rcases hsym j (by omega) with h | h | h
      · exact Or.inl h
      · exact Or.inr h
      · have := hk j (by omega)
        omega
    have hloop := check_number_loop_known data p count 0 0 hbits
    simp only [Nat.zero_add, zero_add] at hloop
    have h0 : ¬ rd data p < 0 := by
      have := hk 0 (by omega)
      simp only [Nat.add_zero] at this
      omega
    unfold check_number
    rw [if_neg h0]
    simp only [hloop]
    constructor
    · rintro ⟨ha, hb⟩
      rw [if_neg]
      push_neg
      exact ⟨le_refl _, ha, hb⟩
    · intro h
      rw [if_pos]
      rcases h with h | h
      · exact Or.inr (Or.inl h)
      · exact Or.inr (Or.inr h)

theorem check_number_spec_witness :
    ((∃ i, i < 4 ∧ rd [0, 1, 0, 0, 1, 1] (1 + i) < 0) → check_number [0, 1, 0, 0, 1, 1] 1 4 0 9 = -1) ∧
    ((∀ i, i < 4 → 0 ≤ rd [0, 1, 0, 0, 1, 1] (1 + i)) →
      (0 ≤ ∑ i in Finset.range 4, rd [0, 1, 0, 0, 1, 1] (1 + i) * 2 ^ (i % 4) ∧
        ∑ i in Finset.range 4, rd [0, 1, 0, 0, 1, 1] (1 + i) * 2 ^ (i % 4) ≤ 9 →
          check_number [0, 1, 0, 0, 1, 1] 1 4 0 9 = ∑ i in Finset.range 4, rd [0, 1, 0, 0, 1, 1] (1 + i) * 2 ^ (i % 4)) ∧
      (∑ i in Finset.range 4, rd [0, 1, 0, 0, 1, 1] (1 + i) * 2 ^ (i % 4) < 0 ∨
        9 < ∑ i in Finset.range 4, rd [0, 1, 0, 0, 1, 1] (1 + i) * 2 ^ (i % 4) →
          check_number [0, 1, 0, 0, 1, 1] 1 4 0 9 = -1)) :=
  check_number_spec [0, 1, 0, 0, 1, 1] 1 4 0 9 (by decide) (by decide) (by decide)

/-- Writing behind a prefix is writing into the rest. -/
theorem set_append_add {α : Type} (pre l : List α) (i : Nat) (v : α) :
    (pre ++ l).set (pre.length + i) v = pre ++ l.set i v := by
  rw [List.set_append_right _ _ (Nat.le_add_right _ _)]
  simp

/-- A list of at least eight elements starts with eight elements. -/
theorem exists_eight_cons {α : Type} (l : List α) (h : 8 ≤ l.length) :
    ∃ c0 c1 c2 c3 c4 c5 c6 c7 post, l = c0 :: c1 :: c2 :: c3 :: c4 :: c5 :: c6 :: c7 :: post := by
  rcases l with _ | ⟨c0, _ | ⟨c1, _ | ⟨c2, _ | ⟨c3, _ | ⟨c4, _ | ⟨c5, _ | ⟨c6, _ | ⟨c7, post⟩⟩⟩⟩⟩⟩⟩⟩
  all_goals first
    | exact ⟨c0, c1, c2, c3, c4, c5, c6, c7, post, rfl⟩
    | (simp at h)

/-- The function `write_bcd` overwrites exactly the eight characters at `p .. p+7`, with a
pattern that depends on `num` only. -/
theorem write_bcd_eq (buf : List Char) (p : Nat) (num : Int) (hlen : p + 8 ≤ buf.length) :
    write_bcd buf p num = buf.take p ++
      (write_bcd (List.replicate 8 '0') 0 num) ++ buf.drop (p + 8) := by
  obtain ⟨pre, rest, rfl, hpre⟩ : ∃ pre rest, buf = pre ++ rest ∧ pre.length = p :=
    ⟨buf.take p, buf.drop p, (List.take_append_drop p buf).symm, by simp; omega⟩
  subst hpre
  simp only [List.length_append] at hlen
  obtain ⟨c0, c1, c2, c3, c4, c5, c6, c7, post, rfl⟩ := exists_eight_cons rest (by omega)
  simp [write_bcd, write_bcd_loop, Nat.add_assoc, set_append_add, List.drop_append]

/-- The function `write_bcd` keeps the length of the buffer. -/
theorem write_bcd_length (buf : List Char) (p : Nat) (num : Int) :
    (write_bcd buf p num).length = buf.length := by
  simp [write_bcd, write_bcd_loop]

/-- The eight characters that `write_bcd` leaves at `p .. p+7`. -/
theorem write_bcd_window (buf : List Char) (p : Nat) (num : Int) (hlen : p + 8 ≤ buf.length) :
    ((write_bcd buf p num).drop p).take 8 = write_bcd (List.replicate 8 '0') 0 num := by
  have hp : (buf.take p).length = p := by simp; omega
  have hw : (write_bcd (List.replicate 8 '0') 0 num).length = 8 := by
    rw [write_bcd_length]; rfl
  rw [write_bcd_eq buf p num hlen, List.append_assoc]
  rw [List.drop_left' hp, List.take_left' hw]

/-- C5. For `n` in 0..99, `write_bcd` writes eight characters, each `'0'` or `'1'`, the
units digit in the first four and the tens digit in the last four, least-significant bit
first; read back as bits, `check_number` on the two halves gives `n`. -/
theorem write_bcd_roundtrip (buf : List Char) (p : Nat) (n : Int) (h0 : 0 ≤ n) (h99 : n ≤ 99)
    (hlen : p + 8 ≤ buf.length) :
    (((write_bcd buf p n).drop p).take 8).length = 8 ∧
    (∀ c ∈ ((write_bcd buf p n).drop p).take 8, c = '0' ∨ c = '1') ∧
    (∀ i, i < 4 →
      ((((write_bcd buf p n).drop p).take 8).getD i '0' = '1' ↔ (n % 10).toNat.testBit i) ∧
      ((((write_bcd buf p n).drop p).take 8).getD (i + 4) '0' = '1' ↔ (n / 10).toNat.testBit i)) ∧
    check_number ((((write_bcd buf p n).drop p).take 8).map char_bit) 0 4 0 9 +
      10 * check_number ((((write_bcd buf p n).drop p).take 8).map char_bit) 4 4 0 9 = n := by
  rw [write_bcd_window buf p n hlen]
  interval_cases n <;> decide

theorem write_bcd_roundtrip_witness :
    (((write_bcd (List.replicate 12 'x') 2 47).drop 2).take 8).length = 8 ∧
    (∀ c ∈ ((write_bcd (List.replicate 12 'x') 2 47).drop 2).take 8, c = '0' ∨ c = '1') ∧
    (∀ i, i < 4 →
      ((((write_bcd (List.replicate 12 'x') 2 47).drop 2).take 8).getD i '0' = '1' ↔
        ((47 : Int) % 10).toNat.testBit i) ∧
      ((((write_bcd (List.replicate 12 'x') 2 47).drop 2).take 8).getD (i + 4) '0' = '1' ↔
        ((47 : Int) / 10).toNat.testBit i)) ∧
    check_number ((((write_bcd (List.replicate 12 'x') 2 47).drop 2).take 8).map char_bit) 0 4 0 9 +
      10 * check_number ((((write_bcd (List.replicate 12 'x') 2 47).drop 2).take 8).map char_bit)
        4 4 0 9 = 47 :=
  write_bcd_roundtrip (List.replicate 12 'x') 2 47 (by decide) (by decide) (by decide)

/-! ## Reading the encoded frame -/

theorem bcd_bit_cases (n : Int) (i : Nat) : bcd_bit n i = 0 ∨ bcd_bit n i = 1 := by
  unfold bcd_bit
  omega

/-- An encoded frame has 60 symbols. -/
theorem encode_frame_length (t : dcf77_time) : (encode_frame t).length = 60 := rfl

/-- The symbols 0 and 15..20 of an encoded frame. -/
theorem rd_encode_head (t : dcf77_time) :
    rd (encode_frame t) 0 = 0 ∧ rd (encode_frame t) 15 = t.alert ∧ rd (encode_frame t) 16 = t.dst ∧
    rd (encode_frame t) 17 = (if t.tz = 2 then 1 else 0) ∧
    rd (encode_frame t) 18 = (if t.tz = 2 then 0 else 1) ∧
    rd (encode_frame t) 19 = t.lsec ∧ rd (encode_frame t) 20 = 1 := by
  simp [rd, encode_frame]

/-- The minute block (symbols 21..28) of an encoded frame. -/
theorem rd_encode_min (t : dcf77_time) :
    rd (encode_frame t) 21 = bcd_bit (t.min % 10) 0 ∧ rd (encode_frame t) 22 = bcd_bit (t.min % 10) 1 ∧
    rd (encode_frame t) 23 = bcd_bit (t.min % 10) 2 ∧ rd (encode_frame t) 24 = bcd_bit (t.min % 10) 3 ∧
    rd (encode_frame t) 25 = bcd_bit (t.min / 10) 0 ∧ rd (encode_frame t) 26 = bcd_bit (t.min / 10) 1 ∧
    rd (encode_frame t) 27 = bcd_bit (t.min / 10) 2 ∧
    rd (encode_frame t) 28 = (bcd_bit (t.min % 10) 0 + bcd_bit (t.min % 10) 1 + bcd_bit (t.min % 10) 2 +
      bcd_bit (t.min % 10) 3 + bcd_bit (t.min / 10) 0 + bcd_bit (t.min / 10) 1 +
      bcd_bit (t.min / 10) 2) % 2 := by
  simp [rd, encode_frame, even_parity, add_assoc]

/-- The hour block (symbols 29..35) of an encoded frame. -/
theorem rd_encode_hour (t : dcf77_time) :
    rd (encode_frame t) 29 = bcd_bit (t.hour % 10) 0 ∧ rd (encode_frame t) 30 = bcd_bit (t.hour % 10) 1 ∧
    rd (encode_frame t) 31 = bcd_bit (t.hour % 10) 2 ∧ rd (encode_frame t) 32 = bcd_bit (t.hour % 10) 3 ∧
    rd (encode_frame t) 33 = bcd_bit (t.hour / 10) 0 ∧ rd (encode_frame t) 34 = bcd_bit (t.hour / 10) 1 ∧
    rd (encode_frame t) 35 = (bcd_bit (t.hour % 10) 0 + bcd_bit (t.hour % 10) 1 +
      bcd_bit (t.hour % 10) 2 + bcd_bit (t.hour % 10) 3 + bcd_bit (t.hour / 10) 0 +
      bcd_bit (t.hour / 10) 1) % 2 := by
  simp [rd, encode_frame, even_parity, add_assoc]

/-- The date block (symbols 36..58) and the last symbol of an encoded frame. -/
theorem rd_encode_date (t : dcf77_time) :
    rd (encode_frame t) 36 = bcd_bit (t.day % 10) 0 ∧ rd (encode_frame t) 37 = bcd_bit (t.day % 10) 1 ∧
    rd (encode_frame t) 38 = bcd_bit (t.day % 10) 2 ∧ rd (encode_frame t) 39 = bcd_bit (t.day % 10) 3 ∧
    rd (encode_frame t) 40 = bcd_bit (t.day / 10) 0 ∧ rd (encode_frame t) 41 = bcd_bit (t.day / 10) 1 ∧
    rd (encode_frame t) 42 = bcd_bit t.wday 0 ∧ rd (encode_frame t) 43 = bcd_bit t.wday 1 ∧
    rd (encode_frame t) 44 = bcd_bit t.wday 2 ∧
    rd (encode_frame t) 45 = bcd_bit (t.mon % 10) 0 ∧ rd (encode_frame t) 46 = bcd_bit (t.mon % 10) 1 ∧
    rd (encode_frame t) 47 = bcd_bit (t.mon % 10) 2 ∧ rd (encode_frame t) 48 = bcd_bit (t.mon % 10) 3 ∧
    rd (encode_frame t) 49 = bcd_bit (t.mon / 10) 0 ∧
    rd (encode_frame t) 50 = bcd_bit (t.year % 10) 0 ∧ rd (encode_frame t) 51 = bcd_bit (t.year % 10) 1 ∧
    rd (encode_frame t) 52 = bcd_bit (t.year % 10) 2 ∧ rd (encode_frame t) 53 = bcd_bit (t.year % 10) 3 ∧
    rd (encode_frame t) 54 = bcd_bit (t.year / 10) 0 ∧ rd (encode_frame t) 55 = bcd_bit (t.year / 10) 1 ∧
    rd (encode_frame t) 56 = bcd_bit (t.year / 10) 2 ∧ rd (encode_frame t) 57 = bcd_bit (t.year / 10) 3 ∧
    rd (encode_frame t) 58 = (bcd_bit (t.day % 10) 0 + bcd_bit (t.day % 10) 1 + bcd_bit (t.day % 10) 2 +
      bcd_bit (t.day % 10) 3 + bcd_bit (t.day / 10) 0 + bcd_bit (t.day / 10) 1 +
      bcd_bit t.wday 0 + bcd_bit t.wday 1 + bcd_bit t.wday 2 +
      bcd_bit (t.mon % 10) 0 + bcd_bit (t.mon % 10) 1 + bcd_bit (t.mon % 10) 2 +
      bcd_bit (t.mon % 10) 3 + bcd_bit (t.mon / 10) 0 +
      bcd_bit (t.year % 10) 0 + bcd_bit (t.year % 10) 1 + bcd_bit (t.year % 10) 2 +
      bcd_bit (t.year % 10) 3 + bcd_bit (t.year / 10) 0 + bcd_bit (t.year / 10) 1 +
      bcd_bit (t.year / 10) 2 + bcd_bit (t.year / 10) 3) % 2 ∧
    rd (encode_frame t) 59 = 0 := by
  simp [rd, encode_frame, even_parity, add_assoc]

/-! ## Blocks of known symbols -/

/-- On a block of bits, the number of ones is the sum of the symbols. -/
theorem countP_ones_eq_sum (data : List Int) (p : Nat) :
    ∀ n : Nat, (∀ i, i < n → rd data (p + i) = 0 ∨ rd data (p + i) = 1) →
      (((List.range n).countP (fun i => decide (rd data (p + i) = 1)) : Nat) : Int) =
        ∑ i in Finset.range n, rd data (p + i) := by
  intro n
  induction n with
  | zero => intro _; simp
  | succ n ih =>
    intro h
    have hn := h n (Nat.lt_succ_self n)
    rw [List.range_succ, List.countP_append, Finset.sum_range_succ, Nat.cast_add,
      ih (fun i hi => h i (Nat.lt_succ_of_lt hi))]
    congr 1
    rcases hn with hn | hn <;> simp [hn]

/-- The result of `check_parity` on a block of bits, with the sum of the bits. -/
theorem check_parity_known_sum (data : List Int) (p count : Nat) (hc : 2 ≤ count)
    (hsym : ∀ i, i < count → rd data (p + i) = 0 ∨ rd data (p + i) = 1) :
    check_parity data p count =
      (if (∑ i in Finset.range (count - 1), rd data (p + i)) % 2 = rd data (p + (count - 1))
        then 1 else -1, data) := by
  rw [check_parity_known_eq data p count hc hsym,
    countP_ones_eq_sum data p (count - 1) (fun i hi => hsym i (by omega))]

/-- The result of `check_number` on a block of bits. -/
theorem check_number_known (data : List Int) (p count : Nat) (lo hi : Int) (hc : 1 ≤ count)
    (hsym : ∀ i, i < count → rd data (p + i) = 0 ∨ rd data (p + i) = 1) :
    check_number data p count lo hi =
      if ∑ i in Finset.range count, rd data (p + i) * 2 ^ (i % 4) < lo ∨
         ∑ i in Finset.range count, rd data (p + i) * 2 ^ (i % 4) > hi then -1
      else ∑ i in Finset.range count, rd data (p + i) * 2 ^ (i % 4) := by
  have hloop := check_number_loop_known data p count 0 0 (fun j _ hj => hsym j (by omega))
  simp only [Nat.zero_add, zero_add] at hloop
  have h0 : ¬ rd data p < 0 := by
    have := hsym 0 (by omega)
    simp only [Nat.add_zero] at this
    omega
  unfold check_number
  rw [if_neg h0]
  simp only [hloop, lt_self_iff_false, false_or]

/-- The minute decoder on an encoded frame. -/
theorem check_data_min_encode (t : dcf77_time) (m0 : Int) (h0 : 0 ≤ t.min) (h1 : t.min ≤ 59) :
    check_data_min (encode_frame t) m0 = (encode_frame t, t.min) := by
  obtain ⟨r21, r22, r23, r24, r25, r26, r27, r28⟩ := rd_encode_min t
  have hsym : ∀ i, i < 8 → rd (encode_frame t) (21 + i) = 0 ∨ rd (encode_frame t) (21 + i) = 1 := by
    intro i hi
    interval_cases i <;> simp only [Nat.reduceAdd, r21, r22, r23, r24, r25, r26, r27, r28] <;>
      first | exact bcd_bit_cases _ _ | omega
  have hp : check_parity (encode_frame t) 21 8 = (1, encode_frame t) := by
    rw [check_parity_known_sum _ _ _ (by decide) hsym]
    simp [Finset.sum_range_succ, r21, r22, r23, r24, r25, r26, r27, r28]
  have hn0 : check_number (encode_frame t) 21 4 0 9 = t.min % 10 := by
    rw [check_number_known _ _ _ _ _ (by decide) (fun i hi => hsym i (by omega))]
    simp only [Finset.sum_range_succ, Finset.sum_range_zero, Nat.reduceAdd, Nat.add_zero, r21, r22,
      r23, r24, bcd_bit]
    norm_num
    omega
  have hn1 : check_number (encode_frame t) 25 3 0 5 = t.min / 10 := by
    have hs : ∀ i, i < 3 → rd (encode_frame t) (25 + i) = 0 ∨ rd (encode_frame t) (25 + i) = 1 :=
      fun i hi => by
        have := hsym (4 + i) (by omega)
        rwa [show 21 + (4 + i) = 25 + i by omega] at this
    rw [check_number_known _ _ _ _ _ (by decide) hs]
    simp only [Finset.sum_range_succ, Finset.sum_range_zero, Nat.reduceAdd, Nat.add_zero, r25, r26,
      r27, bcd_bit]
    norm_num
    omega
  unfold check_data_min
  simp only [hp, hn0, hn1]
  norm_num
  omega

/-- The date block of an encoded frame consists of bits. -/
theorem encode_date_bits (t : dcf77_time) :
    ∀ i, i < 23 → rd (encode_frame t) (36 + i) = 0 ∨ rd (encode_frame t) (36 + i) = 1 := by
  obtain ⟨r36, r37, r38, r39, r40, r41, r42, r43, r44, r45, r46, r47, r48, r49, r50, r51, r52,
    r53, r54, r55, r56, r57, r58, _⟩ := rd_encode_date t
  intro i hi
  interval_cases i <;> simp only [Nat.reduceAdd, r36, r37, r38, r39, r40, r41, r42, r43, r44, r45,
    r46, r47, r48, r49, r50, r51, r52, r53, r54, r55, r56, r57, r58] <;>
      first | exact bcd_bit_cases _ _ | omega

/-- Every stretch of the date block of an encoded frame consists of bits. -/
theorem encode_date_bits_from (t : dcf77_time) (k n : Nat) (h : k + n ≤ 23) :
    ∀ i, i < n → rd (encode_frame t) (36 + k + i) = 0 ∨ rd (encode_frame t) (36 + k + i) = 1 := by
  intro i hi
  have := encode_date_bits t (k + i) (by omega)
  rwa [show 36 + (k + i) = 36 + k + i by omega] at this

/-- The hour decoder on an encoded frame. -/
theorem check_data_hour_encode (t : dcf77_time) (x : Int) (h0 : 0 ≤ t.hour) (h1 : t.hour ≤ 23) :
    check_data_hour (encode_frame t) x = (encode_frame t, t.hour) := by
  obtain ⟨r29, r30, r31, r32, r33, r34, r35⟩ := rd_encode_hour t
  have hsym : ∀ i, i < 7 → rd (encode_frame t) (29 + i) = 0 ∨ rd (encode_frame t) (29 + i) = 1 := by
    intro i hi
    interval_cases i <;> simp only [Nat.reduceAdd, r29, r30, r31, r32, r33, r34, r35] <;>
      first | exact bcd_bit_cases _ _ | omega
  have hp : check_parity (encode_frame t) 29 7 = (1, encode_frame t) := by
    rw [check_parity_known_sum _ _ _ (by decide) hsym]
    simp [Finset.sum_range_succ, r29, r30, r31, r32, r33, r34, r35]
  have hn0 : check_number (encode_frame t) 29 4 0 9 = t.hour % 10 := by
    rw [check_number_known _ _ _ _ _ (by decide) (fun i hi => hsym i (by omega))]
    simp only [Finset.sum_range_succ, Finset.sum_range_zero, Nat.reduceAdd, Nat.add_zero, r29, r30,
      r31, r32, bcd_bit]
    norm_num
    omega
  have hn1 : check_number (encode_frame t) 33 2 0 2 = t.hour / 10 := by
    have hs : ∀ i, i < 2 → rd (encode_frame t) (33 + i) = 0 ∨ rd (encode_frame t) (33 + i) = 1 :=
      fun i hi => by
        have := hsym (4 + i) (by omega)
        rwa [show 29 + (4 + i) = 33 + i by omega] at this
    rw [check_number_known _ _ _ _ _ (by decide) hs]
    simp only [Finset.sum_range_succ, Finset.sum_range_zero, Nat.reduceAdd, Nat.add_zero, r33, r34,
      bcd_bit]
    norm_num
    omega
  unfold check_data_hour
  simp only [hp, hn0, hn1]
  norm_num
  omega

/-- The day decoder on an encoded frame. -/
theorem check_data_day_encode (t : dcf77_time) (h0 : 1 ≤ t.day) (h1 : t.day ≤ 31) :
    check_data_day (encode_frame t) = t.day := by
  obtain ⟨r36, r37, r38, r39, r40, r41, _⟩ := rd_encode_date t
  have hn0 : check_number (encode_frame t) 36 4 0 9 = t.day % 10 := by
    rw [check_number_known _ _ _ _ _ (by decide) (encode_date_bits_from t 0 4 (by decide))]
    simp only [Finset.sum_range_succ, Finset.sum_range_zero, Nat.reduceAdd, Nat.add_zero, r36, r37,
      r38, r39, bcd_bit]
    norm_num
    omega
  have hn1 : check_number (encode_frame t) 40 2 0 3 = t.day / 10 := by
    rw [check_number_known _ _ _ _ _ (by decide) (encode_date_bits_from t 4 2 (by decide))]
    simp only [Finset.sum_range_succ, Finset.sum_range_zero, Nat.reduceAdd, Nat.add_zero, r40, r41,
      bcd_bit]
    norm_num
    omega
  unfold check_data_day
  simp only [hn0, hn1]
  norm_num
  omega

/-- The weekday decoder on an encoded frame. -/
theorem check_data_wday_encode (t : dcf77_time) (h0 : 1 ≤ t.wday) (h1 : t.wday ≤ 7) :
    check_data_wday (encode_frame t) = t.wday := by
  obtain ⟨_, _, _, _, _, _, r42, r43, r44, _⟩ := rd_encode_date t
  unfold check_data_wday
  rw [check_number_known _ _ _ _ _ (by decide) (encode_date_bits_from t 6 3 (by decide))]
  simp only [Finset.sum_range_succ, Finset.sum_range_zero, Nat.reduceAdd, Nat.add_zero, r42, r43,
    r44, bcd_bit]
  norm_num
  omega

/-- The month decoder on an encoded frame. -/
theorem check_data_mon_encode (t : dcf77_time) (h0 : 1 ≤ t.mon) (h1 : t.mon ≤ 12) :
    check_data_mon (encode_frame t) = t.mon := by
  obtain ⟨_, _, _, _, _, _, _, _, _, r45, r46, r47, r48, r49, _⟩ := rd_encode_date t
  have hn0 : check_number (encode_frame t) 45 4 0 9 = t.mon % 10 := by
    rw [check_number_known _ _ _ _ _ (by decide) (encode_date_bits_from t 9 4 (by decide))]
    simp only [Finset.sum_range_succ, Finset.sum_range_zero, Nat.reduceAdd, Nat.add_zero, r45, r46,
      r47, r48, bcd_bit]
    norm_num
    omega
  unfold check_data_mon
  simp only [hn0, r49, bcd_bit]
  norm_num
  omega

/-- The year decoder on an encoded frame. -/
theorem check_data_year_encode (t : dcf77_time) (h0 : 0 ≤ t.year) (h1 : t.year ≤ 99) :
    check_data_year (encode_frame t) = t.year := by
  obtain ⟨_, _, _, _, _, _, _, _, _, _, _, _, _, _, r50, r51, r52, r53, r54, r55, r56, r57, _⟩ :=
    rd_encode_date t
  have hn0 : check_number (encode_frame t) 50 4 0 9 = t.year % 10 := by
    rw [check_number_known _ _ _ _ _ (by decide) (encode_date_bits_from t 14 4 (by decide))]
    simp only [Finset.sum_range_succ, Finset.sum_range_zero, Nat.reduceAdd, Nat.add_zero, r50, r51,
      r52, r53, bcd_bit]
    norm_num
    omega
  have hn1 : check_number (encode_frame t) 54 4 0 9 = t.year / 10 := by
    rw [check_number_known _ _ _ _ _ (by decide) (encode_date_bits_from t 18 4 (by decide))]
    simp only [Finset.sum_range_succ, Finset.sum_range_zero, Nat.reduceAdd, Nat.add_zero, r54, r55,
      r56, r57, bcd_bit]
    norm_num
    omega
  unfold check_data_year
  simp only [hn0, hn1]
  norm_num
  omega

/-- The time-zone decoder on an encoded frame. -/
theorem check_data_tz_encode (t : dcf77_time) (h : t.tz = 1 ∨ t.tz = 2) :
    check_data_tz (encode_frame t) = (1, t.tz) := by
  obtain ⟨_, _, _, r17, r18, _⟩ := rd_encode_head t
  unfold check_data_tz
  rcases h with h | h <;> simp [r17, r18, h]

/-- The date parity of an encoded frame is valid. -/
theorem check_data_date_encode (t : dcf77_time) :
    check_data_date (encode_frame t) = (1, encode_frame t) := by
  obtain ⟨r36, r37, r38, r39, r40, r41, r42, r43, r44, r45, r46, r47, r48, r49, r50, r51, r52,
    r53, r54, r55, r56, r57, r58, _⟩ := rd_encode_date t
  unfold check_data_date
  rw [check_parity_known_sum _ _ _ (by decide) (encode_date_bits t)]
  simp [Finset.sum_range_succ, r36, r37, r38, r39, r40, r41, r42, r43, r44, r45,
    r46, r47, r48, r49, r50, r51, r52, r53, r54, r55, r56, r57, r58]

/-! ## Locality of the block functions -/

theorem rd_set_ne (data : List Int) (i j : Nat) (v : Int) (h : j ≠ i) :
    rd (data.set i v) j = rd data j := by
  unfold rd
  simp [List.getD_eq_getElem?_getD, List.getElem?_set_ne (Ne.symm h)]

/-- A write inside the array is read back. -/
theorem rd_set_eq (data : List Int) (i : Nat) (v : Int) (h : i < data.length) :
    rd (data.set i v) i = v := by
  unfold rd
  simp [List.getD_eq_getElem?_getD, h]

/-- Flipping a symbol does not change the other symbols. -/
theorem rd_flip_bit_ne (data : List Int) (i j : Nat) (h : j ≠ i) :
    rd (flip_bit data i) j = rd data j := rd_set_ne data i j _ h

/-- Flipping a symbol inside the array turns `b` into `1 - b`. -/
theorem rd_flip_bit_eq (data : List Int) (i : Nat) (h : i < data.length) :
    rd (flip_bit data i) i = 1 - rd data i := rd_set_eq data i _ h

/-- The repair loop of `check_parity` writes inside the stretch it scans only. -/
theorem check_parity_fix_outside (data : List Int) (p count : Nat) (parity : Int) (j : Nat) :
    ∀ (n i : Nat), (j < p + i ∨ p + i + n ≤ j) →
      rd (check_parity_fix data p count parity n i).1 j = rd data j := by
  intro n
  induction n with
  | zero => intro i _; rfl
  | succ n ih =>
    intro i h
    rw [check_parity_fix]
    by_cases hi : rd data (p + i) < 0
    · rw [if_pos hi]
      exact rd_set_ne data (p + i) j _ (by omega)
    · rw [if_neg hi]
      exact ih (i + 1) (by omega)

/-- The function `check_parity` leaves every symbol outside its block as it was. -/
theorem check_parity_outside (data : List Int) (p count j : Nat) (h : j < p ∨ p + count ≤ j) :
    rd (check_parity data p count).2 j = rd data j := by
  unfold check_parity
  dsimp only
  split_ifs <;> first
    | rfl
    | exact check_parity_fix_outside data p count _ j count 0 (by omega)

/-- The loop of `check_number` reads the symbols of its block only. -/
theorem check_number_loop_congr (d1 d2 : List Int) (p : Nat) :
    ∀ (n i : Nat) (number : Int), (∀ j, i ≤ j → j < i + n → rd d1 (p + j) = rd d2 (p + j)) →
      check_number_loop d1 p n i number = check_number_loop d2 p n i number := by
  intro n
  induction n with
  | zero => intro i number _; rfl
  | succ n ih =>
    intro i number h
    rw [check_number_loop, check_number_loop, h i (le_refl i) (by omega)]
    split
    · rfl
    · exact ih (i + 1) _ (fun j h1 h2 => h j (by omega) (by omega))

/-- The function `check_number` reads the symbols of its block only. -/
theorem check_number_congr (d1 d2 : List Int) (p count : Nat) (lo hi : Int) (hc : 1 ≤ count)
    (h : ∀ i, i < count → rd d1 (p + i) = rd d2 (p + i)) :
    check_number d1 p count lo hi = check_number d2 p count lo hi := by
  unfold check_number
  have h0 := h 0 (by omega)
  simp only [Nat.add_zero] at h0
  rw [h0, check_number_loop_congr d1 d2 p count 0 0 (fun j _ hj => h j (by omega))]

/-- On a block of bits `check_parity` depends on the symbols of the block only, and leaves
the array as it is. -/
theorem check_parity_congr_known (d1 d2 : List Int) (p count : Nat) (hc : 2 ≤ count)
    (h : ∀ i, i < count → rd d1 (p + i) = rd d2 (p + i))
    (hsym : ∀ i, i < count → rd d2 (p + i) = 0 ∨ rd d2 (p + i) = 1) :
    check_parity d1 p count = ((check_parity d2 p count).1, d1) := by
  have hsym1 : ∀ i, i < count → rd d1 (p + i) = 0 ∨ rd d1 (p + i) = 1 :=
    fun i hi => by rw [h i hi]; exact hsym i hi
  rw [check_parity_known_sum d1 p count hc hsym1, check_parity_known_sum d2 p count hc hsym,
    h (count - 1) (by omega)]
  have hs : ∑ i in Finset.range (count - 1), rd d1 (p + i) =
      ∑ i in Finset.range (count - 1), rd d2 (p + i) :=
    Finset.sum_congr rfl (fun i hi => h i (by have := Finset.mem_range.mp hi; omega))
  rw [hs]

/-! ## The decoders on arrays that carry an encoded field -/

theorem encode_min_bits (t : dcf77_time) :
    ∀ i, i < 8 → rd (encode_frame t) (21 + i) = 0 ∨ rd (encode_frame t) (21 + i) = 1 := by
  obtain ⟨r21, r22, r23, r24, r25, r26, r27, r28⟩ := rd_encode_min t
  intro i hi
  interval_cases i <;> simp only [Nat.reduceAdd, r21, r22, r23, r24, r25, r26, r27, r28] <;>
    first | exact bcd_bit_cases _ _ | omega

/-- The hour block of an encoded frame consists of bits. -/
theorem encode_hour_bits (t : dcf77_time) :
    ∀ i, i < 7 → rd (encode_frame t) (29 + i) = 0 ∨ rd (encode_frame t) (29 + i) = 1 := by
  obtain ⟨r29, r30, r31, r32, r33, r34, r35⟩ := rd_encode_hour t
  intro i hi
  interval_cases i <;> simp only [Nat.reduceAdd, r29, r30, r31, r32, r33, r34, r35] <;>
    first | exact bcd_bit_cases _ _ | omega

/-- The minute decoder on an array whose symbols 21..28 are those of an encoded frame. -/
theorem check_data_min_agree (data : List Int) (t : dcf77_time) (x : Int)
    (h : ∀ i, i < 8 → rd data (21 + i) = rd (encode_frame t) (21 + i))
    (h0 : 0 ≤ t.min) (h1 : t.min ≤ 59) :
    check_data_min data x = (data, t.min) := by
  have he := check_data_min_encode t x h0 h1
  have hp := check_parity_congr_known data (encode_frame t) 21 8 (by decide) h (encode_min_bits t)
  have hq := check_parity_congr_known (encode_frame t) (encode_frame t) 21 8 (by decide)
    (fun _ _ => rfl) (encode_min_bits t)
  have ha := check_number_congr data (encode_frame t) 21 4 0 9 (by decide)
    (fun i hi => h i (by omega))
  have hb := check_number_congr data (encode_frame t) 25 3 0 5 (by decide)
    (fun i hi => by have := h (4 + i) (by omega); rwa [show 21 + (4 + i) = 25 + i by omega] at this)
  unfold check_data_min at he ⊢
  rw [hq] at he
  rw [hp]
  simp only [ha, hb]
  simp only at he
  split
  · rename_i hc
    rw [if_pos hc] at he
    exact congrArg (Prod.mk data) (Prod.mk.inj he).2
  · rename_i hc
    rw [if_neg hc] at he
    exact congrArg (Prod.mk data) (Prod.mk.inj he).2

/-- The hour decoder on an array whose symbols 29..35 are those of an encoded frame. -/
theorem check_data_hour_agree (data : List Int) (t : dcf77_time) (x : Int)
    (h : ∀ i, i < 7 → rd data (29 + i) = rd (encode_frame t) (29 + i))
    (h0 : 0 ≤ t.hour) (h1 : t.hour ≤ 23) :
    check_data_hour data x = (data, t.hour) := by
  have he := check_data_hour_encode t x h0 h1
  have hp := check_parity_congr_known data (encode_frame t) 29 7 (by decide) h (encode_hour_bits t)
  have hq := check_parity_congr_known (encode_frame t) (encode_frame t) 29 7 (by decide)
    (fun _ _ => rfl) (encode_hour_bits t)
  have ha := check_number_congr data (encode_frame t) 29 4 0 9 (by decide)
    (fun i hi => h i (by omega))
  have hb := check_number_congr data (encode_frame t) 33 2 0 2 (by decide)
    (fun i hi => by have := h (4 + i) (by omega); rwa [show 29 + (4 + i) = 33 + i by omega] at this)
  unfold check_data_hour at he ⊢
  rw [hq] at he
  rw [hp]
  simp only [ha, hb]
  simp only at he
  split
  · rename_i hc
    rw [if_pos hc] at he
    exact congrArg (Prod.mk data) (Prod.mk.inj he).2
  · rename_i hc
    rw [if_neg hc] at he
    exact congrArg (Prod.mk data) (Prod.mk.inj he).2

/-- The date decoders on an array whose symbols 36..57 are those of an encoded frame. -/
theorem check_data_date_fields_agree (data : List Int) (t : dcf77_time)
    (h : ∀ i, i < 22 → rd data (36 + i) = rd (encode_frame t) (36 + i))
    (hd0 : 1 ≤ t.day) (hd1 : t.day ≤ 31) (hw0 : 1 ≤ t.wday) (hw1 : t.wday ≤ 7)
    (hm0 : 1 ≤ t.mon) (hm1 : t.mon ≤ 12) (hy0 : 0 ≤ t.year) (hy1 : t.year ≤ 99) :
    check_data_day data = t.day ∧ check_data_wday data = t.wday ∧
    check_data_mon data = t.mon ∧ check_data_year data = t.year := by
  have hk : ∀ (k n : Nat), k + n ≤ 22 → ∀ i, i < n →
      rd data (36 + k + i) = rd (encode_frame t) (36 + k + i) := by
    intro k n hkn i hi
    have := h (k + i) (by omega)
    rwa [show 36 + (k + i) = 36 + k + i by omega] at this
  have e1 := check_number_congr data (encode_frame t) 36 4 0 9 (by decide) (hk 0 4 (by decide))
  have e2 := check_number_congr data (encode_frame t) 40 2 0 3 (by decide) (hk 4 2 (by decide))
  have e3 := check_number_congr data (encode_frame t) 42 3 1 7 (by decide) (hk 6 3 (by decide))
  have e4 := check_number_congr data (encode_frame t) 45 4 0 9 (by decide) (hk 9 4 (by decide))
  have e5 : rd data 49 = rd (encode_frame t) 49 := h 13 (by decide)
  have e6 := check_number_congr data (encode_frame t) 50 4 0 9 (by decide) (hk 14 4 (by decide))
  have e7 := check_number_congr data (encode_frame t) 54 4 0 9 (by decide) (hk 18 4 (by decide))
  refine ⟨?_, ?_, ?_, ?_⟩
  · rw [← check_data_day_encode t hd0 hd1]
    unfold check_data_day
    rw [e1, e2]
  · rw [← check_data_wday_encode t hw0 hw1]
    unfold check_data_wday
    rw [e3]
  · rw [← check_data_mon_encode t hm0 hm1]
    unfold check_data_mon
    rw [e4, e5]
  · rw [← check_data_year_encode t hy0 hy1]
    unfold check_data_year
    rw [e6, e7]

/-- The DST suppression of `check_data_dst` never fires: the result is bit 16. -/
theorem check_data_dst_eq (data : List Int) (hour : Int) : check_data_dst data hour = rd data 16 := by
  unfold check_data_dst
  simp only
  rw [if_neg]
  omega

/-- The decoding part of `check_data` on an encoded frame. -/
theorem check_data_fields_encode (t now : dcf77_time)
    (hn0 : 0 ≤ t.min) (hn1 : t.min ≤ 59) (hh0 : 0 ≤ t.hour) (hh1 : t.hour ≤ 23)
    (hd0 : 1 ≤ t.day) (hd1 : t.day ≤ 31) (hw0 : 1 ≤ t.wday) (hw1 : t.wday ≤ 7)
    (hm0 : 1 ≤ t.mon) (hm1 : t.mon ≤ 12) (hy0 : 0 ≤ t.year) (hy1 : t.year ≤ 99)
    (htz : t.tz = 1 ∨ t.tz = 2) :
    check_data_fields (encode_frame t) now =
      (encode_frame t,
        { now with
          check := 4 + (check_data_lsec (encode_frame t) t.day t.mon).1,
          tz := t.tz, min := t.min, hour := t.hour, dst := t.dst, day := t.day, wday := t.wday,
          mon := t.mon, year := t.year,
          lsec := if (check_data_lsec (encode_frame t) t.day t.mon).2 = -5 then 0
                  else (check_data_lsec (encode_frame t) t.day t.mon).2,
          alert := if t.alert = 1 then 1 else now.alert }) := by
  obtain ⟨r0, r15, r16, _, _, _, r20⟩ := rd_encode_head t
  have hsync : check_data_sync (encode_frame t) = 1 := by simp [check_data_sync, r0]
  have htime : check_data_time (encode_frame t) = 1 := by simp [check_data_time, r20]
  unfold check_data_fields
  simp only [hsync, htime, check_data_tz_encode t htz, check_data_min_encode t _ hn0 hn1,
    check_data_hour_encode t _ hh0 hh1, check_data_day_encode t hd0 hd1,
    check_data_wday_encode t hw0 hw1, check_data_mon_encode t hm0 hm1,
    check_data_year_encode t hy0 hy1, check_data_date_encode t, check_data_dst_eq, r15, r16]
  norm_num

/-- C1. Decoding undoes encoding: for a calendar tuple with every field in its range, the
field decoders applied to the encoded 60-symbol frame return exactly the tuple, and so does
the decoding part of `check_data`. -/
theorem decode_encode_roundtrip (t now : dcf77_time) (x y : Int)
    (hn0 : 0 ≤ t.min) (hn1 : t.min ≤ 59) (hh0 : 0 ≤ t.hour) (hh1 : t.hour ≤ 23)
    (hd0 : 1 ≤ t.day) (hd1 : t.day ≤ 31) (hw0 : 1 ≤ t.wday) (hw1 : t.wday ≤ 7)
    (hm0 : 1 ≤ t.mon) (hm1 : t.mon ≤ 12) (hy0 : 0 ≤ t.year) (hy1 : t.year ≤ 99)
    (htz : t.tz = 1 ∨ t.tz = 2) :
    (encode_frame t).length = 60 ∧
    check_data_min (encode_frame t) x = (encode_frame t, t.min) ∧
    check_data_hour (encode_frame t) y = (encode_frame t, t.hour) ∧
    check_data_day (encode_frame t) = t.day ∧
    check_data_wday (encode_frame t) = t.wday ∧
    check_data_mon (encode_frame t) = t.mon ∧
    check_data_year (encode_frame t) = t.year ∧
    (check_data_tz (encode_frame t)).2 = t.tz ∧
    (check_data_fields (encode_frame t) now).2.min = t.min ∧
    (check_data_fields (encode_frame t) now).2.hour = t.hour ∧
    (check_data_fields (encode_frame t) now).2.day = t.day ∧
    (check_data_fields (encode_frame t) now).2.wday = t.wday ∧
    (check_data_fields (encode_frame t) now).2.mon = t.mon ∧
    (check_data_fields (encode_frame t) now).2.year = t.year ∧
    (check_data_fields (encode_frame t) now).2.tz = t.tz := by
  rw [check_data_fields_encode t now hn0 hn1 hh0 hh1 hd0 hd1 hw0 hw1 hm0 hm1 hy0 hy1 htz]
  refine ⟨rfl, check_data_min_encode t x hn0 hn1, check_data_hour_encode t y hh0 hh1,
    check_data_day_encode t hd0 hd1, check_data_wday_encode t hw0 hw1,
    check_data_mon_encode t hm0 hm1, check_data_year_encode t hy0 hy1, ?_, rfl, rfl, rfl, rfl,
    rfl, rfl, rfl⟩
  rw [check_data_tz_encode t htz]

theorem decode_encode_roundtrip_witness :
    (encode_frame (calendar 34 12 15 1 1 24 1)).length = 60 ∧
    check_data_min (encode_frame (calendar 34 12 15 1 1 24 1)) (-2) =
      (encode_frame (calendar 34 12 15 1 1 24 1), (calendar 34 12 15 1 1 24 1).min) ∧
    check_data_hour (encode_frame (calendar 34 12 15 1 1 24 1)) (-2) =
      (encode_frame (calendar 34 12 15 1 1 24 1), (calendar 34 12 15 1 1 24 1).hour) ∧
    check_data_day (encode_frame (calendar 34 12 15 1 1 24 1)) = (calendar 34 12 15 1 1 24 1).day ∧
    check_data_wday (encode_frame (calendar 34 12 15 1 1 24 1)) = (calendar 34 12 15 1 1 24 1).wday ∧
    check_data_mon (encode_frame (calendar 34 12 15 1 1 24 1)) = (calendar 34 12 15 1 1 24 1).mon ∧
    check_data_year (encode_frame (calendar 34 12 15 1 1 24 1)) = (calendar 34 12 15 1 1 24 1).year ∧
    (check_data_tz (encode_frame (calendar 34 12 15 1 1 24 1))).2 = (calendar 34 12 15 1 1 24 1).tz ∧
    (check_data_fields (encode_frame (calendar 34 12 15 1 1 24 1)) init_dcf77_time).2.min =
      (calendar 34 12 15 1 1 24 1).min ∧
    (check_data_fields (encode_frame (calendar 34 12 15 1 1 24 1)) init_dcf77_time).2.hour =
      (calendar 34 12 15 1 1 24 1).hour ∧
    (check_data_fields (encode_frame (calendar 34 12 15 1 1 24 1)) init_dcf77_time).2.day =
      (calendar 34 12 15 1 1 24 1).day ∧
    (check_data_fields (encode_frame (calendar 34 12 15 1 1 24 1)) init_dcf77_time).2.wday =
      (calendar 34 12 15 1 1 24 1).wday ∧
    (check_data_fields (encode_frame (calendar 34 12 15 1 1 24 1)) init_dcf77_time).2.mon =
      (calendar 34 12 15 1 1 24 1).mon ∧
    (check_data_fields (encode_frame (calendar 34 12 15 1 1 24 1)) init_dcf77_time).2.year =
      (calendar 34 12 15 1 1 24 1).year ∧
    (check_data_fields (encode_frame (calendar 34 12 15 1 1 24 1)) init_dcf77_time).2.tz =
      (calendar 34 12 15 1 1 24 1).tz :=
  decode_encode_roundtrip (calendar 34 12 15 1 1 24 1) init_dcf77_time (-2) (-2)
    (by decide) (by decide) (by decide) (by decide) (by decide) (by decide) (by decide)
    (by decide) (by decide) (by decide) (by decide) (by decide) (by decide)

/-! ## Range safety of the decoders -/

theorem check_number_range (data : List Int) (p count : Nat) (lo hi : Int) :
    check_number data p count lo hi = -1 ∨
      (lo ≤ check_number data p count lo hi ∧ check_number data p count lo hi ≤ hi) := by
  unfold check_number
  dsimp only
  split_ifs with h1 h2
  · exact Or.inl rfl
  · exact Or.inl rfl
  · right
    push_neg at h2
    exact ⟨h2.2.1, h2.2.2⟩

/-- C6. The field decoders are range-safe: for every bit vector, after the decoding part of
`check_data` on a freshly initialised `dcf77_time`, each of min, hour, day, wday, mon, year
and tz is a negative sentinel (-1, or the initial -2 for min and hour) or lies in its
declared range. -/
theorem check_data_fields_range (data : List Int) :
    ((check_data_fields data init_dcf77_time).2.min = -2 ∨
      (check_data_fields data init_dcf77_time).2.min = -1 ∨
      (0 ≤ (check_data_fields data init_dcf77_time).2.min ∧
        (check_data_fields data init_dcf77_time).2.min ≤ 59)) ∧
    ((check_data_fields data init_dcf77_time).2.hour = -2 ∨
      (check_data_fields data init_dcf77_time).2.hour = -1 ∨
      (0 ≤ (check_data_fields data init_dcf77_time).2.hour ∧
        (check_data_fields data init_dcf77_time).2.hour ≤ 23)) ∧
    ((check_data_fields data init_dcf77_time).2.day = -1 ∨
      (1 ≤ (check_data_fields data init_dcf77_time).2.day ∧
        (check_data_fields data init_dcf77_time).2.day ≤ 31)) ∧
    ((check_data_fields data init_dcf77_time).2.wday = -1 ∨
      (1 ≤ (check_data_fields data init_dcf77_time).2.wday ∧
        (check_data_fields data init_dcf77_time).2.wday ≤ 7)) ∧
    ((check_data_fields data init_dcf77_time).2.mon = -1 ∨
      (1 ≤ (check_data_fields data init_dcf77_time).2.mon ∧
        (check_data_fields data init_dcf77_time).2.mon ≤ 12)) ∧
    ((check_data_fields data init_dcf77_time).2.year = -1 ∨
      (0 ≤ (check_data_fields data init_dcf77_time).2.year ∧
        (check_data_fields data init_dcf77_time).2.year ≤ 99)) ∧
    ((check_data_fields data init_dcf77_time).2.tz = -1 ∨
      (check_data_fields data init_dcf77_time).2.tz = 1 ∨
      (check_data_fields data init_dcf77_time).2.tz = 2) := by
  refine ⟨?_, ?_, ?_, ?_, ?_, ?_, ?_⟩
  · show (check_data_min data (-2)).2 = -2 ∨ (check_data_min data (-2)).2 = -1 ∨
      (0 ≤ (check_data_min data (-2)).2 ∧ (check_data_min data (-2)).2 ≤ 59)
    unfold check_data_min
    dsimp only
    split_ifs <;> omega
  · show (check_data_hour (check_data_min data (-2)).1 (-2)).2 = -2 ∨
      (check_data_hour (check_data_min data (-2)).1 (-2)).2 = -1 ∨
      (0 ≤ (check_data_hour (check_data_min data (-2)).1 (-2)).2 ∧
        (check_data_hour (check_data_min data (-2)).1 (-2)).2 ≤ 23)
    generalize (check_data_min data (-2)).1 = d
    unfold check_data_hour
    dsimp only
    split_ifs <;> omega
  · show check_data_day _ = -1 ∨ (1 ≤ check_data_day _ ∧ check_data_day _ ≤ 31)
    unfold check_data_day
    dsimp only
    split_ifs <;> omega
  · exact check_number_range _ 42 3 1 7
  · show check_data_mon _ = -1 ∨ (1 ≤ check_data_mon _ ∧ check_data_mon _ ≤ 12)
    unfold check_data_mon
    dsimp only
    split_ifs <;> omega
  · show check_data_year _ = -1 ∨ (0 ≤ check_data_year _ ∧ check_data_year _ ≤ 99)
    unfold check_data_year
    dsimp only
    split_ifs <;> omega
  · show (check_data_tz data).2 = -1 ∨ (check_data_tz data).2 = 1 ∨ (check_data_tz data).2 = 2
    unfold check_data_tz
    dsimp only
    split_ifs <;> simp

/-! ## The leap-second announcement -/

/-- The array after the minute and hour parity checks agrees with the original array from
symbol 36 on and below symbol 21. -/
theorem rd_after_time_parity (data : List Int) (x y : Int) (j : Nat) (h : j < 21 ∨ 36 ≤ j) :
    rd (check_data_hour (check_data_min data x).1 y).1 j = rd data j := by
  have h1 : (check_data_min data x).1 = (check_parity data 21 8).2 := by
    unfold check_data_min
    dsimp only
    split_ifs <;> rfl
  have h2 : ∀ d : List Int, (check_data_hour d y).1 = (check_parity d 29 7).2 := by
    intro d
    unfold check_data_hour
    dsimp only
    split_ifs <;> rfl
  rw [h2, h1, check_parity_outside _ 29 7 j (by omega), check_parity_outside _ 21 8 j (by omega)]

/-- The date fields decoded inside `check_data` are those of the original array. -/
theorem check_data_fields_date (data : List Int) (now : dcf77_time) :
    (check_data_fields data now).2.day = check_data_day data ∧
    (check_data_fields data now).2.wday = check_data_wday data ∧
    (check_data_fields data now).2.mon = check_data_mon data ∧
    (check_data_fields data now).2.year = check_data_year data := by
  have hr : ∀ (k : Nat), 36 ≤ k → ∀ i,
      rd (check_data_hour (check_data_min data now.min).1 now.hour).1 (k + i) = rd data (k + i) :=
    fun k hk i => rd_after_time_parity data _ _ (k + i) (by omega)
  refine ⟨?_, ?_, ?_, ?_⟩
  · show check_data_day _ = check_data_day data
    unfold check_data_day
    rw [check_number_congr _ data 36 4 0 9 (by decide) (fun i _ => hr 36 (by decide) i),
      check_number_congr _ data 40 2 0 3 (by decide) (fun i _ => hr 40 (by decide) i)]
  · show check_data_wday _ = check_data_wday data
    unfold check_data_wday
    rw [check_number_congr _ data 42 3 1 7 (by decide) (fun i _ => hr 42 (by decide) i)]
  · show check_data_mon _ = check_data_mon data
    unfold check_data_mon
    rw [check_number_congr _ data 45 4 0 9 (by decide) (fun i _ => hr 45 (by decide) i),
      rd_after_time_parity data _ _ 49 (by omega)]
  · show check_data_year _ = check_data_year data
    unfold check_data_year
    rw [check_number_congr _ data 50 4 0 9 (by decide) (fun i _ => hr 50 (by decide) i),
      check_number_congr _ data 54 4 0 9 (by decide) (fun i _ => hr 54 (by decide) i)]

/-- The leap-second field after the decoding part of `check_data`. -/
theorem check_data_fields_lsec (data : List Int) (now : dcf77_time)
    (h19 : rd data 19 = 0 ∨ rd data 19 = 1 ∨ rd data 19 = -1) :
    (check_data_fields data now).2.lsec =
      if rd data 19 = 1 then
        (if leap_second_date (check_data_day data) (check_data_mon data) then 1 else 0)
      else rd data 19 := by
  obtain ⟨hday, _, hmon, _⟩ := check_data_fields_date data now
  have h19r : rd (check_data_date (check_data_hour (check_data_min data now.min).1 now.hour).1).2 19
      = rd data 19 := by
    unfold check_data_date
    dsimp only
    rw [check_parity_outside _ 36 23 19 (by omega), rd_after_time_parity data _ _ 19 (by omega)]
  show (if (check_data_lsec _ (check_data_fields data now).2.day
      (check_data_fields data now).2.mon).2 = -5 then 0
    else (check_data_lsec _ (check_data_fields data now).2.day
      (check_data_fields data now).2.mon).2) = _
  rw [hday, hmon]
  unfold check_data_lsec
  dsimp only
  rw [h19r]
  unfold leap_second_date
  rcases h19 with h | h | h <;> rw [h] <;> norm_num
  split_ifs with h1 h2 h3 <;> first | rfl | omega | (exfalso; tauto)

/-- Both branches of a conditional agree on the leap-second field of `*now`. -/
theorem ite_now_lsec (c : Prop) [Decidable c] (a b : dcf77_time × dcf77_time) (x : Int)
    (h1 : a.1.lsec = x) (h2 : b.1.lsec = x) : (if c then a else b).1.lsec = x := by
  split <;> assumption

/-- The voter leaves the leap-second field of `*now` as the decoder set it. -/
theorem check_data_now_lsec (L : Libc) (data : List Int) (now last : dcf77_time) :
    (check_data L data now last).now.lsec = (check_data_fields data now).2.lsec := by
  have hu : ∀ n l : dcf77_time, (check_data_unlocked L n l).1.lsec = n.lsec := by
    intro n l
    unfold check_data_unlocked
    exact ite_now_lsec _ _ _ _ rfl rfl
  have hl : ∀ n l : dcf77_time, (check_data_locked L n l).1.lsec = n.lsec := by
    intro n l
    unfold check_data_locked
    exact ite_now_lsec _ _ _ _ rfl rfl
  unfold check_data
  exact ite_now_lsec _ _ _ _ (hu _ _) (hl _ _)

/-- The leap indicator that `set_ntp_shm` writes. -/
theorem set_ntp_shm_leap (shm : shmTime) (precision : Int) (now : dcf77_time)
    (min_dev sig_avr : Int) (sig_now : time_info_t) :
    (set_ntp_shm shm precision now min_dev sig_avr sig_now).1.leap =
      if now.lsec > 0 then 1 else 0 := by
  simp [set_ntp_shm, set_ntp_shm_writes]

/-- C7. Leap-second acceptance: after `check_data`, `now.lsec` is 1 exactly when bit 19 is 1
and the day and month decoded from the same frame are 31 March, 30 June, 30 September or
31 December; with bit 19 set on any other date `now.lsec` is 0; and `set_ntp_shm` writes
`leap = 1` in the first case and `leap = 0` otherwise. -/
theorem check_data_leap_second (L : Libc) (data : List Int) (now last : dcf77_time)
    (h19 : rd data 19 = 0 ∨ rd data 19 = 1 ∨ rd data 19 = -1) :
    ((check_data L data now last).now.lsec = 1 ↔
      rd data 19 = 1 ∧ leap_second_date (check_data_day data) (check_data_mon data)) ∧
    (rd data 19 = 1 → ¬ leap_second_date (check_data_day data) (check_data_mon data) →
      (check_data L data now last).now.lsec = 0) ∧
    (∀ (shm : shmTime) (precision min_dev sig_avr : Int) (sig_now : time_info_t),
      (set_ntp_shm shm precision (check_data L data now last).now min_dev sig_avr sig_now).1.leap =
        if rd data 19 = 1 ∧ leap_second_date (check_data_day data) (check_data_mon data)
        then 1 else 0) := by
  have hl := check_data_now_lsec L data now last
  rw [check_data_fields_lsec data now h19] at hl
  refine ⟨?_, ?_, ?_⟩
  · rw [hl]
    rcases h19 with h | h | h <;> rw [h] <;> norm_num
  · intro h1 h2
    rw [hl, if_pos h1, if_neg h2]
  · intro shm precision min_dev sig_avr sig_now
    rw [set_ntp_shm_leap, hl]
    rcases h19 with h | h | h <;> rw [h] <;> norm_num
    split_ifs <;> first | rfl | omega

theorem check_data_leap_second_witness :
    ((check_data berlin (encode_frame { calendar 58 23 15 7 12 24 1 with lsec := 1 })
        init_dcf77_time init_dcf77_time).now.lsec = 1 ↔
      rd (encode_frame { calendar 58 23 15 7 12 24 1 with lsec := 1 }) 19 = 1 ∧
        leap_second_date
          (check_data_day (encode_frame { calendar 58 23 15 7 12 24 1 with lsec := 1 }))
          (check_data_mon (encode_frame { calendar 58 23 15 7 12 24 1 with lsec := 1 }))) ∧
    (rd (encode_frame { calendar 58 23 15 7 12 24 1 with lsec := 1 }) 19 = 1 →
      ¬ leap_second_date
          (check_data_day (encode_frame { calendar 58 23 15 7 12 24 1 with lsec := 1 }))
          (check_data_mon (encode_frame { calendar 58 23 15 7 12 24 1 with lsec := 1 })) →
      (check_data berlin (encode_frame { calendar 58 23 15 7 12 24 1 with lsec := 1 })
        init_dcf77_time init_dcf77_time).now.lsec = 0) ∧
    (∀ (shm : shmTime) (precision min_dev sig_avr : Int) (sig_now : time_info_t),
      (set_ntp_shm shm precision
        (check_data berlin (encode_frame { calendar 58 23 15 7 12 24 1 with lsec := 1 })
          init_dcf77_time init_dcf77_time).now min_dev sig_avr sig_now).1.leap =
        if rd (encode_frame { calendar 58 23 15 7 12 24 1 with lsec := 1 }) 19 = 1 ∧
          leap_second_date
            (check_data_day (encode_frame { calendar 58 23 15 7 12 24 1 with lsec := 1 }))
            (check_data_mon (encode_frame { calendar 58 23 15 7 12 24 1 with lsec := 1 }))
        then 1 else 0) :=
  check_data_leap_second berlin (encode_frame { calendar 58 23 15 7 12 24 1 with lsec := 1 })
    init_dcf77_time init_dcf77_time (by decide)

/-! ## check_parity on a block with one unknown symbol -/

/-- The counting loop finds one unknown symbol on a stretch that has exactly one. -/
theorem check_parity_count_one_unknown (data : List Int) (p k : Nat) (hneg : rd data (p + k) < 0) :
    ∀ (n i : Nat) (parity fail : Int), i ≤ k → k < i + n →
      (∀ j, i ≤ j → j < i + n → j ≠ k → rd data (p + j) = 0 ∨ rd data (p + j) = 1) →
      (check_parity_count data p n i parity fail).2 = fail + 1 := by
  intro n
  induction n with
  | zero => intro i parity fail h1 h2 _; omega
  | succ n ih =>
    intro i parity fail h1 h2 h
    rw [check_parity_count]
    by_cases hik : i = k
    · subst hik
      rw [if_pos hneg, check_parity_count_known data p n (i + 1) parity (fail + 1)
        (fun j hj1 hj2 => h j (by omega) (by omega) (by omega))]
    · have hb := h i (le_refl i) (by omega) hik
      rw [if_neg (by omega)]
      exact ih (i + 1) _ fail (by omega) (by omega)
        (fun j hj1 hj2 hj3 => h j (by omega) (by omega) hj3)

/-- The repair loop overwrites the first unknown symbol of the stretch it scans. -/
theorem check_parity_fix_first (data : List Int) (p count : Nat) (parity : Int) (k : Nat)
    (hneg : rd data (p + k) < 0) :
    ∀ (n i : Nat), i ≤ k → k < i + n → (∀ j, i ≤ j → j < k → ¬ rd data (p + j) < 0) →
      (check_parity_fix data p count parity n i).1 =
        data.set (p + k) (c_rem (parity + rd data (p + count)) 2) := by
  intro n
  induction n with
  | zero => intro i h1 h2 _; omega
  | succ n ih =>
    intro i h1 h2 h
    rw [check_parity_fix]
    by_cases hik : i = k
    · subst hik
      rw [if_pos hneg]
    · rw [if_neg (h i (le_refl i) (by omega))]
      exact ih (i + 1) (by omega) (by omega) (fun j hj1 hj2 => h j (by omega) hj2)

/-- C3, amended. On a block of `count` symbols with exactly one unknown symbol, at position
`k`: if that is the first or the last (parity) symbol, `check_parity` returns 0 and leaves
the array unchanged; otherwise it overwrites exactly that symbol, leaves everything else
unchanged, and returns 0 or -1, never 1. -/
theorem check_parity_one_unknown (data : List Int) (p count k : Nat) (hk : k < count)
    (hneg : rd data (p + k) < 0)
    (hbits : ∀ i, i < count → i ≠ k → rd data (p + i) = 0 ∨ rd data (p + i) = 1) :
    ((k = 0 ∨ k + 1 = count) → check_parity data p count = (0, data)) ∧
    (0 < k → k + 1 < count → p + count < data.length →
      ∃ v, (check_parity data p count).2 = data.set (p + k) v ∧
        ((check_parity data p count).1 = 0 ∨ (check_parity data p count).1 = -1)) := by
  constructor
  · intro h
    unfold check_parity
    by_cases h0 : k = 0
    · subst h0
      rw [if_pos (by simpa using hneg)]
    · have hlast : k + 1 = count := by omega
      have hp : ¬ rd data p < 0 := by
        have := hbits 0 (by omega) (fun e => h0 e.symm)
        simp only [Nat.add_zero] at this
        omega
      rw [if_neg hp, if_pos (by rw [show count - 1 = k by omega]; exact hneg)]
  · intro h0 h1 _
    have hp : ¬ rd data p < 0 := by
      have := hbits 0 (by omega) (by omega)
      simp only [Nat.add_zero] at this
      omega
    have hl : ¬ rd data (p + (count - 1)) < 0 := by
      have := hbits (count - 1) (by omega) (by omega)
      omega
    have hf : (check_parity_count data p (count - 1) 0 0 0).2 = 1 := by
      rw [check_parity_count_one_unknown data p k hneg (count - 1) 0 0 0 (by omega) (by omega)
        (fun j _ hj2 hj3 => hbits j (by omega) hj3)]
      rfl
    have hx := check_parity_fix_first data p count
      (check_parity_count data p (count - 1) 0 0 0).1 k hneg count 0 (by omega) (by omega)
      (fun j _ hj2 => by have := hbits j (by omega) (by omega); omega)
    refine ⟨c_rem ((check_parity_count data p (count - 1) 0 0 0).1 + rd data (p + count)) 2, ?_, ?_⟩
    · unfold check_parity
      rw [if_neg hp, if_neg hl]
      simp only [hf, gt_iff_lt, lt_self_iff_false, if_false, zero_lt_one, if_true, hx]
      split_ifs <;> rfl
    · unfold check_parity
      rw [if_neg hp, if_neg hl]
      simp only [hf, gt_iff_lt, lt_self_iff_false, if_false, zero_lt_one, if_true]
      split_ifs with ha hb
      · exact Or.inl rfl
      · exact absurd (by decide) hb
      · exact Or.inr rfl

theorem check_parity_one_unknown_witness :
    ((2 = 0 ∨ 2 + 1 = 4) → check_parity [0, 1, 0, -1, 1, 0] 1 4 = (0, [0, 1, 0, -1, 1, 0])) ∧
    (0 < 2 → 2 + 1 < 4 → 1 + 4 < [0, 1, 0, -1, 1, 0].length →
      ∃ v, (check_parity [0, 1, 0, -1, 1, 0] 1 4).2 = [0, 1, 0, -1, 1, 0].set (1 + 2) v ∧
        ((check_parity [0, 1, 0, -1, 1, 0] 1 4).1 = 0 ∨
          (check_parity [0, 1, 0, -1, 1, 0] 1 4).1 = -1)) :=
  check_parity_one_unknown [0, 1, 0, -1, 1, 0] 1 4 2 (by decide) (by decide) (by decide)

/-- C3, counterexample. The block `[-1, 1, 1]` has exactly one unknown symbol, the first
one: `check_parity` returns 0 and the symbol is still unknown afterwards. -/
theorem check_parity_first_unknown_kept :
    check_parity [-1, 1, 1, 0] 0 3 = (0, [-1, 1, 1, 0]) ∧
    rd (check_parity [-1, 1, 1, 0] 0 3).2 0 = -1 := by
  decide

/-- The fill value of `check_parity` is computed from `data[count]`, the symbol after the
block: in the block `[1, -1, 1]` followed by 0 the unknown symbol becomes 1, which leaves
three ones in the block. -/
theorem check_parity_fill_reads_past_block :
    check_parity [1, -1, 1, 0] 0 3 = (-1, [1, 1, 1, 0]) ∧
    check_parity [1, -1, 1, 1] 0 3 = (0, [1, 0, 1, 1]) := by
  decide

/-! ## Cold start -/

theorem c_rem_of_nonneg (a b : Int) (ha : 0 ≤ a) (hb : 0 ≤ b) : c_rem a b = a % b :=
  Int.tmod_eq_emod ha hb

/-- The first clean minute of a cold start (12:34 on Monday 15 January 2024, CET): the
fields are decoded, every confidence counter is 0 and there is no stamp. -/
theorem cold_start_first (L : Libc) :
    minute_step L (encode_frame (calendar 34 12 15 1 1 24 1)) init_dcf77_time =
      { calendar 34 12 15 1 1 24 1 with check := 5 } := by
  unfold minute_step check_data
  rw [check_data_fields_encode _ _ (by decide) (by decide) (by decide) (by decide) (by decide)
    (by decide) (by decide) (by decide) (by decide) (by decide) (by decide) (by decide)
    (by decide)]
  simp [check_data_unlocked, vote_field, init_dcf77_time, calendar, check_data_lsec,
    (rd_encode_head _).2.2.2.2.2.1]

/-- The second clean minute of a cold start: every confidence counter is 1, and there is
still no stamp. -/
theorem cold_start_second (L : Libc) :
    minute_step L (encode_frame (calendar 35 12 15 1 1 24 1))
        { calendar 34 12 15 1 1 24 1 with check := 5 } =
      { calendar 35 12 15 1 1 24 1 with
        check := 5, min_chk := 1, hour_chk := 1, day_chk := 1, wday_chk := 1, mon_chk := 1,
        year_chk := 1, tz_chk := 1 } := by
  unfold minute_step check_data
  rw [check_data_fields_encode _ _ (by decide) (by decide) (by decide) (by decide) (by decide)
    (by decide) (by decide) (by decide) (by decide) (by decide) (by decide) (by decide)
    (by decide)]
  simp [check_data_unlocked, vote_field, init_dcf77_time, calendar, check_data_lsec,
    (rd_encode_head _).2.2.2.2.2.1, c_rem_of_nonneg, int8]

/-- The third clean minute of a cold start: every confidence counter is 2 and the stamp is
what `mktime` returns, provided `localtime_r` confirms the weekday. -/
theorem cold_start_third (L : Libc)
    (hwd : (L.localtime_r (L.mktime (stamp_tm (calendar 36 12 15 1 1 24 1)))).tm_wday = 1) :
    minute_step L (encode_frame (calendar 36 12 15 1 1 24 1))
        { calendar 35 12 15 1 1 24 1 with
          check := 5, min_chk := 1, hour_chk := 1, day_chk := 1, wday_chk := 1, mon_chk := 1,
          year_chk := 1, tz_chk := 1 } =
      { calendar 36 12 15 1 1 24 1 with
        check := 5, min_chk := 2, hour_chk := 2, day_chk := 2, wday_chk := 2, mon_chk := 2,
        year_chk := 2, tz_chk := 2,
        stamp := L.mktime (stamp_tm (calendar 36 12 15 1 1 24 1)) } := by
  unfold minute_step check_data
  rw [check_data_fields_encode _ _ (by decide) (by decide) (by decide) (by decide) (by decide)
    (by decide) (by decide) (by decide) (by decide) (by decide) (by decide) (by decide)
    (by decide)]
  simp [check_data_unlocked, vote_field, init_dcf77_time, calendar, check_data_lsec,
    (rd_encode_head _).2.2.2.2.2.1, c_rem_of_nonneg, int8, stamp_tm] at hwd ⊢
  simp [hwd]

/-- C8, counterexample. After the clean frames for 12:34 and 12:35 on Monday 2024-01-15 CET,
starting from the initial state, the stamp of the second minute is 0, not 1705318500: each
confidence counter is 1, and a stamp needs every counter above 1. -/
theorem cold_start_two_minutes_no_stamp :
    (minute_step berlin (encode_frame (calendar 35 12 15 1 1 24 1))
      (minute_step berlin (encode_frame (calendar 34 12 15 1 1 24 1)) init_dcf77_time)).stamp = 0 ∧
    (minute_step berlin (encode_frame (calendar 35 12 15 1 1 24 1))
      (minute_step berlin (encode_frame (calendar 34 12 15 1 1 24 1)) init_dcf77_time)).stamp
        ≠ 1705318500 ∧
    (minute_step berlin (encode_frame (calendar 35 12 15 1 1 24 1))
      (minute_step berlin (encode_frame (calendar 34 12 15 1 1 24 1)) init_dcf77_time)).min_chk
        = 1 := by
  decide

/-- C8, amended. Cold start with three clean minutes: starting from the initial state, after
the clean frames for 12:34 and 12:35 on Monday 2024-01-15 CET the stamp is still 0; after the
third clean frame, 12:36, the stamp is non-zero and equals `mktime` of 12:36, that is
1705318560. -/
theorem cold_start_three_minutes (L : Libc)
    (hmk : L.mktime (stamp_tm (calendar 36 12 15 1 1 24 1)) = 1705318560)
    (hwd : (L.localtime_r 1705318560).tm_wday = 1) :
    (minute_step L (encode_frame (calendar 35 12 15 1 1 24 1))
      (minute_step L (encode_frame (calendar 34 12 15 1 1 24 1)) init_dcf77_time)).stamp = 0 ∧
    (minute_step L (encode_frame (calendar 36 12 15 1 1 24 1))
      (minute_step L (encode_frame (calendar 35 12 15 1 1 24 1))
        (minute_step L (encode_frame (calendar 34 12 15 1 1 24 1)) init_dcf77_time))).stamp
          = 1705318560 := by
  rw [cold_start_first, cold_start_second, cold_start_third L (by rw [hmk]; exact hwd), hmk]
  exact ⟨rfl, rfl⟩

theorem cold_start_three_minutes_witness :
    (minute_step berlin (encode_frame (calendar 35 12 15 1 1 24 1))
      (minute_step berlin (encode_frame (calendar 34 12 15 1 1 24 1)) init_dcf77_time)).stamp = 0 ∧
    (minute_step berlin (encode_frame (calendar 36 12 15 1 1 24 1))
      (minute_step berlin (encode_frame (calendar 35 12 15 1 1 24 1))
        (minute_step berlin (encode_frame (calendar 34 12 15 1 1 24 1)) init_dcf77_time))).stamp
          = 1705318560 :=
  cold_start_three_minutes berlin (by decide) (by decide)

/-! ## The locked branch -/

theorem int8_of_range (x : Int) (h0 : -128 ≤ x) (h1 : x ≤ 127) : int8 x = x := by
  unfold int8
  omega

/-- A field that is unknown or agrees with the prediction leaves the error count as it is. -/
theorem locked_step_clean (g f pred v c1 c : Int) (known : Prop) [Decidable known]
    (h : ¬ known ∨ g = pred) :
    (if g ≠ pred then (v, if known then c1 else c) else (f, c)).2 = c := by
  rcases h with h | h
  · rw [if_neg h]
    split <;> rfl
  · rw [if_neg (not_not.mpr h)]

/-- The stamp and its confidence after the locked branch, from the error count. -/
theorem check_data_locked_clean (L : Libc) (d last : dcf77_time)
    (hc0 : 0 ≤ last.stamp_chk) (hc1 : last.stamp_chk ≤ 10)
    (hmin : ¬ d.min ≥ 0 ∨ d.min = (L.localtime_r (last.stamp + 60)).tm_min)
    (hhour : ¬ d.hour ≥ 0 ∨ d.hour = (L.localtime_r (last.stamp + 60)).tm_hour)
    (hday : ¬ d.day > 0 ∨ d.day = (L.localtime_r (last.stamp + 60)).tm_mday)
    (hmon : ¬ d.mon > 0 ∨ d.mon = (L.localtime_r (last.stamp + 60)).tm_mon + 1)
    (hyear : ¬ d.year ≥ 0 ∨ d.year = (L.localtime_r (last.stamp + 60)).tm_year - 100)
    (hwday : ¬ d.wday > 0 ∨ c_rem d.wday 7 = (L.localtime_r (last.stamp + 60)).tm_wday)
    (htz : ¬ d.tz ≥ 0 ∨ d.tz = (L.localtime_r (last.stamp + 60)).tm_isdst + 1) :
    (check_data_locked L d last).1.stamp = last.stamp + 60 ∧
    (check_data_locked L d last).1.stamp_chk = min 10 (last.stamp_chk + 1) := by
  unfold check_data_locked
  simp only [locked_step_clean _ _ _ _ _ _ _ hmin, locked_step_clean _ _ _ _ _ _ _ hhour,
    locked_step_clean _ _ _ _ _ _ _ hday, locked_step_clean _ _ _ _ _ _ _ hmon,
    locked_step_clean _ _ _ _ _ _ _ hyear, locked_step_clean _ _ _ _ _ _ _ hwday,
    locked_step_clean _ _ _ _ _ _ _ htz]
  simp only [ne_eq, not_true_eq_false, if_false, int8_of_range (last.stamp_chk + 1)
    (by omega) (by omega)]
  have hcond : ¬ (if last.stamp_chk + 1 > 10 then 10 else last.stamp_chk + 1) < 0 := by
    split <;> omega
  rw [if_neg hcond]
  refine ⟨rfl, ?_⟩
  show (if last.stamp_chk + 1 > 10 then 10 else last.stamp_chk + 1) = _
  split <;> omega

/-- C9. Locked-mode clean advance: for every `last` with a non-zero stamp and `stamp_chk` in
0..10, and every frame whose decoded fields are each unknown (negative) or equal to the local
broken-down time of `last.stamp + 60` (the weekday with Sunday as 7), `check_data` yields
`now.stamp = last.stamp + 60` and `now.stamp_chk = min 10 (last.stamp_chk + 1)`. -/
theorem locked_clean_advance (L : Libc) (data : List Int) (now last : dcf77_time)
    (hs : last.stamp ≠ 0) (hc0 : 0 ≤ last.stamp_chk) (hc1 : last.stamp_chk ≤ 10)
    (hwd0 : 0 ≤ (L.localtime_r (last.stamp + 60)).tm_wday)
    (hwd1 : (L.localtime_r (last.stamp + 60)).tm_wday ≤ 6)
    (hmin : (check_data_fields data now).2.min < 0 ∨
      (check_data_fields data now).2.min = (L.localtime_r (last.stamp + 60)).tm_min)
    (hhour : (check_data_fields data now).2.hour < 0 ∨
      (check_data_fields data now).2.hour = (L.localtime_r (last.stamp + 60)).tm_hour)
    (hday : (check_data_fields data now).2.day < 0 ∨
      (check_data_fields data now).2.day = (L.localtime_r (last.stamp + 60)).tm_mday)
    (hmon : (check_data_fields data now).2.mon < 0 ∨
      (check_data_fields data now).2.mon = (L.localtime_r (last.stamp + 60)).tm_mon + 1)
    (hyear : (check_data_fields data now).2.year < 0 ∨
      (check_data_fields data now).2.year = (L.localtime_r (last.stamp + 60)).tm_year - 100)
    (hwday : (check_data_fields data now).2.wday < 0 ∨
      (check_data_fields data now).2.wday =
        if (L.localtime_r (last.stamp + 60)).tm_wday = 0 then 7
        else (L.localtime_r (last.stamp + 60)).tm_wday)
    (htz : (check_data_fields data now).2.tz < 0 ∨
      (check_data_fields data now).2.tz = (L.localtime_r (last.stamp + 60)).tm_isdst + 1) :
    (check_data L data now last).now.stamp = last.stamp + 60 ∧
    (check_data L data now last).now.stamp_chk = min 10 (last.stamp_chk + 1) := by
  have hw : ¬ (check_data_fields data now).2.wday > 0 ∨
      c_rem (check_data_fields data now).2.wday 7 = (L.localtime_r (last.stamp + 60)).tm_wday := by
    rcases hwday with h | h
    · exact Or.inl (by omega)
    · right
      rw [h]
      unfold c_rem
      split
      · rename_i h0
        rw [h0]
        decide
      · rw [Int.tmod_eq_emod hwd0 (by decide)]
        omega
  have key := check_data_locked_clean L (check_data_fields data now).2 last hc0 hc1
    (hmin.imp (fun h => by omega) id) (hhour.imp (fun h => by omega) id)
    (hday.imp (fun h => by omega) id) (hmon.imp (fun h => by omega) id)
    (hyear.imp (fun h => by omega) id) hw (htz.imp (fun h => by omega) id)
  unfold check_data
  simp only [if_neg hs]
  exact key

theorem locked_clean_advance_witness :
    (check_data berlin (encode_frame (calendar 36 12 15 1 1 24 1)) init_dcf77_time
      { calendar 35 12 15 1 1 24 1 with stamp := 1705318500, stamp_chk := 3 }).now.stamp
        = 1705318500 + 60 ∧
    (check_data berlin (encode_frame (calendar 36 12 15 1 1 24 1)) init_dcf77_time
      { calendar 35 12 15 1 1 24 1 with stamp := 1705318500, stamp_chk := 3 }).now.stamp_chk
        = min 10 (3 + 1) :=
  locked_clean_advance berlin (encode_frame (calendar 36 12 15 1 1 24 1)) init_dcf77_time
    { calendar 35 12 15 1 1 24 1 with stamp := 1705318500, stamp_chk := 3 }
    (by decide) (by decide) (by decide) (by decide) (by decide) (by decide) (by decide)
    (by decide) (by decide) (by decide) (by decide) (by decide)

/-- C10, counterexample. Locked at 12:35 with `stamp_chk = 5`, the frame for 12:36 with bit 29
flipped: the stamp advances by 60 and the hour is the predicted 12, but `stamp_chk` becomes 6,
not 4: the hour parity check fails, the hour counts as unknown and no error is counted. -/
theorem locked_hour_glitch_increments :
    (check_data berlin (flip_bit (encode_frame (calendar 36 12 15 1 1 24 1)) 29) init_dcf77_time
      { calendar 35 12 15 1 1 24 1 with stamp := 1705318500, stamp_chk := 5 }).now.stamp
        = 1705318560 ∧
    (check_data berlin (flip_bit (encode_frame (calendar 36 12 15 1 1 24 1)) 29) init_dcf77_time
      { calendar 35 12 15 1 1 24 1 with stamp := 1705318500, stamp_chk := 5 }).now.hour = 12 ∧
    (check_data berlin (flip_bit (encode_frame (calendar 36 12 15 1 1 24 1)) 29) init_dcf77_time
      { calendar 35 12 15 1 1 24 1 with stamp := 1705318500, stamp_chk := 5 }).now.stamp_chk = 6 ∧
    (check_data berlin (flip_bit (encode_frame (calendar 36 12 15 1 1 24 1)) 29) init_dcf77_time
      { calendar 35 12 15 1 1 24 1 with stamp := 1705318500, stamp_chk := 5 }).now.stamp_chk
        ≠ 5 - 1 ∧
    (check_data_fields (flip_bit (encode_frame (calendar 36 12 15 1 1 24 1)) 29)
      init_dcf77_time).2.hour = -2 ∧
    encode_frame (calendar_of_tm (berlin.localtime_r (1705318500 + 60))) =
      encode_frame (calendar 36 12 15 1 1 24 1) := by
  decide

/-! ## A flipped hour bit in locked mode -/

theorem ite_now_hour (c : Prop) [Decidable c] (a b : dcf77_time × dcf77_time) (x : Int)
    (h1 : a.1.hour = x) (h2 : b.1.hour = x) : (if c then a else b).1.hour = x := by
  split <;> assumption

/-- The locked branch forces a deviating hour to the predicted one. -/
theorem check_data_locked_hour (L : Libc) (d last : dcf77_time)
    (h : d.hour ≠ (L.localtime_r (last.stamp + 60)).tm_hour) :
    (check_data_locked L d last).1.hour = int8 (L.localtime_r (last.stamp + 60)).tm_hour := by
  unfold check_data_locked
  apply ite_now_hour
  · show (ite _ _ _ : Int × Int).1 = _
    rw [if_pos h]
  · show (ite _ _ _ : Int × Int).1 = _
    rw [if_pos h]

/-- The hour block of an encoded frame with bit 29 flipped: bits again, and the parity
check rejects it. -/
theorem check_parity_hour_flipped (t : dcf77_time) :
    (∀ i, i < 7 → rd (flip_bit (encode_frame t) 29) (29 + i) = 0 ∨
      rd (flip_bit (encode_frame t) 29) (29 + i) = 1) ∧
    check_parity (flip_bit (encode_frame t) 29) 29 7 = (-1, flip_bit (encode_frame t) 29) := by
  obtain ⟨r29, r30, r31, r32, r33, r34, r35⟩ := rd_encode_hour t
  have f29 : rd (flip_bit (encode_frame t) 29) 29 = 1 - bcd_bit (t.hour % 10) 0 := by
    rw [rd_flip_bit_eq _ _ (by rw [encode_frame_length]; decide), r29]
  have f30 := (rd_flip_bit_ne (encode_frame t) 29 30 (by decide)).trans r30
  have f31 := (rd_flip_bit_ne (encode_frame t) 29 31 (by decide)).trans r31
  have f32 := (rd_flip_bit_ne (encode_frame t) 29 32 (by decide)).trans r32
  have f33 := (rd_flip_bit_ne (encode_frame t) 29 33 (by decide)).trans r33
  have f34 := (rd_flip_bit_ne (encode_frame t) 29 34 (by decide)).trans r34
  have f35 := (rd_flip_bit_ne (encode_frame t) 29 35 (by decide)).trans r35
  have hsym : ∀ i, i < 7 → rd (flip_bit (encode_frame t) 29) (29 + i) = 0 ∨
      rd (flip_bit (encode_frame t) 29) (29 + i) = 1 := by
    intro i hi
    have hb := bcd_bit_cases (t.hour % 10) 0
    interval_cases i <;> simp only [Nat.reduceAdd, f29, f30, f31, f32, f33, f34, f35] <;>
      first | exact bcd_bit_cases _ _ | omega
  refine ⟨hsym, ?_⟩
  rw [check_parity_known_sum _ _ _ (by decide) hsym]
  simp only [Finset.sum_range_succ, Finset.sum_range_zero, Nat.reduceAdd, Nat.add_zero, f29, f30,
    f31, f32, f33, f34, f35, Nat.reduceSub]
  rw [if_neg]
  have hb := bcd_bit_cases (t.hour % 10) 0
  omega

/-- The fields that the decoding part of `check_data` extracts from an array that carries an
encoded frame with bit 29 flipped in the symbols 17, 18 and 21..58: the hour stays as it was,
the other six fields are those of the frame. -/
theorem check_data_fields_hour_flipped (data : List Int) (t now : dcf77_time)
    (hdata : ∀ j, (j = 17 ∨ j = 18 ∨ (21 ≤ j ∧ j ≤ 58)) →
      rd data j = rd (flip_bit (encode_frame t) 29) j)
    (hn0 : 0 ≤ t.min) (hn1 : t.min ≤ 59)
    (hd0 : 1 ≤ t.day) (hd1 : t.day ≤ 31) (hw0 : 1 ≤ t.wday) (hw1 : t.wday ≤ 7)
    (hm0 : 1 ≤ t.mon) (hm1 : t.mon ≤ 12) (hy0 : 0 ≤ t.year) (hy1 : t.year ≤ 99)
    (htz : t.tz = 1 ∨ t.tz = 2) :
    (check_data_fields data now).2.min = t.min ∧
    (check_data_fields data now).2.hour = now.hour ∧
    (check_data_fields data now).2.day = t.day ∧
    (check_data_fields data now).2.wday = t.wday ∧
    (check_data_fields data now).2.mon = t.mon ∧
    (check_data_fields data now).2.year = t.year ∧
    (check_data_fields data now).2.tz = t.tz := by
  have hfr : ∀ j, (j = 17 ∨ j = 18 ∨ (21 ≤ j ∧ j ≤ 58)) → j ≠ 29 →
      rd data j = rd (encode_frame t) j :=
    fun j hj hne => (hdata j hj).trans (rd_flip_bit_ne _ 29 j hne)
  have hmin : check_data_min data now.min = (data, t.min) :=
    check_data_min_agree data t _ (fun i hi => hfr (21 + i) (by omega) (by omega)) hn0 hn1
  have hhour : check_data_hour data now.hour = (data, now.hour) := by
    obtain ⟨hsym, hpar⟩ := check_parity_hour_flipped t
    unfold check_data_hour
    rw [check_parity_congr_known data _ 29 7 (by decide)
      (fun i hi => hdata (29 + i) (by omega)) hsym, hpar]
    simp
  obtain ⟨hday, hwday, hmon, hyear⟩ := check_data_fields_date data now
  obtain ⟨e1, e2, e3, e4⟩ := check_data_date_fields_agree data t
    (fun i hi => hfr (36 + i) (by omega) (by omega)) hd0 hd1 hw0 hw1 hm0 hm1 hy0 hy1
  refine ⟨?_, ?_, hday.trans e1, hwday.trans e2, hmon.trans e3, hyear.trans e4, ?_⟩
  · show (check_data_min data now.min).2 = t.min
    rw [hmin]
  · show (check_data_hour (check_data_min data now.min).1 now.hour).2 = now.hour
    rw [hmin, hhour]
  · show (check_data_tz data).2 = t.tz
    have := check_data_tz_encode t htz
    unfold check_data_tz at this ⊢
    rw [hfr 17 (by omega) (by decide), hfr 18 (by omega) (by decide)]
    rw [this]

/-- C10, amended. Locked-mode one-bit glitch: for every locked `last` (non-zero stamp,
`stamp_chk` in 1..10) and every frame that carries the encoding of the minute
`last.stamp + 60` with bit 29 (hour low bit) flipped, `check_data` on a fresh `*now` yields
`now.stamp = last.stamp + 60`, the predicted hour, and
`now.stamp_chk = min 10 (last.stamp_chk + 1)`: the flipped bit fails the hour parity, the hour
counts as unknown, and no error is counted. -/
theorem locked_hour_glitch (L : Libc) (data : List Int) (last : dcf77_time)
    (hs : last.stamp ≠ 0) (hc0 : 1 ≤ last.stamp_chk) (hc1 : last.stamp_chk ≤ 10)
    (hn0 : 0 ≤ (L.localtime_r (last.stamp + 60)).tm_min)
    (hn1 : (L.localtime_r (last.stamp + 60)).tm_min ≤ 59)
    (hh0 : 0 ≤ (L.localtime_r (last.stamp + 60)).tm_hour)
    (hh1 : (L.localtime_r (last.stamp + 60)).tm_hour ≤ 23)
    (hd0 : 1 ≤ (L.localtime_r (last.stamp + 60)).tm_mday)
    (hd1 : (L.localtime_r (last.stamp + 60)).tm_mday ≤ 31)
    (hm0 : 0 ≤ (L.localtime_r (last.stamp + 60)).tm_mon)
    (hm1 : (L.localtime_r (last.stamp + 60)).tm_mon ≤ 11)
    (hy0 : 100 ≤ (L.localtime_r (last.stamp + 60)).tm_year)
    (hy1 : (L.localtime_r (last.stamp + 60)).tm_year ≤ 199)
    (hw0 : 0 ≤ (L.localtime_r (last.stamp + 60)).tm_wday)
    (hw1 : (L.localtime_r (last.stamp + 60)).tm_wday ≤ 6)
    (hz : (L.localtime_r (last.stamp + 60)).tm_isdst = 0 ∨
      (L.localtime_r (last.stamp + 60)).tm_isdst = 1)
    (hdata : ∀ j, (j = 17 ∨ j = 18 ∨ (21 ≤ j ∧ j ≤ 58)) → rd data j =
      rd (flip_bit (encode_frame (calendar_of_tm (L.localtime_r (last.stamp + 60)))) 29) j) :
    (check_data L data init_dcf77_time last).now.stamp = last.stamp + 60 ∧
    (check_data L data init_dcf77_time last).now.hour =
      (L.localtime_r (last.stamp + 60)).tm_hour ∧
    (check_data L data init_dcf77_time last).now.stamp_chk = min 10 (last.stamp_chk + 1) := by
  have hwd : 1 ≤ (calendar_of_tm (L.localtime_r (last.stamp + 60))).wday ∧
      (calendar_of_tm (L.localtime_r (last.stamp + 60))).wday ≤ 7 := by
    simp only [calendar_of_tm, calendar]
    split <;> omega
  obtain ⟨fmin, fhour, fday, fwday, fmon, fyear, ftz⟩ :=
    check_data_fields_hour_flipped data (calendar_of_tm (L.localtime_r (last.stamp + 60)))
      init_dcf77_time hdata hn0 hn1 hd0 hd1 hwd.1 hwd.2
      (show 1 ≤ (L.localtime_r (last.stamp + 60)).tm_mon + 1 by omega)
      (show (L.localtime_r (last.stamp + 60)).tm_mon + 1 ≤ 12 by omega)
      (show 0 ≤ (L.localtime_r (last.stamp + 60)).tm_year - 100 by omega)
      (show (L.localtime_r (last.stamp + 60)).tm_year - 100 ≤ 99 by omega)
      (show (L.localtime_r (last.stamp + 60)).tm_isdst + 1 = 1 ∨
        (L.localtime_r (last.stamp + 60)).tm_isdst + 1 = 2 by omega)
  have hwc : c_rem (check_data_fields data init_dcf77_time).2.wday 7 =
      (L.localtime_r (last.stamp + 60)).tm_wday := by
    rw [fwday]
    simp only [calendar_of_tm, calendar]
    unfold c_rem
    split
    · rename_i h0
      rw [h0]
      decide
    · rw [Int.tmod_eq_emod hw0 (by decide)]
      omega
  have hhr : (check_data_fields data init_dcf77_time).2.hour = -2 := fhour
  have key := check_data_locked_clean L (check_data_fields data init_dcf77_time).2 last
    (by omega) hc1 (Or.inr fmin) (Or.inl (by rw [hhr]; decide)) (Or.inr fday) (Or.inr fmon)
    (Or.inr fyear) (Or.inr hwc) (Or.inr ftz)
  have hh := check_data_locked_hour L (check_data_fields data init_dcf77_time).2 last
    (by rw [hhr]; omega)
  rw [int8_of_range _ (by omega) (by omega)] at hh
  unfold check_data
  simp only [if_neg hs]
  exact ⟨key.1, hh, key.2⟩

theorem locked_hour_glitch_witness :
    (check_data berlin (flip_bit (encode_frame (calendar 36 12 15 1 1 24 1)) 29) init_dcf77_time
      { calendar 35 12 15 1 1 24 1 with stamp := 1705318500, stamp_chk := 5 }).now.stamp
        = 1705318500 + 60 ∧
    (check_data berlin (flip_bit (encode_frame (calendar 36 12 15 1 1 24 1)) 29) init_dcf77_time
      { calendar 35 12 15 1 1 24 1 with stamp := 1705318500, stamp_chk := 5 }).now.hour
        = (berlin.localtime_r (1705318500 + 60)).tm_hour ∧
    (check_data berlin (flip_bit (encode_frame (calendar 36 12 15 1 1 24 1)) 29) init_dcf77_time
      { calendar 35 12 15 1 1 24 1 with stamp := 1705318500, stamp_chk := 5 }).now.stamp_chk
        = min 10 (5 + 1) :=
  locked_hour_glitch berlin (flip_bit (encode_frame (calendar 36 12 15 1 1 24 1)) 29)
    { calendar 35 12 15 1 1 24 1 with stamp := 1705318500, stamp_chk := 5 }
    (by decide) (by decide) (by decide) (by decide) (by decide) (by decide) (by decide)
    (by decide) (by decide) (by decide) (by decide) (by decide) (by decide) (by decide)
    (by decide) (by decide) (fun j _ => congrArg (fun d => rd d j) (by decide))

/-! ## Mismatches in the locked branch -/

/-- The error count after one comparison of the locked branch. -/
theorem locked_step_count (g f pred v c : Int) (known : Prop) [Decidable known] :
    (if g ≠ pred then (v, if known then c + 1 else c) else (f, c)).2 =
      c + (if g ≠ pred ∧ known then 1 else 0) := by
  by_cases h1 : g ≠ pred <;> by_cases h2 : known <;> simp [h1, h2]

/-- The error count after the first comparison of the locked branch. -/
theorem locked_step_count_first (g f pred v : Int) (known : Prop) [Decidable known] :
    (if g ≠ pred then (v, if known then (1 : Int) else 0) else (f, 0)).2 =
      (if g ≠ pred ∧ known then 1 else 0) := by
  by_cases h1 : g ≠ pred <;> by_cases h2 : known <;> simp [h1, h2]

/-- The confidence of the stamp after the locked branch. -/
theorem check_data_locked_stamp_chk (L : Libc) (d last : dcf77_time) :
    (check_data_locked L d last).1.stamp_chk =
      locked_stamp_chk (locked_errors L d last) last.stamp_chk := by
  unfold check_data_locked locked_stamp_chk locked_errors
  simp only [apply_ite Prod.fst, apply_ite dcf77_time.stamp_chk, ite_self]
  simp only [locked_step_count_first, locked_step_count]


/-- The stamp after the locked branch. -/
theorem check_data_locked_stamp (L : Libc) (d last : dcf77_time) :
    (check_data_locked L d last).1.stamp =
      if locked_stamp_chk (locked_errors L d last) last.stamp_chk < 0 then 0
      else last.stamp + 60 := by
  unfold check_data_locked locked_stamp_chk locked_errors
  simp only [apply_ite Prod.fst, apply_ite dcf77_time.stamp]
  simp only [locked_step_count_first, locked_step_count]

/-- The field confidences after the locked branch. -/
theorem check_data_locked_chks (L : Libc) (d last : dcf77_time) :
    (check_data_locked L d last).1.min_chk =
      (if locked_stamp_chk (locked_errors L d last) last.stamp_chk < 0 then 1 else d.min_chk) ∧
    (check_data_locked L d last).1.hour_chk =
      (if locked_stamp_chk (locked_errors L d last) last.stamp_chk < 0 then 1 else d.hour_chk) ∧
    (check_data_locked L d last).1.tz_chk =
      (if locked_stamp_chk (locked_errors L d last) last.stamp_chk < 0 then 1 else d.tz_chk) ∧
    (check_data_locked L d last).1.day_chk =
      (if locked_stamp_chk (locked_errors L d last) last.stamp_chk < 0 then 1 else d.day_chk) ∧
    (check_data_locked L d last).1.mon_chk =
      (if locked_stamp_chk (locked_errors L d last) last.stamp_chk < 0 then 1 else d.mon_chk) ∧
    (check_data_locked L d last).1.wday_chk =
      (if locked_stamp_chk (locked_errors L d last) last.stamp_chk < 0 then 1 else d.wday_chk) ∧
    (check_data_locked L d last).1.year_chk =
      (if locked_stamp_chk (locked_errors L d last) last.stamp_chk < 0 then 1 else d.year_chk) := by
  refine ⟨?_, ?_, ?_, ?_, ?_, ?_, ?_⟩
  · unfold check_data_locked locked_stamp_chk locked_errors
    simp only [apply_ite Prod.fst, apply_ite dcf77_time.min_chk]
    simp only [locked_step_count_first, locked_step_count]
  · unfold check_data_locked locked_stamp_chk locked_errors
    simp only [apply_ite Prod.fst, apply_ite dcf77_time.hour_chk]
    simp only [locked_step_count_first, locked_step_count]
  · unfold check_data_locked locked_stamp_chk locked_errors
    simp only [apply_ite Prod.fst, apply_ite dcf77_time.tz_chk]
    simp only [locked_step_count_first, locked_step_count]
  · unfold check_data_locked locked_stamp_chk locked_errors
    simp only [apply_ite Prod.fst, apply_ite dcf77_time.day_chk]
    simp only [locked_step_count_first, locked_step_count]
  · unfold check_data_locked locked_stamp_chk locked_errors
    simp only [apply_ite Prod.fst, apply_ite dcf77_time.mon_chk]
    simp only [locked_step_count_first, locked_step_count]
  · unfold check_data_locked locked_stamp_chk locked_errors
    simp only [apply_ite Prod.fst, apply_ite dcf77_time.wday_chk]
    simp only [locked_step_count_first, locked_step_count]
  · unfold check_data_locked locked_stamp_chk locked_errors
    simp only [apply_ite Prod.fst, apply_ite dcf77_time.year_chk]
    simp only [locked_step_count_first, locked_step_count]

/-- The error count is not negative, and positive as soon as one comparison fails. -/
theorem locked_errors_pos (L : Libc) (d last : dcf77_time)
    (hmis : (d.min ≠ (L.localtime_r (last.stamp + 60)).tm_min ∧ d.min ≥ 0) ∨
      (d.hour ≠ (L.localtime_r (last.stamp + 60)).tm_hour ∧ d.hour ≥ 0) ∨
      (d.day ≠ (L.localtime_r (last.stamp + 60)).tm_mday ∧ d.day > 0) ∨
      (d.mon ≠ (L.localtime_r (last.stamp + 60)).tm_mon + 1 ∧ d.mon > 0) ∨
      (d.year ≠ (L.localtime_r (last.stamp + 60)).tm_year - 100 ∧ d.year ≥ 0) ∨
      (c_rem d.wday 7 ≠ (L.localtime_r (last.stamp + 60)).tm_wday ∧ d.wday > 0) ∨
      (d.tz ≠ (L.localtime_r (last.stamp + 60)).tm_isdst + 1 ∧ d.tz ≥ 0)) :
    0 < locked_errors L d last := by
  unfold locked_errors
  generalize h1 : (if d.min ≠ (L.localtime_r (last.stamp + 60)).tm_min ∧ d.min ≥ 0
    then (1 : Int) else 0) = e1
  generalize h2 : (if d.hour ≠ (L.localtime_r (last.stamp + 60)).tm_hour ∧ d.hour ≥ 0
    then (1 : Int) else 0) = e2
  generalize h3 : (if d.day ≠ (L.localtime_r (last.stamp + 60)).tm_mday ∧ d.day > 0
    then (1 : Int) else 0) = e3
  generalize h4 : (if d.mon ≠ (L.localtime_r (last.stamp + 60)).tm_mon + 1 ∧ d.mon > 0
    then (1 : Int) else 0) = e4
  generalize h5 : (if d.year ≠ (L.localtime_r (last.stamp + 60)).tm_year - 100 ∧ d.year ≥ 0
    then (1 : Int) else 0) = e5
  generalize h6 : (if c_rem d.wday 7 ≠ (L.localtime_r (last.stamp + 60)).tm_wday ∧ d.wday > 0
    then (1 : Int) else 0) = e6
  generalize h7 : (if d.tz ≠ (L.localtime_r (last.stamp + 60)).tm_isdst + 1 ∧ d.tz ≥ 0
    then (1 : Int) else 0) = e7
  have p1 : 0 ≤ e1 := by rw [← h1]; split <;> decide
  have p2 : 0 ≤ e2 := by rw [← h2]; split <;> decide
  have p3 : 0 ≤ e3 := by rw [← h3]; split <;> decide
  have p4 : 0 ≤ e4 := by rw [← h4]; split <;> decide
  have p5 : 0 ≤ e5 := by rw [← h5]; split <;> decide
  have p6 : 0 ≤ e6 := by rw [← h6]; split <;> decide
  have p7 : 0 ≤ e7 := by rw [← h7]; split <;> decide
  rcases hmis with h | h | h | h | h | h | h
  · rw [if_pos h] at h1; omega
  · rw [if_pos h] at h2; omega
  · rw [if_pos h] at h3; omega
  · rw [if_pos h] at h4; omega
  · rw [if_pos h] at h5; omega
  · rw [if_pos h] at h6; omega
  · rw [if_pos h] at h7; omega

/-- C11. Locked-mode fallback: for every locked `last` (non-zero stamp, `stamp_chk` in its
range 0..10) and every frame with at least one known field that disagrees with the local
broken-down time of `last.stamp + 60`, `check_data` sets
`now.stamp_chk = last.stamp_chk - 1`; if that is -1 it sets the seven confidence counters to 1
and `now.stamp` to 0, and otherwise it keeps `now.stamp = last.stamp + 60`. -/
theorem locked_fallback (L : Libc) (data : List Int) (now last : dcf77_time)
    (hs : last.stamp ≠ 0) (hc0 : 0 ≤ last.stamp_chk) (hc1 : last.stamp_chk ≤ 10)
    (hwd0 : 0 ≤ (L.localtime_r (last.stamp + 60)).tm_wday)
    (hwd1 : (L.localtime_r (last.stamp + 60)).tm_wday ≤ 6)
    (hmis :
      ((check_data_fields data now).2.min ≥ 0 ∧
        (check_data_fields data now).2.min ≠ (L.localtime_r (last.stamp + 60)).tm_min) ∨
      ((check_data_fields data now).2.hour ≥ 0 ∧
        (check_data_fields data now).2.hour ≠ (L.localtime_r (last.stamp + 60)).tm_hour) ∨
      ((check_data_fields data now).2.day > 0 ∧
        (check_data_fields data now).2.day ≠ (L.localtime_r (last.stamp + 60)).tm_mday) ∨
      ((check_data_fields data now).2.mon > 0 ∧
        (check_data_fields data now).2.mon ≠ (L.localtime_r (last.stamp + 60)).tm_mon + 1) ∨
      ((check_data_fields data now).2.year ≥ 0 ∧
        (check_data_fields data now).2.year ≠ (L.localtime_r (last.stamp + 60)).tm_year - 100) ∨
      ((check_data_fields data now).2.wday > 0 ∧
        (check_data_fields data now).2.wday ≠
          if (L.localtime_r (last.stamp + 60)).tm_wday = 0 then 7
          else (L.localtime_r (last.stamp + 60)).tm_wday) ∨
      ((check_data_fields data now).2.tz ≥ 0 ∧
        (check_data_fields data now).2.tz ≠ (L.localtime_r (last.stamp + 60)).tm_isdst + 1)) :
    (check_data L data now last).now.stamp_chk = last.stamp_chk - 1 ∧
    (last.stamp_chk - 1 = -1 →
      (check_data L data now last).now.min_chk = 1 ∧
      (check_data L data now last).now.hour_chk = 1 ∧
      (check_data L data now last).now.tz_chk = 1 ∧
      (check_data L data now last).now.day_chk = 1 ∧
      (check_data L data now last).now.mon_chk = 1 ∧
      (check_data L data now last).now.wday_chk = 1 ∧
      (check_data L data now last).now.year_chk = 1 ∧
      (check_data L data now last).now.stamp = 0) ∧
    (last.stamp_chk - 1 ≠ -1 → (check_data L data now last).now.stamp = last.stamp + 60) := by
  have hw7 : (check_data_fields data now).2.wday ≤ 7 := by
    rw [(check_data_fields_date data now).2.1]
    unfold check_data_wday
    rcases check_number_range data 42 3 1 7 with h | h <;> omega
  have herr : 0 < locked_errors L (check_data_fields data now).2 last := by
    apply locked_errors_pos
    rcases hmis with h | h | h | h | h | h | h
    · exact Or.inl ⟨h.2, h.1⟩
    · exact Or.inr (Or.inl ⟨h.2, h.1⟩)
    · exact Or.inr (Or.inr (Or.inl ⟨h.2, h.1⟩))
    · exact Or.inr (Or.inr (Or.inr (Or.inl ⟨h.2, h.1⟩)))
    · exact Or.inr (Or.inr (Or.inr (Or.inr (Or.inl ⟨h.2, h.1⟩))))
    · refine Or.inr (Or.inr (Or.inr (Or.inr (Or.inr (Or.inl ⟨?_, h.1⟩)))))
      obtain ⟨hk, hne⟩ := h
      unfold c_rem
      rw [Int.tmod_eq_emod (by omega) (by decide)]
      split at hne <;> omega
    · exact Or.inr (Or.inr (Or.inr (Or.inr (Or.inr (Or.inr ⟨h.2, h.1⟩)))))
  have hchk : locked_stamp_chk (locked_errors L (check_data_fields data now).2 last)
      last.stamp_chk = last.stamp_chk - 1 := by
    have he : locked_errors L (check_data_fields data now).2 last ≠ 0 := by omega
    unfold locked_stamp_chk
    simp only [if_pos he, int8_of_range (last.stamp_chk - 1) (by omega) (by omega)]
    rw [if_neg (by omega)]
  have h1 := check_data_locked_stamp_chk L (check_data_fields data now).2 last
  have h2 := check_data_locked_stamp L (check_data_fields data now).2 last
  obtain ⟨k1, k2, k3, k4, k5, k6, k7⟩ :=
    check_data_locked_chks L (check_data_fields data now).2 last
  rw [hchk] at h1 h2 k1 k2 k3 k4 k5 k6 k7
  unfold check_data
  simp only [if_neg hs]
  refine ⟨h1, ?_, ?_⟩
  · intro h
    have hlt : last.stamp_chk - 1 < 0 := by omega
    rw [if_pos hlt] at h2 k1 k2 k3 k4 k5 k6 k7
    exact ⟨k1, k2, k3, k4, k5, k6, k7, h2⟩
  · intro h
    rw [if_neg (by omega)] at h2
    exact h2

theorem locked_fallback_witness :
    (check_data berlin (encode_frame (calendar 37 12 15 1 1 24 1)) init_dcf77_time
      { calendar 35 12 15 1 1 24 1 with stamp := 1705318500, stamp_chk := 0 }).now.stamp_chk
        = 0 - 1 ∧
    ((0 : Int) - 1 = -1 →
      (check_data berlin (encode_frame (calendar 37 12 15 1 1 24 1)) init_dcf77_time
        { calendar 35 12 15 1 1 24 1 with stamp := 1705318500, stamp_chk := 0 }).now.min_chk = 1 ∧
      (check_data berlin (encode_frame (calendar 37 12 15 1 1 24 1)) init_dcf77_time
        { calendar 35 12 15 1 1 24 1 with stamp := 1705318500, stamp_chk := 0 }).now.hour_chk = 1 ∧
      (check_data berlin (encode_frame (calendar 37 12 15 1 1 24 1)) init_dcf77_time
        { calendar 35 12 15 1 1 24 1 with stamp := 1705318500, stamp_chk := 0 }).now.tz_chk = 1 ∧
      (check_data berlin (encode_frame (calendar 37 12 15 1 1 24 1)) init_dcf77_time
        { calendar 35 12 15 1 1 24 1 with stamp := 1705318500, stamp_chk := 0 }).now.day_chk = 1 ∧
      (check_data berlin (encode_frame (calendar 37 12 15 1 1 24 1)) init_dcf77_time
        { calendar 35 12 15 1 1 24 1 with stamp := 1705318500, stamp_chk := 0 }).now.mon_chk = 1 ∧
      (check_data berlin (encode_frame (calendar 37 12 15 1 1 24 1)) init_dcf77_time
        { calendar 35 12 15 1 1 24 1 with stamp := 1705318500, stamp_chk := 0 }).now.wday_chk = 1 ∧
      (check_data berlin (encode_frame (calendar 37 12 15 1 1 24 1)) init_dcf77_time
        { calendar 35 12 15 1 1 24 1 with stamp := 1705318500, stamp_chk := 0 }).now.year_chk = 1 ∧
      (check_data berlin (encode_frame (calendar 37 12 15 1 1 24 1)) init_dcf77_time
        { calendar 35 12 15 1 1 24 1 with stamp := 1705318500, stamp_chk := 0 }).now.stamp = 0) ∧
    ((0 : Int) - 1 ≠ -1 →
      (check_data berlin (encode_frame (calendar 37 12 15 1 1 24 1)) init_dcf77_time
        { calendar 35 12 15 1 1 24 1 with stamp := 1705318500, stamp_chk := 0 }).now.stamp
          = 1705318500 + 60) :=
  locked_fallback berlin (encode_frame (calendar 37 12 15 1 1 24 1)) init_dcf77_time
    { calendar 35 12 15 1 1 24 1 with stamp := 1705318500, stamp_chk := 0 }
    (by decide) (by decide) (by decide) (by decide) (by decide) (by decide)

/-! ## The voting rule of the unlocked branch -/

/-- The pattern `vote_field` obeys the voting rule when the last value is known. -/
theorem vote_field_rule (nk : Prop) [Decidable nk] (e lc f c : Int)
    (h0 : -128 ≤ lc) (h1 : lc ≤ 127) :
    voting_rule nk e lc f (vote_field true (decide nk) e lc f c).1
      (vote_field true (decide nk) e lc f c).2 := by
  unfold voting_rule vote_field
  refine ⟨?_, ?_, ?_⟩
  · rintro ⟨hk, he⟩ hlt
    simp only [if_true, decide_eq_true_eq, if_pos hk, if_pos he]
    exact ⟨trivial, int8_of_range _ (by omega) (by omega)⟩
  · rintro ⟨hk, he, hpos⟩
    simp only [if_true, decide_eq_true_eq, if_pos hk, if_neg he, if_pos hpos]
    exact ⟨trivial, int8_of_range _ (by omega) (by omega)⟩
  · intro hk
    simp only [if_true, decide_eq_true_eq, if_neg hk]
    exact ⟨trivial, trivial⟩

/-- The minute and its confidence after the unlocked branch. -/
theorem check_data_unlocked_min (L : Libc) (d last : dcf77_time) :
    (check_data_unlocked L d last).1.min =
      (vote_field (decide (last.min ≥ 0)) (decide (d.min ≥ 0)) (c_rem (last.min + 1) 60)
        last.min_chk d.min d.min_chk).1 ∧
    (check_data_unlocked L d last).1.min_chk =
      (vote_field (decide (last.min ≥ 0)) (decide (d.min ≥ 0)) (c_rem (last.min + 1) 60)
        last.min_chk d.min d.min_chk).2 := by
  constructor
  · unfold check_data_unlocked
    simp only [apply_ite Prod.fst, apply_ite dcf77_time.min, ite_self]
  · unfold check_data_unlocked
    simp only [apply_ite Prod.fst, apply_ite dcf77_time.min_chk, ite_self]


/-- The hour and its confidence after the unlocked branch, when the last hour is known. -/
theorem check_data_unlocked_hour (L : Libc) (d last : dcf77_time) (h : last.hour ≥ 0) :
    (check_data_unlocked L d last).1.hour =
      (vote_field true (decide (d.hour ≥ 0))
        (if (check_data_unlocked L d last).1.min = 0 then c_rem (last.hour + 1) 24
          else last.hour)
        last.hour_chk d.hour d.hour_chk).1 ∧
    (check_data_unlocked L d last).1.hour_chk =
      (vote_field true (decide (d.hour ≥ 0))
        (if (check_data_unlocked L d last).1.min = 0 then c_rem (last.hour + 1) 24
          else last.hour)
        last.hour_chk d.hour d.hour_chk).2 := by
  rw [(check_data_unlocked_min L d last).1]
  have hrem : c_rem (last.hour + 1) 24 ≥ 0 := by
    unfold c_rem
    rw [Int.tmod_eq_emod (by omega) (by decide)]
    omega
  constructor
  · unfold check_data_unlocked
    simp only [apply_ite Prod.fst, apply_ite dcf77_time.hour, apply_ite dcf77_time.hour_chk,
      ite_self, h, and_true]
    split <;> simp [hrem, h]
  · unfold check_data_unlocked
    simp only [apply_ite Prod.fst, apply_ite dcf77_time.hour, apply_ite dcf77_time.hour_chk,
      ite_self, h, and_true]
    split <;> simp [hrem, h]


/-- The date fields, the time zone and their confidences after the unlocked branch. -/
theorem check_data_unlocked_date (L : Libc) (d last : dcf77_time) :
    ((check_data_unlocked L d last).1.day =
        (vote_field (decide (last.day > 0)) (decide (d.day > 0)) last.day last.day_chk
          d.day d.day_chk).1 ∧
      (check_data_unlocked L d last).1.day_chk =
        (vote_field (decide (last.day > 0)) (decide (d.day > 0)) last.day last.day_chk
          d.day d.day_chk).2) ∧
    ((check_data_unlocked L d last).1.wday =
        (vote_field (decide (last.wday > 0)) (decide (d.wday > 0)) last.wday last.wday_chk
          d.wday d.wday_chk).1 ∧
      (check_data_unlocked L d last).1.wday_chk =
        (vote_field (decide (last.wday > 0)) (decide (d.wday > 0)) last.wday last.wday_chk
          d.wday d.wday_chk).2) ∧
    ((check_data_unlocked L d last).1.mon =
        (vote_field (decide (last.mon > 0)) (decide (d.mon > 0)) last.mon last.mon_chk
          d.mon d.mon_chk).1 ∧
      (check_data_unlocked L d last).1.mon_chk =
        (vote_field (decide (last.mon > 0)) (decide (d.mon > 0)) last.mon last.mon_chk
          d.mon d.mon_chk).2) ∧
    ((check_data_unlocked L d last).1.year =
        (vote_field (decide (last.year ≥ 0)) (decide (d.year ≥ 0)) last.year last.year_chk
          d.year d.year_chk).1 ∧
      (check_data_unlocked L d last).1.year_chk =
        (vote_field (decide (last.year ≥ 0)) (decide (d.year ≥ 0)) last.year last.year_chk
          d.year d.year_chk).2) ∧
    ((check_data_unlocked L d last).1.tz =
        (vote_field (decide (last.tz > 0)) (decide (d.tz > 0)) last.tz last.tz_chk
          d.tz d.tz_chk).1 ∧
      (check_data_unlocked L d last).1.tz_chk =
        (vote_field (decide (last.tz > 0)) (decide (d.tz > 0)) last.tz last.tz_chk
          d.tz d.tz_chk).2) := by
  refine ⟨⟨?_, ?_⟩, ⟨?_, ?_⟩, ⟨?_, ?_⟩, ⟨?_, ?_⟩, ⟨?_, ?_⟩⟩
  · unfold check_data_unlocked
    simp only [apply_ite Prod.fst, apply_ite dcf77_time.day, apply_ite dcf77_time.day_chk,
      ite_self]
  · unfold check_data_unlocked
    simp only [apply_ite Prod.fst, apply_ite dcf77_time.day, apply_ite dcf77_time.day_chk,
      ite_self]
  · unfold check_data_unlocked
    simp only [apply_ite Prod.fst, apply_ite dcf77_time.wday, apply_ite dcf77_time.wday_chk,
      ite_self]
  · unfold check_data_unlocked
    simp only [apply_ite Prod.fst, apply_ite dcf77_time.wday, apply_ite dcf77_time.wday_chk,
      ite_self]
  · unfold check_data_unlocked
    simp only [apply_ite Prod.fst, apply_ite dcf77_time.mon, apply_ite dcf77_time.mon_chk,
      ite_self]
  · unfold check_data_unlocked
    simp only [apply_ite Prod.fst, apply_ite dcf77_time.mon, apply_ite dcf77_time.mon_chk,
      ite_self]
  · unfold check_data_unlocked
    simp only [apply_ite Prod.fst, apply_ite dcf77_time.year, apply_ite dcf77_time.year_chk,
      ite_self]
  · unfold check_data_unlocked
    simp only [apply_ite Prod.fst, apply_ite dcf77_time.year, apply_ite dcf77_time.year_chk,
      ite_self]
  · unfold check_data_unlocked
    simp only [apply_ite Prod.fst, apply_ite dcf77_time.tz, apply_ite dcf77_time.tz_chk,
      ite_self]
  · unfold check_data_unlocked
    simp only [apply_ite Prod.fst, apply_ite dcf77_time.tz, apply_ite dcf77_time.tz_chk,
      ite_self]

/-- The unlocked branch is what `check_data` runs when the last stamp is 0. -/
theorem check_data_now_unlocked (L : Libc) (data : List Int) (now last : dcf77_time)
    (hs : last.stamp = 0) :
    (check_data L data now last).now =
      (check_data_unlocked L (check_data_fields data now).2 last).1 := by
  unfold check_data
  simp only [hs, if_true]

/-- C12, amended. Unlocked-mode voting rule: for every `last` with `last.stamp = 0` (its
confidence counters being `int8_t` values) and every field among min, hour, day, wday, mon,
year, tz whose last value is known, with the expected value `last.f` for day, wday, mon, year
and tz, `(last.min + 1) mod 60` for min, and for hour `last.hour` advanced by 1 mod 24 when
the voted `now.min` is 0: if `now.f` is known and equals the expected value and
`last.f_chk < 127` then `now.f_chk = last.f_chk + 1`; if `now.f` is known, differs and
`last.f_chk > 0` then `now.f` becomes the expected value and `now.f_chk = last.f_chk - 1`; if
`now.f` is unknown then `now.f` becomes the expected value and `now.f_chk = last.f_chk`. -/
theorem unlocked_voting (L : Libc) (data : List Int) (now last : dcf77_time)
    (hs : last.stamp = 0)
    (hty : ∀ c ∈ [last.min_chk, last.hour_chk, last.day_chk, last.wday_chk, last.mon_chk,
      last.year_chk, last.tz_chk], -128 ≤ c ∧ c ≤ 127) :
    (last.min ≥ 0 →
      voting_rule ((check_data_fields data now).2.min ≥ 0) ((last.min + 1) % 60) last.min_chk
        (check_data_fields data now).2.min
        (check_data L data now last).now.min (check_data L data now last).now.min_chk) ∧
    (last.hour ≥ 0 →
      voting_rule ((check_data_fields data now).2.hour ≥ 0)
        (if (check_data L data now last).now.min = 0 then (last.hour + 1) % 24 else last.hour)
        last.hour_chk (check_data_fields data now).2.hour
        (check_data L data now last).now.hour (check_data L data now last).now.hour_chk) ∧
    (last.day > 0 →
      voting_rule ((check_data_fields data now).2.day > 0) last.day last.day_chk
        (check_data_fields data now).2.day
        (check_data L data now last).now.day (check_data L data now last).now.day_chk) ∧
    (last.wday > 0 →
      voting_rule ((check_data_fields data now).2.wday > 0) last.wday last.wday_chk
        (check_data_fields data now).2.wday
        (check_data L data now last).now.wday (check_data L data now last).now.wday_chk) ∧
    (last.mon > 0 →
      voting_rule ((check_data_fields data now).2.mon > 0) last.mon last.mon_chk
        (check_data_fields data now).2.mon
        (check_data L data now last).now.mon (check_data L data now last).now.mon_chk) ∧
    (last.year ≥ 0 →
      voting_rule ((check_data_fields data now).2.year ≥ 0) last.year last.year_chk
        (check_data_fields data now).2.year
        (check_data L data now last).now.year (check_data L data now last).now.year_chk) ∧
    (last.tz > 0 →
      voting_rule ((check_data_fields data now).2.tz > 0) last.tz last.tz_chk
        (check_data_fields data now).2.tz
        (check_data L data now last).now.tz (check_data L data now last).now.tz_chk) := by
  rw [check_data_now_unlocked L data now last hs]
  obtain ⟨m1, m2⟩ := check_data_unlocked_min L (check_data_fields data now).2 last
  obtain ⟨⟨d1, d2⟩, ⟨w1, w2⟩, ⟨o1, o2⟩, ⟨y1, y2⟩, ⟨z1, z2⟩⟩ :=
    check_data_unlocked_date L (check_data_fields data now).2 last
  have t1 := hty last.min_chk (by simp)
  have t2 := hty last.hour_chk (by simp)
  have t3 := hty last.day_chk (by simp)
  have t4 := hty last.wday_chk (by simp)
  have t5 := hty last.mon_chk (by simp)
  have t6 := hty last.year_chk (by simp)
  have t7 := hty last.tz_chk (by simp)
  refine ⟨?_, ?_, ?_, ?_, ?_, ?_, ?_⟩
  · intro h
    rw [m1, m2, ← c_rem_of_nonneg (last.min + 1) 60 (by omega) (by decide),
      show decide (last.min ≥ 0) = true from decide_eq_true h]
    exact vote_field_rule _ _ _ _ _ t1.1 t1.2
  · intro h
    obtain ⟨h1, h2⟩ := check_data_unlocked_hour L (check_data_fields data now).2 last h
    rw [h1, h2, ← c_rem_of_nonneg (last.hour + 1) 24 (by omega) (by decide)]
    exact vote_field_rule _ _ _ _ _ t2.1 t2.2
  · intro h
    rw [d1, d2, show decide (last.day > 0) = true from decide_eq_true h]
    exact vote_field_rule _ _ _ _ _ t3.1 t3.2
  · intro h
    rw [w1, w2, show decide (last.wday > 0) = true from decide_eq_true h]
    exact vote_field_rule _ _ _ _ _ t4.1 t4.2
  · intro h
    rw [o1, o2, show decide (last.mon > 0) = true from decide_eq_true h]
    exact vote_field_rule _ _ _ _ _ t5.1 t5.2
  · intro h
    rw [y1, y2, show decide (last.year ≥ 0) = true from decide_eq_true h]
    exact vote_field_rule _ _ _ _ _ t6.1 t6.2
  · intro h
    rw [z1, z2, show decide (last.tz > 0) = true from decide_eq_true h]
    exact vote_field_rule _ _ _ _ _ t7.1 t7.2



theorem unlocked_voting_witness :
    (({ calendar 34 12 15 1 1 24 1 with min_chk := 1, hour_chk := 1 }).min ≥ 0 →
      voting_rule ((check_data_fields (encode_frame (calendar 35 12 15 1 1 24 1)) init_dcf77_time).2.min ≥ 0)
        ((({ calendar 34 12 15 1 1 24 1 with min_chk := 1, hour_chk := 1 }).min + 1) % 60)
        ({ calendar 34 12 15 1 1 24 1 with min_chk := 1, hour_chk := 1 }).min_chk
        (check_data_fields (encode_frame (calendar 35 12 15 1 1 24 1)) init_dcf77_time).2.min
        (check_data berlin (encode_frame (calendar 35 12 15 1 1 24 1)) init_dcf77_time
          { calendar 34 12 15 1 1 24 1 with min_chk := 1, hour_chk := 1 }).now.min
        (check_data berlin (encode_frame (calendar 35 12 15 1 1 24 1)) init_dcf77_time
          { calendar 34 12 15 1 1 24 1 with min_chk := 1, hour_chk := 1 }).now.min_chk) ∧
    (({ calendar 34 12 15 1 1 24 1 with min_chk := 1, hour_chk := 1 }).hour ≥ 0 →
      voting_rule ((check_data_fields (encode_frame (calendar 35 12 15 1 1 24 1)) init_dcf77_time).2.hour ≥ 0)
        (if (check_data berlin (encode_frame (calendar 35 12 15 1 1 24 1)) init_dcf77_time
          { calendar 34 12 15 1 1 24 1 with min_chk := 1, hour_chk := 1 }).now.min = 0
          then (({ calendar 34 12 15 1 1 24 1 with min_chk := 1, hour_chk := 1 }).hour + 1) % 24
          else ({ calendar 34 12 15 1 1 24 1 with min_chk := 1, hour_chk := 1 }).hour)
        ({ calendar 34 12 15 1 1 24 1 with min_chk := 1, hour_chk := 1 }).hour_chk
        (check_data_fields (encode_frame (calendar 35 12 15 1 1 24 1)) init_dcf77_time).2.hour
        (check_data berlin (encode_frame (calendar 35 12 15 1 1 24 1)) init_dcf77_time
          { calendar 34 12 15 1 1 24 1 with min_chk := 1, hour_chk := 1 }).now.hour
        (check_data berlin (encode_frame (calendar 35 12 15 1 1 24 1)) init_dcf77_time
          { calendar 34 12 15 1 1 24 1 with min_chk := 1, hour_chk := 1 }).now.hour_chk) ∧
    (({ calendar 34 12 15 1 1 24 1 with min_chk := 1, hour_chk := 1 }).day > 0 →
      voting_rule ((check_data_fields (encode_frame (calendar 35 12 15 1 1 24 1)) init_dcf77_time).2.day > 0)
        ({ calendar 34 12 15 1 1 24 1 with min_chk := 1, hour_chk := 1 }).day
        ({ calendar 34 12 15 1 1 24 1 with min_chk := 1, hour_chk := 1 }).day_chk
        (check_data_fields (encode_frame (calendar 35 12 15 1 1 24 1)) init_dcf77_time).2.day
        (check_data berlin (encode_frame (calendar 35 12 15 1 1 24 1)) init_dcf77_time
          { calendar 34 12 15 1 1 24 1 with min_chk := 1, hour_chk := 1 }).now.day
        (check_data berlin (encode_frame (calendar 35 12 15 1 1 24 1)) init_dcf77_time
          { calendar 34 12 15 1 1 24 1 with min_chk := 1, hour_chk := 1 }).now.day_chk) ∧
    (({ calendar 34 12 15 1 1 24 1 with min_chk := 1, hour_chk := 1 }).wday > 0 →
      voting_rule ((check_data_fields (encode_frame (calendar 35 12 15 1 1 24 1)) init_dcf77_time).2.wday > 0)
        ({ calendar 34 12 15 1 1 24 1 with min_chk := 1, hour_chk := 1 }).wday
        ({ calendar 34 12 15 1 1 24 1 with min_chk := 1, hour_chk := 1 }).wday_chk
        (check_data_fields (encode_frame (calendar 35 12 15 1 1 24 1)) init_dcf77_time).2.wday
        (check_data berlin (encode_frame (calendar 35 12 15 1 1 24 1)) init_dcf77_time
          { calendar 34 12 15 1 1 24 1 with min_chk := 1, hour_chk := 1 }).now.wday
        (check_data berlin (encode_frame (calendar 35 12 15 1 1 24 1)) init_dcf77_time
          { calendar 34 12 15 1 1 24 1 with min_chk := 1, hour_chk := 1 }).now.wday_chk) ∧
    (({ calendar 34 12 15 1 1 24 1 with min_chk := 1, hour_chk := 1 }).mon > 0 →
      voting_rule ((check_data_fields (encode_frame (calendar 35 12 15 1 1 24 1)) init_dcf77_time).2.mon > 0)
        ({ calendar 34 12 15 1 1 24 1 with min_chk := 1, hour_chk := 1 }).mon
        ({ calendar 34 12 15 1 1 24 1 with min_chk := 1, hour_chk := 1 }).mon_chk
        (check_data_fields (encode_frame (calendar 35 12 15 1 1 24 1)) init_dcf77_time).2.mon
        (check_data berlin (encode_frame (calendar 35 12 15 1 1 24 1)) init_dcf77_time
          { calendar 34 12 15 1 1 24 1 with min_chk := 1, hour_chk := 1 }).now.mon
        (check_data berlin (encode_frame (calendar 35 12 15 1 1 24 1)) init_dcf77_time
          { calendar 34 12 15 1 1 24 1 with min_chk := 1, hour_chk := 1 }).now.mon_chk) ∧
    (({ calendar 34 12 15 1 1 24 1 with min_chk := 1, hour_chk := 1 }).year ≥ 0 →
      voting_rule ((check_data_fields (encode_frame (calendar 35 12 15 1 1 24 1)) init_dcf77_time).2.year ≥ 0)
        ({ calendar 34 12 15 1 1 24 1 with min_chk := 1, hour_chk := 1 }).year
        ({ calendar 34 12 15 1 1 24 1 with min_chk := 1, hour_chk := 1 }).year_chk
        (check_data_fields (encode_frame (calendar 35 12 15 1 1 24 1)) init_dcf77_time).2.year
        (check_data berlin (encode_frame (calendar 35 12 15 1 1 24 1)) init_dcf77_time
          { calendar 34 12 15 1 1 24 1 with min_chk := 1, hour_chk := 1 }).now.year
        (check_data berlin (encode_frame (calendar 35 12 15 1 1 24 1)) init_dcf77_time
          { calendar 34 12 15 1 1 24 1 with min_chk := 1, hour_chk := 1 }).now.year_chk) ∧
    (({ calendar 34 12 15 1 1 24 1 with min_chk := 1, hour_chk := 1 }).tz > 0 →
      voting_rule ((check_data_fields (encode_frame (calendar 35 12 15 1 1 24 1)) init_dcf77_time).2.tz > 0)
        ({ calendar 34 12 15 1 1 24 1 with min_chk := 1, hour_chk := 1 }).tz
        ({ calendar 34 12 15 1 1 24 1 with min_chk := 1, hour_chk := 1 }).tz_chk
        (check_data_fields (encode_frame (calendar 35 12 15 1 1 24 1)) init_dcf77_time).2.tz
        (check_data berlin (encode_frame (calendar 35 12 15 1 1 24 1)) init_dcf77_time
          { calendar 34 12 15 1 1 24 1 with min_chk := 1, hour_chk := 1 }).now.tz
        (check_data berlin (encode_frame (calendar 35 12 15 1 1 24 1)) init_dcf77_time
          { calendar 34 12 15 1 1 24 1 with min_chk := 1, hour_chk := 1 }).now.tz_chk) :=
  unlocked_voting berlin (encode_frame (calendar 35 12 15 1 1 24 1)) init_dcf77_time
    { calendar 34 12 15 1 1 24 1 with min_chk := 1, hour_chk := 1 } (by decide) (by decide)

/-- C12, counterexample. With `last.min = 10` known, `last.min_chk = 127` and the frame for
minute 11, the decoded minute is known and equals the expected value, but `now.min_chk` is
-128, not 128: the `int8_t` counter wraps. -/
theorem unlocked_voting_counter_wraps :
    (check_data_fields (encode_frame (calendar 11 12 15 1 1 24 1)) init_dcf77_time).2.min
      = (10 + 1) % 60 ∧
    (check_data berlin (encode_frame (calendar 11 12 15 1 1 24 1)) init_dcf77_time
      { calendar 10 12 15 1 1 24 1 with min_chk := 127 }).now.min_chk = -128 ∧
    (check_data berlin (encode_frame (calendar 11 12 15 1 1 24 1)) init_dcf77_time
      { calendar 10 12 15 1 1 24 1 with min_chk := 127 }).now.min_chk ≠ 127 + 1 := by
  decide

/-! ## The published precision -/

/-- The table of `set_ntp_shm` yields a value between `5 * 16` and `20 * 16`. -/
theorem set_ntp_shm_prec_range (min_dev : Int) :
    80 ≤ set_ntp_shm_prec min_dev ∧ set_ntp_shm_prec min_dev ≤ 320 := by
  have key : ∀ (c : Prop) [Decidable c] (a b : Int), (80 ≤ a ∧ a ≤ 320) →
      (80 ≤ b ∧ b ≤ 320) → (80 ≤ (if c then a else b) ∧ (if c then a else b) ≤ 320) := by
    intro c _ a b ha hb
    split <;> assumption
  unfold set_ntp_shm_prec
  dsimp only
  repeat' first
    | exact ⟨by decide, by decide⟩
    | apply key

/-- The smoothed precision stays between 79 and 320. -/
theorem set_ntp_shm_precision_range (precision min_dev : Int)
    (h0 : 79 ≤ precision) (h1 : precision ≤ 320) :
    79 ≤ set_ntp_shm_precision precision min_dev ∧
    set_ntp_shm_precision precision min_dev ≤ 320 := by
  have hp := set_ntp_shm_prec_range min_dev
  unfold set_ntp_shm_precision
  dsimp only
  split_ifs <;> omega

/-- The smoothed precision after any sequence of calls is between 79 and 320. -/
theorem precision_after_range (devs : List Int) :
    79 ≤ precision_after devs ∧ precision_after devs ≤ 320 := by
  unfold precision_after
  have key : ∀ (l : List Int) (p : Int), 79 ≤ p → p ≤ 320 →
      79 ≤ l.foldl set_ntp_shm_precision p ∧ l.foldl set_ntp_shm_precision p ≤ 320 := by
    intro l
    induction l with
    | nil => intro p h0 h1; exact ⟨h0, h1⟩
    | cons d l ih =>
      intro p h0 h1
      have := set_ntp_shm_precision_range p d h0 h1
      exact ih _ this.1 this.2
  exact key devs (5 * 16) (by decide) (by decide)

/-- The precision field that `set_ntp_shm` writes. -/
theorem set_ntp_shm_precision_field (shm : shmTime) (precision : Int) (now : dcf77_time)
    (min_dev sig_avr : Int) (sig_now : time_info_t) :
    (set_ntp_shm shm precision now min_dev sig_avr sig_now).1.precision =
      -(set_ntp_shm_precision precision min_dev / 16) := by
  have h := Int.shiftRight_eq_div_pow (set_ntp_shm_precision precision min_dev) 4
  rw [Int.shiftRight_eq] at h
  simp [set_ntp_shm, set_ntp_shm_writes, h]

/-- C13, amended. Published precision stays in range: for every sequence of per-minute
deviations passed to successive `set_ntp_shm` calls, starting from the initial smoothed
precision `5 * 16`, the smoothed precision stays in 79..320 and the precision field written
to the shared-memory record is an integer in [-20, -4]. -/
theorem published_precision_range (devs : List Int) (shm : shmTime) (now : dcf77_time)
    (min_dev sig_avr : Int) (sig_now : time_info_t) :
    79 ≤ (set_ntp_shm shm (precision_after devs) now min_dev sig_avr sig_now).2 ∧
    (set_ntp_shm shm (precision_after devs) now min_dev sig_avr sig_now).2 ≤ 320 ∧
    (set_ntp_shm shm (precision_after devs) now min_dev sig_avr sig_now).2 =
      precision_after (devs ++ [min_dev]) ∧
    -20 ≤ (set_ntp_shm shm (precision_after devs) now min_dev sig_avr sig_now).1.precision ∧
    (set_ntp_shm shm (precision_after devs) now min_dev sig_avr sig_now).1.precision ≤ -4 := by
  have hr := precision_after_range devs
  have hn := set_ntp_shm_precision_range (precision_after devs) min_dev hr.1 hr.2
  rw [set_ntp_shm_precision_field]
  have h2 : (set_ntp_shm shm (precision_after devs) now min_dev sig_avr sig_now).2 =
      set_ntp_shm_precision (precision_after devs) min_dev := rfl
  rw [h2]
  refine ⟨hn.1, hn.2, ?_, ?_, ?_⟩
  · unfold precision_after
    rw [List.foldl_append]
    rfl
  · omega
  · omega

/-- C13, counterexample. After a call with a deviation of 10 ms (smoothed precision 81), a
call with a deviation of 20 ms lowers the smoothed precision to 79, and the precision field
written is -4, outside [-20, -5]. -/
theorem published_precision_minus_four :
    precision_after [10000000] = 81 ∧
    (set_ntp_shm getShmTime_fresh (precision_after [10000000]) init_dcf77_time 20000000 0
      { time := { tv_sec := 0, tv_nsec := 0 }, clock := { tv_sec := 0, tv_nsec := 0 } }).2 = 79 ∧
    (set_ntp_shm getShmTime_fresh (precision_after [10000000]) init_dcf77_time 20000000 0
      { time := { tv_sec := 0, tv_nsec := 0 }, clock := { tv_sec := 0, tv_nsec := 0 } }).1.precision
        = -4 := by
  decide

/-! ## The write protocol of set_ntp_shm -/

/-- The ten states of the record during a call of `set_ntp_shm`. -/
theorem set_ntp_shm_states_eq (shm : shmTime) (now : dcf77_time) (sig_now : time_info_t)
    (p : Int) :
    set_ntp_shm_states shm now sig_now p =
      [ shm,
        { shm with valid := 0 },
        { shm with valid := 0, clockTimeStampSec := now.stamp },
        { shm with valid := 0, clockTimeStampSec := now.stamp, clockTimeStampUSec := 0 },
        { shm with valid := 0, clockTimeStampSec := now.stamp, clockTimeStampUSec := 0,
                   receiveTimeStampSec := sig_now.clock.tv_sec },
        { shm with valid := 0, clockTimeStampSec := now.stamp, clockTimeStampUSec := 0,
                   receiveTimeStampSec := sig_now.clock.tv_sec,
                   receiveTimeStampUSec := int32 (c_div sig_now.clock.tv_nsec 1000) },
        { shm with valid := 0, clockTimeStampSec := now.stamp, clockTimeStampUSec := 0,
                   receiveTimeStampSec := sig_now.clock.tv_sec,
                   receiveTimeStampUSec := int32 (c_div sig_now.clock.tv_nsec 1000),
                   precision := -(Int.shiftRight p 4) },
        { shm with valid := 0, clockTimeStampSec := now.stamp, clockTimeStampUSec := 0,
                   receiveTimeStampSec := sig_now.clock.tv_sec,
                   receiveTimeStampUSec := int32 (c_div sig_now.clock.tv_nsec 1000),
                   precision := -(Int.shiftRight p 4),
                   leap := if now.lsec > 0 then 1 else 0 },
        { shm with valid := 0, clockTimeStampSec := now.stamp, clockTimeStampUSec := 0,
                   receiveTimeStampSec := sig_now.clock.tv_sec,
                   receiveTimeStampUSec := int32 (c_div sig_now.clock.tv_nsec 1000),
                   precision := -(Int.shiftRight p 4),
                   leap := if now.lsec > 0 then 1 else 0,
                   count := int32 (shm.count + 1) },
        { shm with valid := 1, clockTimeStampSec := now.stamp, clockTimeStampUSec := 0,
                   receiveTimeStampSec := sig_now.clock.tv_sec,
                   receiveTimeStampUSec := int32 (c_div sig_now.clock.tv_nsec 1000),
                   precision := -(Int.shiftRight p 4),
                   leap := if now.lsec > 0 then 1 else 0,
                   count := int32 (shm.count + 1) } ] := by
  simp [set_ntp_shm_states, set_ntp_shm_writes, List.scanl]

/-- The record after `set_ntp_shm` is the last of the ten states. -/
theorem set_ntp_shm_final (shm : shmTime) (precision : Int) (now : dcf77_time)
    (min_dev sig_avr : Int) (sig_now : time_info_t) :
    (set_ntp_shm shm precision now min_dev sig_avr sig_now).1 =
      (set_ntp_shm_states shm now sig_now (set_ntp_shm_precision precision min_dev)).getD 9 shm := by
  rw [set_ntp_shm_states_eq]
  simp [set_ntp_shm, set_ntp_shm_writes]


/-- A value within the 32-bit `int` range is stored as it is. -/
theorem int32_of_range (x : Int) (h0 : -2147483648 ≤ x) (h1 : x ≤ 2147483647) : int32 x = x := by
  unfold int32
  omega

/-- C14. Shared-memory write protocol: a call of `set_ntp_shm` (with a count that can be
incremented without signed overflow) first writes `valid = 0`, then the payload, then
`count + 1`, then `valid = 1`: `valid` is 0 in every intermediate state, the count keeps its
old value until the payload is complete, the final state has `valid = 1`, the payload and a
count exactly one larger than before, and `mode`, `nsamples` and `dummy` never change. -/
theorem set_ntp_shm_protocol (shm : shmTime) (precision : Int) (now : dcf77_time)
    (min_dev sig_avr : Int) (sig_now : time_info_t)
    (hc0 : -2147483648 ≤ shm.count) (hc1 : shm.count < 2147483647) :
    (set_ntp_shm_states shm now sig_now (set_ntp_shm_precision precision min_dev)).length = 10 ∧
    (set_ntp_shm_states shm now sig_now (set_ntp_shm_precision precision min_dev)).getD 0 shm
      = shm ∧
    (set_ntp_shm_states shm now sig_now (set_ntp_shm_precision precision min_dev)).getD 1 shm
      = { shm with valid := 0 } ∧
    (set_ntp_shm_states shm now sig_now (set_ntp_shm_precision precision min_dev)).getD 9 shm
      = (set_ntp_shm shm precision now min_dev sig_avr sig_now).1 ∧
    (∀ k, 1 ≤ k → k ≤ 8 →
      ((set_ntp_shm_states shm now sig_now
        (set_ntp_shm_precision precision min_dev)).getD k shm).valid = 0) ∧
    (∀ k, k ≤ 7 →
      ((set_ntp_shm_states shm now sig_now
        (set_ntp_shm_precision precision min_dev)).getD k shm).count = shm.count) ∧
    (∀ k, 7 ≤ k → k ≤ 9 →
      ((set_ntp_shm_states shm now sig_now
        (set_ntp_shm_precision precision min_dev)).getD k shm).clockTimeStampSec = now.stamp ∧
      ((set_ntp_shm_states shm now sig_now
        (set_ntp_shm_precision precision min_dev)).getD k shm).clockTimeStampUSec = 0 ∧
      ((set_ntp_shm_states shm now sig_now
        (set_ntp_shm_precision precision min_dev)).getD k shm).receiveTimeStampSec
          = sig_now.clock.tv_sec ∧
      ((set_ntp_shm_states shm now sig_now
        (set_ntp_shm_precision precision min_dev)).getD k shm).receiveTimeStampUSec
          = int32 (c_div sig_now.clock.tv_nsec 1000) ∧
      ((set_ntp_shm_states shm now sig_now
        (set_ntp_shm_precision precision min_dev)).getD k shm).precision
          = -(set_ntp_shm_precision precision min_dev / 16) ∧
      ((set_ntp_shm_states shm now sig_now
        (set_ntp_shm_precision precision min_dev)).getD k shm).leap
          = if now.lsec > 0 then 1 else 0) ∧
    ((set_ntp_shm_states shm now sig_now (set_ntp_shm_precision precision min_dev)).getD 8
      shm).count = shm.count + 1 ∧
    (set_ntp_shm shm precision now min_dev sig_avr sig_now).1.valid = 1 ∧
    (set_ntp_shm shm precision now min_dev sig_avr sig_now).1.count = shm.count + 1 ∧
    (∀ k, k ≤ 9 →
      ((set_ntp_shm_states shm now sig_now
        (set_ntp_shm_precision precision min_dev)).getD k shm).mode = shm.mode ∧
      ((set_ntp_shm_states shm now sig_now
        (set_ntp_shm_precision precision min_dev)).getD k shm).nsamples = shm.nsamples ∧
      ((set_ntp_shm_states shm now sig_now
        (set_ntp_shm_precision precision min_dev)).getD k shm).dummy = shm.dummy) := by
  have hcnt : int32 (shm.count + 1) = shm.count + 1 := int32_of_range _ (by omega) (by omega)
  have hsh := Int.shiftRight_eq_div_pow (set_ntp_shm_precision precision min_dev) 4
  rw [Int.shiftRight_eq] at hsh
  rw [set_ntp_shm_final, set_ntp_shm_states_eq]
  refine ⟨rfl, rfl, rfl, rfl, ?_, ?_, ?_, ?_, rfl, ?_, ?_⟩
  · intro k h1 h8
    interval_cases k <;> rfl
  · intro k h7
    interval_cases k <;> rfl
  · intro k h7 h9
    interval_cases k <;> exact ⟨rfl, rfl, rfl, rfl, by simp [hsh], rfl⟩
  · simp [hcnt]
  · simp [hcnt]
  · intro k h9
    interval_cases k <;> exact ⟨rfl, rfl, rfl⟩

theorem set_ntp_shm_protocol_witness :
    (set_ntp_shm getShmTime_fresh (5 * 16)
      { calendar 36 12 15 1 1 24 1 with stamp := 1705318560 } 0 0
      { time := { tv_sec := 100, tv_nsec := 5 },
        clock := { tv_sec := 1705318560, tv_nsec := 1234567 } }).1.valid = 1 ∧
    (set_ntp_shm getShmTime_fresh (5 * 16)
      { calendar 36 12 15 1 1 24 1 with stamp := 1705318560 } 0 0
      { time := { tv_sec := 100, tv_nsec := 5 },
        clock := { tv_sec := 1705318560, tv_nsec := 1234567 } }).1.count
          = getShmTime_fresh.count + 1 :=
  ⟨(set_ntp_shm_protocol getShmTime_fresh (5 * 16)
      { calendar 36 12 15 1 1 24 1 with stamp := 1705318560 } 0 0
      { time := { tv_sec := 100, tv_nsec := 5 },
        clock := { tv_sec := 1705318560, tv_nsec := 1234567 } }
      (by decide) (by decide)).2.2.2.2.2.2.2.2.1,
   (set_ntp_shm_protocol getShmTime_fresh (5 * 16)
      { calendar 36 12 15 1 1 24 1 with stamp := 1705318560 } 0 0
      { time := { tv_sec := 100, tv_nsec := 5 },
        clock := { tv_sec := 1705318560, tv_nsec := 1234567 } }
      (by decide) (by decide)).2.2.2.2.2.2.2.2.2.1⟩

/-! ## Properties of get_diff and check_tolerance -/

/-- The result of `get_diff` for nanosecond parts in range and a tolerance below one second:
the nanosecond part is normalised and the value is the true interval plus the tolerance. -/
theorem get_diff_value (old new : time_info_t) (t : Int)
    (ht0 : 0 ≤ t) (ht1 : t < 1000000000)
    (ho0 : 0 ≤ old.time.tv_nsec) (ho1 : old.time.tv_nsec < 1000000000)
    (hn0 : 0 ≤ new.time.tv_nsec) (hn1 : new.time.tv_nsec < 1000000000) :
    0 ≤ (get_diff old new t).tv_nsec ∧ (get_diff old new t).tv_nsec < 1000000000 ∧
    (get_diff old new t).tv_sec * 1000000000 + (get_diff old new t).tv_nsec
      = (new.time.tv_sec - old.time.tv_sec) * 1000000000
        + (new.time.tv_nsec - old.time.tv_nsec) + t := by
  unfold get_diff
  by_cases h1 : new.time.tv_nsec - old.time.tv_nsec + t ≥ 1000000000
  · simp only [if_pos h1]
    rw [if_neg (by show ¬ (new.time.tv_nsec - old.time.tv_nsec + t - 1000000000 < 0); omega)]
    refine ⟨?_, ?_, ?_⟩ <;> simp only <;> omega
  · simp only [if_neg h1]
    by_cases h2 : new.time.tv_nsec - old.time.tv_nsec + t < 0
    · rw [if_pos h2]
      refine ⟨?_, ?_, ?_⟩ <;> simp only <;> omega
    · rw [if_neg h2]
      refine ⟨?_, ?_, ?_⟩ <;> simp only <;> omega

/-- C17. Symmetric tolerance band: for a tolerance between 5 ms and 40 ms, edge times with
nanosecond parts in `[0, 10^9)` and an expected interval `(s, ns)` with `s ≥ 0`, `ns ≥ 0` and
`ns + 2t < 10^9`, `check_tolerance` on `get_diff old new t` returns 1 exactly when the true
interval `new - old` (in nanoseconds) differs from `s` seconds plus `ns` nanoseconds by at
most `t`; and `get_diff` returns a nanosecond part in `[0, 10^9)` whose value together with
the seconds part is the true interval plus `t`. -/
theorem tolerance_band (old new : time_info_t) (t s ns : Int)
    (ht0 : 5000000 ≤ t) (ht1 : t ≤ 40000000)
    (ho0 : 0 ≤ old.time.tv_nsec) (ho1 : old.time.tv_nsec < 1000000000)
    (hn0 : 0 ≤ new.time.tv_nsec) (hn1 : new.time.tv_nsec < 1000000000)
    (_hs : 0 ≤ s) (hns : 0 ≤ ns) (hb : ns + 2 * t < 1000000000) :
    (check_tolerance (get_diff old new t) s ns t = 1 ↔
      |((new.time.tv_sec - old.time.tv_sec) * 1000000000
          + (new.time.tv_nsec - old.time.tv_nsec)) - (s * 1000000000 + ns)| ≤ t) ∧
    0 ≤ (get_diff old new t).tv_nsec ∧ (get_diff old new t).tv_nsec < 1000000000 ∧
    (get_diff old new t).tv_sec * 1000000000 + (get_diff old new t).tv_nsec
      = (new.time.tv_sec - old.time.tv_sec) * 1000000000
        + (new.time.tv_nsec - old.time.tv_nsec) + t := by
  obtain ⟨g0, g1, g2⟩ := get_diff_value old new t (by omega) (by omega) ho0 ho1 hn0 hn1
  refine ⟨?_, g0, g1, g2⟩
  generalize get_diff old new t = d at g0 g1 g2
  unfold check_tolerance
  rw [abs_le]
  constructor
  · intro h
    by_cases hc : d.tv_sec = s ∧ d.tv_nsec ≥ ns ∧ d.tv_nsec ≤ ns + 2 * t
    · obtain ⟨c1, c2, c3⟩ := hc
      constructor <;> omega
    · rw [if_neg hc] at h
      exact absurd h (by decide)
  · intro ⟨h1, h2⟩
    rw [if_pos]
    refine ⟨?_, ?_, ?_⟩ <;> omega

theorem tolerance_band_witness :
    (check_tolerance
      (get_diff { time := { tv_sec := 10, tv_nsec := 950000000 }, clock := { tv_sec := 0, tv_nsec := 0 } }
        { time := { tv_sec := 11, tv_nsec := 60000000 }, clock := { tv_sec := 0, tv_nsec := 0 } }
        25000000) 0 100000000 25000000 = 1 ↔
      |((11 - 10) * 1000000000 + (60000000 - 950000000 : Int)) - (0 * 1000000000 + 100000000)|
        ≤ 25000000) ∧
    check_tolerance
      (get_diff { time := { tv_sec := 10, tv_nsec := 950000000 }, clock := { tv_sec := 0, tv_nsec := 0 } }
        { time := { tv_sec := 11, tv_nsec := 60000000 }, clock := { tv_sec := 0, tv_nsec := 0 } }
        25000000) 0 100000000 25000000 = 1 :=
  ⟨(tolerance_band
      { time := { tv_sec := 10, tv_nsec := 950000000 }, clock := { tv_sec := 0, tv_nsec := 0 } }
      { time := { tv_sec := 11, tv_nsec := 60000000 }, clock := { tv_sec := 0, tv_nsec := 0 } }
      25000000 0 100000000 (by decide) (by decide) (by decide) (by decide) (by decide)
      (by decide) (by decide) (by decide) (by decide)).1, by decide⟩

/-! ## The symbol of the second -/

theorem rd_wr_eq (data : List Int) (i v : Int) (h0 : 0 ≤ i) (h1 : i.toNat < data.length) :
    rd (wr data i v) i.toNat = v := by
  unfold wr
  rw [if_pos h0]
  exact rd_set_eq data i.toNat v h1

theorem rd_wr_ne (data : List Int) (i v : Int) (j : Nat) (h : (j : Int) ≠ i) :
    rd (wr data i v) j = rd data j := by
  unfold wr
  by_cases h0 : 0 ≤ i
  · rw [if_pos h0]
    exact rd_set_ne data i.toNat j v (by omega)
  · rw [if_neg h0]

theorem wr_length (data : List Int) (i v : Int) : (wr data i v).length = data.length := by
  unfold wr
  split_ifs <;> simp

/-- The statements that store the symbol touch the slot `sec_cnt` only. -/
theorem store_data_other (data : List Int) (sec_cnt sig_short sig_long : Int) (j : Nat)
    (h : (j : Int) ≠ sec_cnt) :
    rd (store_data data sec_cnt sig_short sig_long) j = rd data j := by
  unfold store_data
  simp only
  split_ifs <;> simp only [rd_wr_ne _ _ _ _ h]

/-- When both kinds of signal were seen in unequal numbers, the stored symbol is that of
the kind seen less often. -/
theorem store_data_unequal (data : List Int) (sec_cnt sig_short sig_long : Int)
    (h0 : 0 ≤ sec_cnt) (h1 : sec_cnt.toNat < data.length)
    (hs : 0 < sig_short) (hl : 0 < sig_long) :
    (sig_short < sig_long → rd (store_data data sec_cnt sig_short sig_long) sec_cnt.toNat = 0) ∧
    (sig_short > sig_long → rd (store_data data sec_cnt sig_short sig_long) sec_cnt.toNat = 1) := by
  have e1 : ¬ (sig_short ≠ 0 ∧ sig_long = 0) := by omega
  have e2 : ¬ (sig_short = 0 ∧ sig_long ≠ 0) := by omega
  constructor
  · intro h
    have e3 : sig_short ≠ 0 ∧ sig_long ≠ 0 ∧ sig_short < sig_long := ⟨by omega, by omega, h⟩
    have e4 : ¬ (sig_short ≠ 0 ∧ sig_long ≠ 0 ∧ sig_short > sig_long) := by omega
    simp only [store_data, if_neg e1, if_neg e2, if_pos e3, if_neg e4]
    exact rd_wr_eq data sec_cnt 0 h0 h1
  · intro h
    have e3 : ¬ (sig_short ≠ 0 ∧ sig_long ≠ 0 ∧ sig_short < sig_long) := by omega
    have e4 : sig_short ≠ 0 ∧ sig_long ≠ 0 ∧ sig_short > sig_long := ⟨by omega, by omega, h⟩
    simp only [store_data, if_neg e1, if_neg e2, if_neg e3, if_pos e4]
    exact rd_wr_eq data sec_cnt 1 h0 h1

/-- C16 (amended). Per-second bit symbol: for a second counter inside the array and counts
`sig_short`, `sig_long` of an unsigned type, the statements that store the symbol leave
every slot untouched when both counts are 0, store 0 in `data[sec_cnt]` when only short
signals were seen, store 1 when only long signals were seen, leave every slot untouched
when both kinds were seen equally often, and never touch another slot. -/
theorem store_data_symbol (data : List Int) (sec_cnt sig_short sig_long : Int)
    (h0 : 0 ≤ sec_cnt) (h1 : sec_cnt.toNat < data.length)
    (hs : 0 ≤ sig_short) (hl : 0 ≤ sig_long) :
    (sig_short = 0 ∧ sig_long = 0 → store_data data sec_cnt sig_short sig_long = data) ∧
    (sig_short ≠ 0 ∧ sig_long = 0 →
      rd (store_data data sec_cnt sig_short sig_long) sec_cnt.toNat = 0) ∧
    (sig_short = 0 ∧ sig_long ≠ 0 →
      rd (store_data data sec_cnt sig_short sig_long) sec_cnt.toNat = 1) ∧
    (sig_short ≠ 0 ∧ sig_short = sig_long →
      store_data data sec_cnt sig_short sig_long = data) ∧
    (∀ j : Nat, (j : Int) ≠ sec_cnt →
      rd (store_data data sec_cnt sig_short sig_long) j = rd data j) := by
  refine ⟨?_, ?_, ?_, ?_, fun j hj => store_data_other data sec_cnt sig_short sig_long j hj⟩
  · rintro ⟨a, b⟩
    have e1 : ¬ (sig_short ≠ 0 ∧ sig_long = 0) := by omega
    have e2 : ¬ (sig_short = 0 ∧ sig_long ≠ 0) := by omega
    have e3 : ¬ (sig_short ≠ 0 ∧ sig_long ≠ 0 ∧ sig_short < sig_long) := by omega
    have e4 : ¬ (sig_short ≠ 0 ∧ sig_long ≠ 0 ∧ sig_short > sig_long) := by omega
    simp only [store_data, if_neg e1, if_neg e2, if_neg e3, if_neg e4]
  · rintro ⟨a, b⟩
    have e1 : sig_short ≠ 0 ∧ sig_long = 0 := ⟨a, b⟩
    have e2 : ¬ (sig_short = 0 ∧ sig_long ≠ 0) := by omega
    have e3 : ¬ (sig_short ≠ 0 ∧ sig_long ≠ 0 ∧ sig_short < sig_long) := by omega
    have e4 : ¬ (sig_short ≠ 0 ∧ sig_long ≠ 0 ∧ sig_short > sig_long) := by omega
    simp only [store_data, if_pos e1, if_neg e2, if_neg e3, if_neg e4]
    exact rd_wr_eq data sec_cnt 0 h0 h1
  · rintro ⟨a, b⟩
    have e1 : ¬ (sig_short ≠ 0 ∧ sig_long = 0) := by omega
    have e2 : sig_short = 0 ∧ sig_long ≠ 0 := ⟨a, b⟩
    have e3 : ¬ (sig_short ≠ 0 ∧ sig_long ≠ 0 ∧ sig_short < sig_long) := by omega
    have e4 : ¬ (sig_short ≠ 0 ∧ sig_long ≠ 0 ∧ sig_short > sig_long) := by omega
    simp only [store_data, if_neg e1, if_pos e2, if_neg e3, if_neg e4]
    exact rd_wr_eq data sec_cnt 1 h0 h1
  · rintro ⟨a, b⟩
    have e1 : ¬ (sig_short ≠ 0 ∧ sig_long = 0) := by omega
    have e2 : ¬ (sig_short = 0 ∧ sig_long ≠ 0) := by omega
    have e3 : ¬ (sig_short ≠ 0 ∧ sig_long ≠ 0 ∧ sig_short < sig_long) := by omega
    have e4 : ¬ (sig_short ≠ 0 ∧ sig_long ≠ 0 ∧ sig_short > sig_long) := by omega
    simp only [store_data, if_neg e1, if_neg e2, if_neg e3, if_neg e4]

theorem store_data_symbol_witness :
    rd (store_data (List.replicate 60 (-1)) 17 3 0) (17 : Int).toNat = 0 ∧
    rd (store_data (List.replicate 60 (-1)) 17 0 2) (17 : Int).toNat = 1 ∧
    store_data (List.replicate 60 (-1)) 17 2 2 = List.replicate 60 (-1) :=
  ⟨(store_data_symbol (List.replicate 60 (-1)) 17 3 0 (by decide) (by decide) (by decide)
      (by decide)).2.1 ⟨by decide, rfl⟩,
   by decide, by decide⟩

/-- C16 (counterexample). With one short and one long signal in the second the slot is not
set to 1 but left as it was (unknown here); with one short and two long signals the slot
holds 0, and with two short and one long signal it holds 1: the symbol of the kind seen
less often. -/
theorem store_data_tie_untouched :
    rd (store_data (List.replicate 60 (-1)) 17 1 1) 17 = -1 ∧
    rd (store_data (List.replicate 60 (-1)) 17 1 2) 17 = 0 ∧
    rd (store_data (List.replicate 60 (-1)) 17 2 1) 17 = 1 := by
  decide

/-! ## The publish decision -/

/-- A call of `set_ntp_shm` changes the record: the count is another one afterwards. -/
theorem set_ntp_shm_count_ne (shm : shmTime) (precision : Int) (now : dcf77_time)
    (min_dev sig_avr : Int) (sig_now : time_info_t) :
    (set_ntp_shm shm precision now min_dev sig_avr sig_now).1 ≠ shm := by
  intro h
  have hc := congrArg shmTime.count h
  simp only [set_ntp_shm, set_ntp_shm_writes, List.foldl] at hc
  unfold int32 at hc
  omega

/-- C15 (amended). Wall-clock sanity override: for a completed minute with `now.stamp != 0`
and a shared-memory record, the write to shared memory is skipped if and only if the wall
clock of the minute edge is more than 1200 s behind `stamp - tz * 3600`; then the record
and the smoothed precision are untouched and the wall-clock value of `sig_now` is set to
`stamp - tz * 3600` plus the average signal deviation, otherwise `set_ntp_shm` runs and
`sig_now` is untouched.  In particular a wall clock 30 minutes behind the decoded time
gets no shared-memory update. -/
theorem publish_override (time_now : dcf77_time) (min_dev sig_avr : Int)
    (sig_now : time_info_t) (shm : shmTime) (precision : Int)
    (hstamp : time_now.stamp ≠ 0) :
    ((main_publish time_now min_dev sig_avr sig_now (some shm) precision).2.1 = some shm ↔
      sig_now.clock.tv_sec + 1200 < time_now.stamp - time_now.tz * 3600) ∧
    (sig_now.clock.tv_sec + 1200 < time_now.stamp - time_now.tz * 3600 →
      (main_publish time_now min_dev sig_avr sig_now (some shm) precision).2.2 = precision ∧
      (main_publish time_now min_dev sig_avr sig_now (some shm) precision).1.time
        = sig_now.time ∧
      (main_publish time_now min_dev sig_avr sig_now (some shm) precision).1.clock.tv_sec
          * 1000000000 +
        (main_publish time_now min_dev sig_avr sig_now (some shm) precision).1.clock.tv_nsec
        = (time_now.stamp - time_now.tz * 3600) * 1000000000 + sig_avr ∧
      (main_publish time_now min_dev sig_avr sig_now (some shm) precision).1.clock.tv_sec
        = (if sig_avr < 0 then time_now.stamp - time_now.tz * 3600 - 1
           else time_now.stamp - time_now.tz * 3600)) ∧
    (¬ sig_now.clock.tv_sec + 1200 < time_now.stamp - time_now.tz * 3600 →
      main_publish time_now min_dev sig_avr sig_now (some shm) precision
        = (sig_now, some (set_ntp_shm shm precision time_now min_dev sig_avr sig_now).1,
            (set_ntp_shm shm precision time_now min_dev sig_avr sig_now).2)) ∧
    (sig_now.clock.tv_sec = time_now.stamp - time_now.tz * 3600 - 1800 →
      (main_publish time_now min_dev sig_avr sig_now (some shm) precision).2.1 = some shm) := by
  have hne := set_ntp_shm_count_ne shm precision time_now min_dev sig_avr sig_now
  by_cases h : sig_now.clock.tv_sec + 1200 < time_now.stamp - time_now.tz * 3600
  · have hp : main_publish time_now min_dev sig_avr sig_now (some shm) precision
        = (if sig_avr < 0 then
            { sig_now with clock := { tv_sec := time_now.stamp - time_now.tz * 3600 - 1,
                                      tv_nsec := 1000000000 + sig_avr } }
          else
            { sig_now with clock := { tv_sec := time_now.stamp - time_now.tz * 3600,
                                      tv_nsec := sig_avr } },
           some shm, precision) := by
      unfold main_publish
      rw [if_pos hstamp, if_pos h]
    rw [hp]
    refine ⟨⟨fun _ => h, fun _ => rfl⟩, fun _ => ⟨rfl, ?_, ?_, ?_⟩, fun hn => absurd h hn,
      fun _ => rfl⟩
    · split_ifs <;> rfl
    · split_ifs <;> first | (simp only; omega) | simp only
    · split_ifs <;> rfl
  · have hp : main_publish time_now min_dev sig_avr sig_now (some shm) precision
        = (sig_now, some (set_ntp_shm shm precision time_now min_dev sig_avr sig_now).1,
            (set_ntp_shm shm precision time_now min_dev sig_avr sig_now).2) := by
      unfold main_publish
      rw [if_pos hstamp, if_neg h]
    rw [hp]
    refine ⟨⟨fun he => absurd (Option.some.inj he) hne, fun hh => absurd hh h⟩,
      fun hh => absurd hh h, fun _ => rfl, fun he => absurd (by omega) h⟩

theorem publish_override_witness :
    (main_publish { calendar 36 12 15 1 1 24 1 with stamp := 1705318560 } 0 0
      { time := { tv_sec := 100, tv_nsec := 5 },
        clock := { tv_sec := 1705318560 - 3600 - 1800, tv_nsec := 1234567 } }
      (some getShmTime_fresh) (5 * 16)).2.1 = some getShmTime_fresh :=
  (publish_override { calendar 36 12 15 1 1 24 1 with stamp := 1705318560 } 0 0
      { time := { tv_sec := 100, tv_nsec := 5 },
        clock := { tv_sec := 1705318560 - 3600 - 1800, tv_nsec := 1234567 } }
      getShmTime_fresh (5 * 16) (by decide)).2.2.2 (by decide)

/-- C15 (counterexample). With the wall clock 30 minutes ahead of `stamp - tz * 3600` the
distance exceeds 1200 s, yet the shared-memory record is written (count 1, valid 1, the
decoded stamp) and the wall-clock value of `sig_now` is left as it is. -/
theorem publish_wall_clock_ahead :
    |(1705318560 - 3600 + 1800 : Int) - (1705318560 - 1 * 3600)| > 1200 ∧
    ((main_publish { calendar 36 12 15 1 1 24 1 with stamp := 1705318560 } 0 0
      { time := { tv_sec := 100, tv_nsec := 5 },
        clock := { tv_sec := 1705318560 - 3600 + 1800, tv_nsec := 1234567 } }
      (some getShmTime_fresh) (5 * 16)).2.1.map
        (fun s => (s.valid, s.count, s.clockTimeStampSec))) = some (1, 1, 1705318560) ∧
    (main_publish { calendar 36 12 15 1 1 24 1 with stamp := 1705318560 } 0 0
      { time := { tv_sec := 100, tv_nsec := 5 },
        clock := { tv_sec := 1705318560 - 3600 + 1800, tv_nsec := 1234567 } }
      (some getShmTime_fresh) (5 * 16)).1.clock.tv_sec = 1705318560 - 3600 + 1800 := by
  refine ⟨by decide, by decide, by decide⟩

/-! ## A minute of more than 59 seconds -/

theorem main_more_than_minute_data (st : main_state) :
    (main_more_than_minute st).data = List.replicate 60 (-1) := by
  unfold main_more_than_minute
  simp only
  split_ifs <;> rfl

theorem main_more_than_minute_noise (st : main_state) :
    (main_more_than_minute st).noise = st.noise ∧
    (main_more_than_minute st).edge_dir = st.edge_dir := by
  unfold main_more_than_minute
  simp only
  split_ifs <;> exact ⟨rfl, rfl⟩

/-- The third failure: the minute reference and the last accepted frame are reset. -/
theorem main_more_than_minute_reset (st : main_state) (h : st.min_cnt ≥ 2) :
    (main_more_than_minute st).min_cnt = 0 ∧
    (main_more_than_minute st).min_last = init_time_info ∧
    (main_more_than_minute st).time_last = init_dcf77_time ∧
    (main_more_than_minute st).sec_cnt = st.sec_cnt - c_div st.sec_cnt 60 * 60 := by
  unfold main_more_than_minute
  simp only
  rw [if_pos (by omega)]
  exact ⟨rfl, rfl, rfl, rfl⟩

/-- The first and the second failure: the time and the minute reference are advanced. -/
theorem main_more_than_minute_advance (st : main_state) (h : st.min_cnt < 2) :
    (main_more_than_minute st).min_cnt = st.min_cnt + 1 ∧
    (main_more_than_minute st).min_last
      = (add_minute st.time_last st.min_last (c_div st.sec_cnt 60)).2 ∧
    (main_more_than_minute st).time_last
      = (add_minute st.time_last st.min_last (c_div st.sec_cnt 60)).1 ∧
    (main_more_than_minute st).sec_cnt = st.sec_cnt - c_div st.sec_cnt 60 * 60 := by
  unfold main_more_than_minute
  simp only
  rw [if_neg (by omega)]
  exact ⟨rfl, rfl, rfl, rfl⟩

/-- The noise branch with a second counter that exceeds 59. -/
theorem main_noise_overflow (st : main_state) (diff : timespec) (hd : diff.tv_sec ≠ 0)
    (h : int32 (st.sec_cnt + diff.tv_sec) > 59) :
    main_noise st diff =
      { main_more_than_minute
          { st with data := store_data st.data st.sec_cnt st.sig_short st.sig_long,
                    sig_short := 0, sig_long := 0,
                    sec_last :=
                      { time := { st.sec_last.time with
                                  tv_sec := st.sec_last.time.tv_sec + diff.tv_sec },
                        clock := { st.sec_last.clock with
                                   tv_sec := st.sec_last.clock.tv_sec + diff.tv_sec } },
                    sec_cnt := int32 (st.sec_cnt + diff.tv_sec) } with
        noise := st.noise + 1 } := by
  unfold main_noise
  simp only
  rw [if_pos hd, if_pos h, (main_more_than_minute_noise _).1]


/-- The second-marker branch with a second counter that exceeds 59 and no minute marker:
the fields that the block "check more then a minute" sets are those of the result. -/
theorem main_second_overflow (L : Libc) (fifo_open : Bool) (st : main_state)
    (sig_now : time_info_t) (diff : timespec) (hd : diff.tv_sec ≠ 2)
    (h : (if st.min_last.time.tv_sec ≠ 0 then get_second diff st.min_last sig_now st.tolerance
          else int32 (st.sec_cnt + diff.tv_sec)) > 59) :
    (main_second L fifo_open st sig_now diff).1.data = List.replicate 60 (-1) ∧
    (main_second L fifo_open st sig_now diff).1.min_cnt
      = (main_more_than_minute { st with sec_cnt :=
          (if st.min_last.time.tv_sec ≠ 0 then
            get_second diff st.min_last sig_now st.tolerance
          else int32 (st.sec_cnt + diff.tv_sec)) }).min_cnt ∧
    (main_second L fifo_open st sig_now diff).1.min_last
      = (main_more_than_minute { st with sec_cnt :=
          (if st.min_last.time.tv_sec ≠ 0 then
            get_second diff st.min_last sig_now st.tolerance
          else int32 (st.sec_cnt + diff.tv_sec)) }).min_last ∧
    (main_second L fifo_open st sig_now diff).1.time_last
      = (main_more_than_minute { st with sec_cnt :=
          (if st.min_last.time.tv_sec ≠ 0 then
            get_second diff st.min_last sig_now st.tolerance
          else int32 (st.sec_cnt + diff.tv_sec)) }).time_last := by
  have e : (diff.tv_sec = 2) = False := eq_false hd
  unfold main_second
  simp only [e, and_false, if_false, ne_eq, not_false_eq_true, and_true]
  by_cases hm : st.min_last.time.tv_sec = 0
  · simp only [hm, ne_eq, not_true_eq_false, if_false] at h
    simp only [hm, not_true_eq_false, if_false, if_pos h]
    refine ⟨?_, ?_, ?_, ?_⟩ <;> split_ifs <;>
      simp only [main_more_than_minute] <;> split_ifs <;> rfl
  · simp only [hm, ne_eq, not_false_eq_true, if_true] at h
    simp only [hm, not_false_eq_true, if_true, if_pos h]
    refine ⟨?_, ?_, ?_, ?_⟩ <;> split_ifs <;>
      simp only [main_more_than_minute] <;> split_ifs <;> rfl


/-- C19 (amended). Oversized-minute resync: in the second-marker branch with a second
counter above 59 and no 2-second gap, and in the noise branch with a second counter above
59, all 60 symbols are set to unknown; the minute reference and the last accepted frame
are reset to their initial state exactly when two such failures were already counted
(`min_cnt >= 2`), that is at the third failure in a row, and the failure counter starts
again at 0; at the first and the second failure the counter goes up by one and the frame
and the minute reference are advanced by `add_minute` with `sec_cnt / 60` minutes instead.
A completed minute sets the failure counter to 0. -/
theorem oversized_minute_resync (L : Libc) (fifo_open : Bool) (st : main_state)
    (sig_now : time_info_t) (diff : timespec) :
    (diff.tv_sec ≠ 2 →
      (if st.min_last.time.tv_sec ≠ 0 then get_second diff st.min_last sig_now st.tolerance
        else int32 (st.sec_cnt + diff.tv_sec)) > 59 →
      (main_second L fifo_open st sig_now diff).1.data = List.replicate 60 (-1) ∧
      (st.min_cnt ≥ 2 →
        (main_second L fifo_open st sig_now diff).1.min_cnt = 0 ∧
        (main_second L fifo_open st sig_now diff).1.min_last = init_time_info ∧
        (main_second L fifo_open st sig_now diff).1.time_last = init_dcf77_time) ∧
      (st.min_cnt < 2 →
        (main_second L fifo_open st sig_now diff).1.min_cnt = st.min_cnt + 1 ∧
        (main_second L fifo_open st sig_now diff).1.min_last
          = (add_minute st.time_last st.min_last (c_div
              (if st.min_last.time.tv_sec ≠ 0 then
                get_second diff st.min_last sig_now st.tolerance
              else int32 (st.sec_cnt + diff.tv_sec)) 60)).2 ∧
        (main_second L fifo_open st sig_now diff).1.time_last
          = (add_minute st.time_last st.min_last (c_div
              (if st.min_last.time.tv_sec ≠ 0 then
                get_second diff st.min_last sig_now st.tolerance
              else int32 (st.sec_cnt + diff.tv_sec)) 60)).1)) ∧
    (diff.tv_sec ≠ 0 → int32 (st.sec_cnt + diff.tv_sec) > 59 →
      (main_noise st diff).data = List.replicate 60 (-1) ∧
      (st.min_cnt ≥ 2 →
        (main_noise st diff).min_cnt = 0 ∧
        (main_noise st diff).min_last = init_time_info ∧
        (main_noise st diff).time_last = init_dcf77_time) ∧
      (st.min_cnt < 2 →
        (main_noise st diff).min_cnt = st.min_cnt + 1 ∧
        (main_noise st diff).min_last
          = (add_minute st.time_last st.min_last
              (c_div (int32 (st.sec_cnt + diff.tv_sec)) 60)).2 ∧
        (main_noise st diff).time_last
          = (add_minute st.time_last st.min_last
              (c_div (int32 (st.sec_cnt + diff.tv_sec)) 60)).1)) ∧
    (main_minute L st sig_now diff).1.min_cnt = 0 := by
  refine ⟨fun hd h => ?_, fun hd h => ?_, rfl⟩
  · obtain ⟨h1, h2, h3, h4⟩ := main_second_overflow L fifo_open st sig_now diff hd h
    rw [h1, h2, h3, h4]
    refine ⟨rfl, fun hc => ?_, fun hc => ?_⟩
    · obtain ⟨a, b, c, _⟩ := main_more_than_minute_reset
        { st with sec_cnt :=
          (if st.min_last.time.tv_sec ≠ 0 then
            get_second diff st.min_last sig_now st.tolerance
          else int32 (st.sec_cnt + diff.tv_sec)) } hc
      exact ⟨a, b, c⟩
    · obtain ⟨a, b, c, _⟩ := main_more_than_minute_advance
        { st with sec_cnt :=
          (if st.min_last.time.tv_sec ≠ 0 then
            get_second diff st.min_last sig_now st.tolerance
          else int32 (st.sec_cnt + diff.tv_sec)) } hc
      exact ⟨a, b, c⟩
  · rw [main_noise_overflow st diff hd h]
    refine ⟨main_more_than_minute_data _, fun hc => ?_, fun hc => ?_⟩
    · obtain ⟨a, b, c, _⟩ := main_more_than_minute_reset
        { st with data := store_data st.data st.sec_cnt st.sig_short st.sig_long,
                  sig_short := 0, sig_long := 0,
                  sec_last :=
                    { time := { st.sec_last.time with
                                tv_sec := st.sec_last.time.tv_sec + diff.tv_sec },
                      clock := { st.sec_last.clock with
                                 tv_sec := st.sec_last.clock.tv_sec + diff.tv_sec } },
                  sec_cnt := int32 (st.sec_cnt + diff.tv_sec) } hc
      exact ⟨a, b, c⟩
    · obtain ⟨a, b, c, _⟩ := main_more_than_minute_advance
        { st with data := store_data st.data st.sec_cnt st.sig_short st.sig_long,
                  sig_short := 0, sig_long := 0,
                  sec_last :=
                    { time := { st.sec_last.time with
                                tv_sec := st.sec_last.time.tv_sec + diff.tv_sec },
                      clock := { st.sec_last.clock with
                                 tv_sec := st.sec_last.clock.tv_sec + diff.tv_sec } },
                  sec_cnt := int32 (st.sec_cnt + diff.tv_sec) } hc
      exact ⟨a, b, c⟩

theorem oversized_minute_resync_witness :
    (main_noise
      { main_start 25000000 none 0 with
        edge_dir := 1, min_cnt := 2, sec_cnt := 58,
        time_last := { calendar 36 12 15 1 1 24 1 with stamp := 1705318560 },
        min_last := { time := { tv_sec := 1000, tv_nsec := 0 },
                      clock := { tv_sec := 1705314960, tv_nsec := 0 } } }
      { tv_sec := 3, tv_nsec := 525000000 }).min_cnt = 0 ∧
    (main_noise
      { main_start 25000000 none 0 with
        edge_dir := 1, min_cnt := 2, sec_cnt := 58,
        time_last := { calendar 36 12 15 1 1 24 1 with stamp := 1705318560 },
        min_last := { time := { tv_sec := 1000, tv_nsec := 0 },
                      clock := { tv_sec := 1705314960, tv_nsec := 0 } } }
      { tv_sec := 3, tv_nsec := 525000000 }).min_last = init_time_info ∧
    (main_noise
      { main_start 25000000 none 0 with
        edge_dir := 1, min_cnt := 2, sec_cnt := 58,
        time_last := { calendar 36 12 15 1 1 24 1 with stamp := 1705318560 },
        min_last := { time := { tv_sec := 1000, tv_nsec := 0 },
                      clock := { tv_sec := 1705314960, tv_nsec := 0 } } }
      { tv_sec := 3, tv_nsec := 525000000 }).time_last = init_dcf77_time :=
  ((oversized_minute_resync berlin false
      { main_start 25000000 none 0 with
        edge_dir := 1, min_cnt := 2, sec_cnt := 58,
        time_last := { calendar 36 12 15 1 1 24 1 with stamp := 1705318560 },
        min_last := { time := { tv_sec := 1000, tv_nsec := 0 },
                      clock := { tv_sec := 1705314960, tv_nsec := 0 } } }
      init_time_info { tv_sec := 3, tv_nsec := 525000000 }).2.1
    (by decide) (by decide)).2.1 (by decide)

/-- C19 (counterexample). One failure is already counted (`min_cnt = 1`) and the frame is
locked; a noise edge 3.5 s after second 58 takes the second counter to 61.  This second
failure in a row discards the symbols but does not reset anything: the failure counter
is 2, the last accepted frame is advanced by one minute and keeps its stamp, and the
minute reference is advanced by 60 s. -/
theorem oversized_minute_second_failure :
    classify
      { main_start 25000000 none 0 with
        edge_dir := 1, min_cnt := 1, sec_cnt := 58,
        time_last := { calendar 36 12 15 1 1 24 1 with stamp := 1705318560 },
        sec_last := { time := { tv_sec := 1058, tv_nsec := 0 },
                      clock := { tv_sec := 1705315018, tv_nsec := 0 } },
        min_last := { time := { tv_sec := 1000, tv_nsec := 0 },
                      clock := { tv_sec := 1705314960, tv_nsec := 0 } } }
      { time := { tv_sec := 1061, tv_nsec := 500000000 },
        clock := { tv_sec := 1705315021, tv_nsec := 500000000 } } = edge_class.noise ∧
    (main_edge berlin
      { main_start 25000000 none 0 with
        edge_dir := 1, min_cnt := 1, sec_cnt := 58,
        time_last := { calendar 36 12 15 1 1 24 1 with stamp := 1705318560 },
        sec_last := { time := { tv_sec := 1058, tv_nsec := 0 },
                      clock := { tv_sec := 1705315018, tv_nsec := 0 } },
        min_last := { time := { tv_sec := 1000, tv_nsec := 0 },
                      clock := { tv_sec := 1705314960, tv_nsec := 0 } } }
      { time := { tv_sec := 1061, tv_nsec := 500000000 },
        clock := { tv_sec := 1705315021, tv_nsec := 500000000 } } false).data
        = List.replicate 60 (-1) ∧
    (main_edge berlin
      { main_start 25000000 none 0 with
        edge_dir := 1, min_cnt := 1, sec_cnt := 58,
        time_last := { calendar 36 12 15 1 1 24 1 with stamp := 1705318560 },
        sec_last := { time := { tv_sec := 1058, tv_nsec := 0 },
                      clock := { tv_sec := 1705315018, tv_nsec := 0 } },
        min_last := { time := { tv_sec := 1000, tv_nsec := 0 },
                      clock := { tv_sec := 1705314960, tv_nsec := 0 } } }
      { time := { tv_sec := 1061, tv_nsec := 500000000 },
        clock := { tv_sec := 1705315021, tv_nsec := 500000000 } } false).min_cnt = 2 ∧
    (main_edge berlin
      { main_start 25000000 none 0 with
        edge_dir := 1, min_cnt := 1, sec_cnt := 58,
        time_last := { calendar 36 12 15 1 1 24 1 with stamp := 1705318560 },
        sec_last := { time := { tv_sec := 1058, tv_nsec := 0 },
                      clock := { tv_sec := 1705315018, tv_nsec := 0 } },
        min_last := { time := { tv_sec := 1000, tv_nsec := 0 },
                      clock := { tv_sec := 1705314960, tv_nsec := 0 } } }
      { time := { tv_sec := 1061, tv_nsec := 500000000 },
        clock := { tv_sec := 1705315021, tv_nsec := 500000000 } } false).time_last
        = { calendar 37 12 15 1 1 24 1 with stamp := 1705318620 } ∧
    (main_edge berlin
      { main_start 25000000 none 0 with
        edge_dir := 1, min_cnt := 1, sec_cnt := 58,
        time_last := { calendar 36 12 15 1 1 24 1 with stamp := 1705318560 },
        sec_last := { time := { tv_sec := 1058, tv_nsec := 0 },
                      clock := { tv_sec := 1705315018, tv_nsec := 0 } },
        min_last := { time := { tv_sec := 1000, tv_nsec := 0 },
                      clock := { tv_sec := 1705314960, tv_nsec := 0 } } }
      { time := { tv_sec := 1061, tv_nsec := 500000000 },
        clock := { tv_sec := 1705315021, tv_nsec := 500000000 } } false).min_last
        = { time := { tv_sec := 1060, tv_nsec := 0 },
            clock := { tv_sec := 1705315020, tv_nsec := 0 } } := by
  refine ⟨by decide, by decide, by decide, by decide, by decide⟩

/-! ## The noise counter -/

/-- The noise branch counts the noise counter up by one and keeps `edge_dir`. -/
theorem main_noise_counter (st : main_state) (diff : timespec) :
    (main_noise st diff).noise = st.noise + 1 ∧ (main_noise st diff).edge_dir = st.edge_dir := by
  unfold main_noise
  simp only
  split_ifs
  · exact ⟨by rw [(main_more_than_minute_noise _).1], (main_more_than_minute_noise _).2⟩
  · exact ⟨rfl, rfl⟩
  · exact ⟨rfl, rfl⟩

/-- An edge is classified as noise in a tracking state only. -/
theorem classify_noise_tracking (st : main_state) (sig_now : time_info_t)
    (h : classify st sig_now = edge_class.noise) : st.edge_dir ≠ 0 := by
  intro h0
  have e : ¬ (st.edge_dir ≠ 0) := fun hne => hne h0
  unfold classify at h
  simp only [if_neg e] at h
  split_ifs at h

/-- The check of the noise counter for a counter that is not negative. -/
theorem main_noise_check_nonneg (m : main_state) (h : 0 ≤ m.noise) :
    main_noise_check m = if m.noise > 9 then { m with edge_dir := 0 } else m := by
  have e : ¬ m.noise < 0 := by omega
  simp only [main_noise_check, if_neg e]

/-- One pass of the loop with an edge that is classified as noise. -/
theorem main_edge_noise (L : Libc) (st : main_state) (sig_now : time_info_t) (fifo_open : Bool)
    (h : classify st sig_now = edge_class.noise) (h0 : 0 ≤ st.noise) :
    (main_edge L st sig_now fifo_open).noise = st.noise + 1 ∧
    (main_edge L st sig_now fifo_open).edge_dir
      = if st.noise + 1 > 9 then 0 else st.edge_dir := by
  obtain ⟨hn, he⟩ := main_noise_counter st (get_diff st.sec_last sig_now st.tolerance)
  unfold main_edge
  rw [h]
  simp only
  rw [main_noise_check_nonneg _ (by omega)]
  generalize main_noise st (get_diff st.sec_last sig_now st.tolerance) = m at hn he
  have hi : (if st.noise + 1 > 9 then (0 : Int) else st.edge_dir)
      = if m.noise > 9 then 0 else m.edge_dir := by rw [hn, he]
  rw [hi]
  split_ifs <;> exact ⟨hn, rfl⟩

/-- The run of noise edges, by induction on the edges. -/
theorem noise_run_counter (L : Libc) (edges : List (time_info_t × Bool)) :
    ∀ st : main_state, st.edge_dir ≠ 0 → 0 ≤ st.noise → st.noise ≤ 9 →
      noise_run L st edges = true →
      (edges.length : Int) ≤ 10 - st.noise ∧
      (main_run L st edges).noise = st.noise + edges.length ∧
      (main_run L st edges).edge_dir
        = if (edges.length : Int) = 10 - st.noise then 0 else st.edge_dir := by
  induction edges with
  | nil =>
    intro st _ _ h9 _
    refine ⟨by simp; omega, by simp [main_run], ?_⟩
    rw [if_neg (by simp; omega)]
    rfl
  | cons e es ih =>
    intro st hd h0 h9 hr
    simp only [noise_run, Bool.and_eq_true, decide_eq_true_eq] at hr
    obtain ⟨hc, hrest⟩ := hr
    obtain ⟨hn, he⟩ := main_edge_noise L st e.1 e.2 hc h0
    have hrun : main_run L st (e :: es) = main_run L (main_edge L st e.1 e.2) es := rfl
    rw [hrun]
    by_cases h8 : st.noise + 1 > 9
    · rw [if_pos h8] at he
      cases es with
      | nil =>
        refine ⟨by simp; omega, by simp [main_run, hn], ?_⟩
        rw [if_pos (by simp; omega)]
        exact he
      | cons e2 es2 =>
        simp only [noise_run, Bool.and_eq_true, decide_eq_true_eq] at hrest
        exact absurd he (classify_noise_tracking _ _ hrest.1)
    · rw [if_neg h8] at he
      obtain ⟨a, b, c⟩ := ih (main_edge L st e.1 e.2) (by rw [he]; exact hd) (by omega)
        (by omega) hrest
      rw [hn] at a b c
      rw [he] at c
      refine ⟨by simp only [List.length_cons]; push_cast; omega,
        by rw [b]; simp only [List.length_cons]; push_cast; omega, ?_⟩
      rw [c]
      simp only [List.length_cons]
      push_cast
      by_cases hl : (es.length : Int) = 10 - (st.noise + 1)
      · rw [if_pos hl, if_pos (by omega)]
      · rw [if_neg hl, if_neg (by omega)]


/-- C18. Noise-forced resync: from a tracking state (`edge_dir != 0`) with a noise counter
`n` in 0..9, a run of edges that all take the noise branch has at most `10 - n` edges,
the noise counter after it is `n` plus the number of edges, and the decoder is in the
search state (`edge_dir = 0`) after it exactly when the run has `10 - n` edges; after a
shorter run `edge_dir` is what it was.  From `n = 0` ten noise edges force the resync and
nine do not. -/
theorem noise_forced_resync (L : Libc) (st : main_state) (edges : List (time_info_t × Bool))
    (hd : st.edge_dir ≠ 0) (h0 : 0 ≤ st.noise) (h9 : st.noise ≤ 9)
    (hr : noise_run L st edges = true) :
    (edges.length : Int) ≤ 10 - st.noise ∧
    (main_run L st edges).noise = st.noise + edges.length ∧
    ((main_run L st edges).edge_dir = 0 ↔ (edges.length : Int) = 10 - st.noise) ∧
    ((edges.length : Int) < 10 - st.noise → (main_run L st edges).edge_dir = st.edge_dir) := by
  obtain ⟨a, b, c⟩ := noise_run_counter L edges st hd h0 h9 hr
  refine ⟨a, b, ?_, ?_⟩
  · rw [c]
    by_cases hl : (edges.length : Int) = 10 - st.noise
    · rw [if_pos hl]
      exact ⟨fun _ => hl, fun _ => rfl⟩
    · rw [if_neg hl]
      exact ⟨fun h => absurd h hd, fun h => absurd h hl⟩
  · intro hl
    rw [c, if_neg (by omega)]

theorem noise_forced_resync_witness :
    (main_run berlin
      { main_start 25000000 none 0 with
        edge_dir := 1,
        sec_last := { time := { tv_sec := 1000, tv_nsec := 0 },
                      clock := { tv_sec := 1705315000, tv_nsec := 0 } },
        sig_last := { time := { tv_sec := 1000, tv_nsec := 0 },
                      clock := { tv_sec := 1705315000, tv_nsec := 0 } } }
      ((List.range 10).map (fun k =>
        ({ time := { tv_sec := 1000, tv_nsec := 500000000 + 1000000 * (k : Int) },
           clock := { tv_sec := 1705315000, tv_nsec := 500000000 + 1000000 * (k : Int) } },
         false)))).edge_dir = 0 ∧
    (main_run berlin
      { main_start 25000000 none 0 with
        edge_dir := 1,
        sec_last := { time := { tv_sec := 1000, tv_nsec := 0 },
                      clock := { tv_sec := 1705315000, tv_nsec := 0 } },
        sig_last := { time := { tv_sec := 1000, tv_nsec := 0 },
                      clock := { tv_sec := 1705315000, tv_nsec := 0 } } }
      ((List.range 9).map (fun k =>
        ({ time := { tv_sec := 1000, tv_nsec := 500000000 + 1000000 * (k : Int) },
           clock := { tv_sec := 1705315000, tv_nsec := 500000000 + 1000000 * (k : Int) } },
         false)))).edge_dir = 1 :=
  ⟨(noise_forced_resync berlin
      { main_start 25000000 none 0 with
        edge_dir := 1,
        sec_last := { time := { tv_sec := 1000, tv_nsec := 0 },
                      clock := { tv_sec := 1705315000, tv_nsec := 0 } },
        sig_last := { time := { tv_sec := 1000, tv_nsec := 0 },
                      clock := { tv_sec := 1705315000, tv_nsec := 0 } } }
      ((List.range 10).map (fun k =>
        ({ time := { tv_sec := 1000, tv_nsec := 500000000 + 1000000 * (k : Int) },
           clock := { tv_sec := 1705315000, tv_nsec := 500000000 + 1000000 * (k : Int) } },
         false)))
      (by decide) (by decide) (by decide) (by decide)).2.2.1.2 (by decide),
   (noise_forced_resync berlin
      { main_start 25000000 none 0 with
        edge_dir := 1,
        sec_last := { time := { tv_sec := 1000, tv_nsec := 0 },
                      clock := { tv_sec := 1705315000, tv_nsec := 0 } },
        sig_last := { time := { tv_sec := 1000, tv_nsec := 0 },
                      clock := { tv_sec := 1705315000, tv_nsec := 0 } } }
      ((List.range 9).map (fun k =>
        ({ time := { tv_sec := 1000, tv_nsec := 500000000 + 1000000 * (k : Int) },
           clock := { tv_sec := 1705315000, tv_nsec := 500000000 + 1000000 * (k : Int) } },
         false)))
      (by decide) (by decide) (by decide) (by decide)).2.2.2 (by decide)⟩

/-! ## The pipe frame of gather_data -/

theorem rdc_set (s : List Char) (i j : Nat) (v : Char) :
    rdc (s.set i v) j = if i = j ∧ i < s.length then v else rdc s j := by
  unfold rdc
  simp only [List.getD_eq_getElem?_getD, List.getElem?_set]
  by_cases h : i = j
  · subst h
    by_cases hl : i < s.length
    · simp [hl]
    · simp [hl]
      rw [List.getElem?_eq_none (by omega)]
      rfl
  · simp [h]

theorem rdc_of_length_le (s : List Char) (j : Nat) (h : s.length ≤ j) :
    rdc s j = Char.ofNat 0 := by
  unfold rdc
  simp [List.getD_eq_getElem?_getD, List.getElem?_eq_none h]

theorem rdc_take (s : List Char) (n j : Nat) (h : j < n) : rdc (s.take n) j = rdc s j := by
  unfold rdc
  simp [List.getD_eq_getElem?_getD, List.getElem?_take, h]

theorem rdc_replicate (n j : Nat) : rdc (List.replicate n (Char.ofNat 0)) j = Char.ofNat 0 := by
  unfold rdc
  simp only [List.getD_eq_getElem?_getD, List.getElem?_replicate]
  split_ifs <;> rfl

/-- The loop of line 685, character by character. -/
theorem gather_data_bits_spec (clock_data : List Int) (block : Nat) :
    ∀ (n i : Nat) (s : List Char), block * 14 + i + n ≤ s.length →
      (gather_data_bits clock_data block n i s).length = s.length ∧
      ∀ j, rdc (gather_data_bits clock_data block n i s) j =
        if block * 14 + i ≤ j ∧ j < block * 14 + i + n then
          c_char (48 + rd clock_data (j - block * 14 + 1))
        else rdc s j := by
  intro n
  induction n with
  | zero =>
    intro i s _
    refine ⟨rfl, fun j => ?_⟩
    rw [if_neg (by omega)]
    rfl
  | succ n ih =>
    intro i s hlen
    have hidx : ((block : Int) * 14 + (i : Int)).toNat = block * 14 + i := by omega
    obtain ⟨h1, h2⟩ := ih (i + 1)
      (s.set (block * 14 + i) (c_char (48 + rd clock_data (i + 1))))
      (by rw [List.length_set]; omega)
    simp only [gather_data_bits, hidx]
    refine ⟨by rw [h1, List.length_set], fun j => ?_⟩
    rw [h2 j, rdc_set]
    by_cases ha : block * 14 + (i + 1) ≤ j ∧ j < block * 14 + (i + 1) + n
    · rw [if_pos ha, if_pos (by omega)]
    · rw [if_neg ha]
      by_cases hb : block * 14 + i = j
      · rw [if_pos ⟨hb, by omega⟩, if_pos (by omega)]
        subst hb
        congr 3
        omega
      · rw [if_neg (by omega), if_neg (by omega)]

/-- The function `strlen` on an array whose first NUL is at `n`. -/
theorem c_strlen_eq : ∀ (s : List Char) (n : Nat), n < s.length →
    (∀ i, i < n → rdc s i ≠ Char.ofNat 0) → rdc s n = Char.ofNat 0 → c_strlen s = n := by
  intro s
  induction s with
  | nil => intro n h; simp at h
  | cons c t ih =>
    intro n hn hpre hz
    cases n with
    | zero =>
      have : c = Char.ofNat 0 := hz
      simp [c_strlen, List.takeWhile, this]
    | succ m =>
      have hc : c ≠ Char.ofNat 0 := hpre 0 (by omega)
      have := ih m (by simpa using hn) (fun i hi => hpre (i + 1) (by omega)) hz
      unfold c_strlen at this ⊢
      simp only [ne_eq, decide_not] at this
      simp [List.takeWhile, hc, this]


theorem rdc_append_left (a b : List Char) (j : Nat) (h : j < a.length) :
    rdc (a ++ b) j = rdc a j := by
  unfold rdc
  simp [List.getD_eq_getElem?_getD, List.getElem?_append_left h]

theorem rdc_append_right (a b : List Char) (j : Nat) (h : a.length ≤ j) :
    rdc (a ++ b) j = rdc b (j - a.length) := by
  unfold rdc
  simp [List.getD_eq_getElem?_getD, List.getElem?_append_right h]

theorem rdc_drop (s : List Char) (n j : Nat) : rdc (s.drop n) j = rdc s (n + j) := by
  unfold rdc
  simp [List.getD_eq_getElem?_getD, List.getElem?_drop]

/-- The function `write_bcd`, character by character. -/
theorem rdc_write_bcd (s : List Char) (p : Nat) (num : Int) (hlen : p + 8 ≤ s.length) (j : Nat) :
    rdc (write_bcd s p num) j =
      if p ≤ j ∧ j < p + 8 then rdc (write_bcd (List.replicate 8 '0') 0 num) (j - p)
      else rdc s j := by
  have hp : (s.take p).length = p := by simp; omega
  have hw : (write_bcd (List.replicate 8 '0') 0 num).length = 8 := by
    rw [write_bcd_length]; rfl
  rw [write_bcd_eq s p num hlen]
  generalize write_bcd (List.replicate 8 '0') 0 num = W at hw
  have hpw : (s.take p ++ W).length = p + 8 := by rw [List.length_append, hp, hw]
  by_cases h1 : j < p
  · rw [if_neg (by omega), List.append_assoc, rdc_append_left _ _ _ (by omega), rdc_take _ _ _ h1]
  · by_cases h2 : j < p + 8
    · rw [if_pos ⟨by omega, h2⟩, List.append_assoc, rdc_append_right _ _ _ (by omega),
        rdc_append_left _ _ _ (by omega), hp]
    · rw [if_neg (by omega), rdc_append_right _ _ _ (by omega), hpw, rdc_drop]
      congr 1
      omega

/-- The eight characters of `write_bcd` are `'0'` or `'1'`, whatever the number is. -/
theorem write_bcd_chars (num : Int) (i : Nat) (hi : i < 8) :
    rdc (write_bcd (List.replicate 8 '0') 0 num) i = '0' ∨
    rdc (write_bcd (List.replicate 8 '0') 0 num) i = '1' := by
  simp only [write_bcd, write_bcd_loop, List.replicate, List.set, Nat.zero_add]
  interval_cases i <;> simp only [rdc, List.getD_cons_zero, List.getD_cons_succ] <;>
    split_ifs <;> simp

/-- For a number in 0..99 the eight characters are the bits of the two decimal digits. -/
theorem write_bcd_bits (num : Int) (h0 : 0 ≤ num) (h99 : num ≤ 99) :
    ∀ i, i < 4 →
      rdc (write_bcd (List.replicate 8 '0') 0 num) i = c_char (48 + bcd_bit (num % 10) i) ∧
      rdc (write_bcd (List.replicate 8 '0') 0 num) (i + 4)
        = c_char (48 + bcd_bit (num / 10) i) := by
  interval_cases num <;> decide

theorem gather_data_tail_length (s : List Char) (t : dcf77_time) :
    (gather_data_tail s t).length = s.length := by
  unfold gather_data_tail
  simp only
  split_ifs <;> simp only [List.length_set, write_bcd_length]

/-- The tail of the line, character by character. -/
theorem gather_data_tail_spec (s : List Char) (t : dcf77_time) (hlen : s.length = 128)
    (j : Nat) :
    rdc (gather_data_tail s t) j =
      if j < 42 then rdc s j
      else if j < 50 then rdc (write_bcd (List.replicate 8 '0') 0 t.min) (j - 42)
      else if j < 58 then rdc (write_bcd (List.replicate 8 '0') 0 t.hour) (j - 50)
      else if j < 66 then rdc (write_bcd (List.replicate 8 '0') 0 t.day) (j - 58)
      else if j < 71 then rdc (write_bcd (List.replicate 8 '0') 0 t.mon) (j - 66)
      else if j < 74 then rdc (write_bcd (List.replicate 8 '0') 0 t.wday) (j - 71)
      else if j < 82 then rdc (write_bcd (List.replicate 8 '0') 0 t.year) (j - 74)
      else if j = 82 then '+'
      else if j = 83 then (if t.tz > 0 then c_char (48 + t.tz) else '0')
      else if j = 84 then Char.ofNat 10
      else if j = 85 then Char.ofNat 0
      else rdc s j := by
  have l1 : (write_bcd s 42 t.min).length = 128 := by rw [write_bcd_length, hlen]
  have l2 : (write_bcd (write_bcd s 42 t.min) 50 t.hour).length = 128 := by
    rw [write_bcd_length, l1]
  have l3 : (write_bcd (write_bcd (write_bcd s 42 t.min) 50 t.hour) 58 t.day).length = 128 := by
    rw [write_bcd_length, l2]
  have l4 : (write_bcd (write_bcd (write_bcd (write_bcd s 42 t.min) 50 t.hour) 58 t.day) 66
      t.mon).length = 128 := by
    rw [write_bcd_length, l3]
  have l5 : (write_bcd (write_bcd (write_bcd (write_bcd (write_bcd s 42 t.min) 50 t.hour) 58
      t.day) 66 t.mon) 71 t.wday).length = 128 := by
    rw [write_bcd_length, l4]
  have l6 : (write_bcd (write_bcd (write_bcd (write_bcd (write_bcd (write_bcd s 42 t.min) 50
      t.hour) 58 t.day) 66 t.mon) 71 t.wday) 74 t.year).length = 128 := by
    rw [write_bcd_length, l5]
  unfold gather_data_tail
  simp only
  rw [rdc_set, rdc_set, List.length_set]
  have e83 : ∀ (u : List Char), u.length = 128 →
      rdc (if t.tz > 0 then u.set 83 (c_char (48 + t.tz)) else u.set 83 '0') j
        = if 83 = j then (if t.tz > 0 then c_char (48 + t.tz) else '0') else rdc u j := by
    intro u hu
    have k : ∀ v : Char, rdc (u.set 83 v) j = if 83 = j then v else rdc u j := by
      intro v
      rw [rdc_set, hu]
      by_cases h : 83 = j
      · rw [if_pos ⟨h, by decide⟩, if_pos h]
      · rw [if_neg (fun hh => h hh.1), if_neg h]
    by_cases htz : t.tz > 0
    · rw [if_pos htz, if_pos htz, k]
    · rw [if_neg htz, if_neg htz, k]
  have len83 : ∀ (u : List Char), u.length = 128 →
      (if t.tz > 0 then u.set 83 (c_char (48 + t.tz)) else u.set 83 '0').length = 128 := by
    intro u hu
    split_ifs <;> simp [hu]
  rw [len83 _ (by rw [List.length_set, l6]), e83 _ (by rw [List.length_set, l6]), rdc_set, l6,
    rdc_write_bcd _ 74 t.year (by rw [l5]; decide),
    rdc_write_bcd _ 71 t.wday (by rw [l4]; decide),
    rdc_write_bcd _ 66 t.mon (by rw [l3]; decide),
    rdc_write_bcd _ 58 t.day (by rw [l2]; decide),
    rdc_write_bcd _ 50 t.hour (by rw [l1]; decide),
    rdc_write_bcd _ 42 t.min (by rw [hlen]; decide)]
  generalize (if t.tz > 0 then c_char (48 + t.tz) else '0') = tzc
  rcases (by omega : j < 42 ∨ (42 ≤ j ∧ j < 50) ∨ (50 ≤ j ∧ j < 58) ∨ (58 ≤ j ∧ j < 66) ∨
      (66 ≤ j ∧ j < 71) ∨ (71 ≤ j ∧ j < 74) ∨ (74 ≤ j ∧ j < 82) ∨ j = 82 ∨ j = 83 ∨ j = 84 ∨
      j = 85 ∨ 86 ≤ j) with h | h | h | h | h | h | h | h | h | h | h | h
  all_goals repeat (first | rw [if_pos (by omega)] | rw [if_neg (by omega)])

/-- The character of a symbol 0, 1 or unknown. -/
theorem c_char_symbol (x : Int) (h : x = -1 ∨ x = 0 ∨ x = 1) :
    c_char (48 + x) = '/' ∨ c_char (48 + x) = '0' ∨ c_char (48 + x) = '1' := by
  rcases h with h | h | h <;> subst h <;> decide

theorem symbol_char_ne (c : Char) (h : c = '/' ∨ c = '0' ∨ c = '1') : c ≠ Char.ofNat 0 := by
  rcases h with h | h | h <;> subst h <;> decide

/-- The block of a minute that is not negative. -/
theorem c_rem_three (m : Int) (h : 0 ≤ m) : c_rem m 3 = 0 ∨ c_rem m 3 = 1 ∨ c_rem m 3 = 2 := by
  rw [c_rem_of_nonneg m 3 h (by decide)]
  omega

/-- The three forms of a call of `gather_data` that passes the guards. -/
theorem gather_data_block (data : dcf77_data) (c : gather_call) (hc : gather_call_ok c) :
    (c_rem c.time.min 3 = 0 ∧
      gather_data data c.clock_data c.time 1 c.fifo_open =
        ({ string := gather_data_bits c.clock_data 0 14 0 init_dcf77_data.string, block := 0 },
          none)) ∨
    (c_rem c.time.min 3 = 1 ∧
      gather_data data c.clock_data c.time 1 c.fifo_open =
        ({ string := gather_data_bits c.clock_data 1 14 0 data.string, block := 1 }, none)) ∨
    (c_rem c.time.min 3 = 2 ∧
      gather_data data c.clock_data c.time 1 c.fifo_open =
        ({ string := (gather_data_tail (gather_data_bits c.clock_data 2 14 0 data.string)
              c.time).set 0 (Char.ofNat 0), block := 2 },
          if rdc (gather_data_tail (gather_data_bits c.clock_data 2 14 0 data.string) c.time) 0
                ≠ Char.ofNat 0 ∧
              rdc (gather_data_tail (gather_data_bits c.clock_data 2 14 0 data.string) c.time) 14
                ≠ Char.ofNat 0 ∧
              rdc (gather_data_tail (gather_data_bits c.clock_data 2 14 0 data.string) c.time) 28
                ≠ Char.ofNat 0 then
            if c.fifo_open then
              some ((gather_data_tail (gather_data_bits c.clock_data 2 14 0 data.string)
                c.time).take (c_strlen (gather_data_tail
                  (gather_data_bits c.clock_data 2 14 0 data.string) c.time)))
            else none
          else none)) := by
  obtain ⟨hs, hm, _, _, hw, _, _, htz, _⟩ := hc
  have hg : ¬ (c.time.stamp = 0 ∨ c.time.tz < 0 ∨ c.time.wday < 0) := by
    rintro (h | h | h)
    · exact hs h
    · omega
    · omega
  unfold gather_data
  rw [if_neg (by decide), if_neg hg]
  rcases c_rem_three c.time.min hm.1 with h | h | h
  · left
    refine ⟨h, ?_⟩
    simp only [h]
    rfl
  · right; left
    refine ⟨h, ?_⟩
    simp only [h]
    rfl
  · right; right
    refine ⟨h, ?_⟩
    simp only [h]
    rfl


/-- The loop of line 685 for one of the three blocks of a buffer of 128 characters. -/
theorem gather_data_bits_block (clock_data : List Int) (b : Nat) (s : List Char) (hb : b < 3)
    (hlen : s.length = 128) :
    (gather_data_bits clock_data (b : Int) 14 0 s).length = 128 ∧
    ∀ j, rdc (gather_data_bits clock_data (b : Int) 14 0 s) j =
      if 14 * b ≤ j ∧ j < 14 * b + 14 then c_char (48 + rd clock_data (j - 14 * b + 1))
      else rdc s j := by
  obtain ⟨h1, h2⟩ := gather_data_bits_spec clock_data b 14 0 s (by omega)
  refine ⟨by rw [h1, hlen], fun j => ?_⟩
  rw [h2 j]
  by_cases h : 14 * b ≤ j ∧ j < 14 * b + 14
  · rw [if_pos (by omega), if_pos h]
    congr 3
    omega
  · rw [if_neg (by omega), if_neg h]

/-- A call of `gather_data` that passes the guards keeps the blocks of the buffer whole. -/
theorem gather_data_ok (data : dcf77_data) (c : gather_call) (hc : gather_call_ok c)
    (hd : buffer_ok data.string) :
    buffer_ok (gather_data data c.clock_data c.time 1 c.fifo_open).1.string := by
  have hsym : ∀ i, i < 14 → c_char (48 + rd c.clock_data (i + 1)) = '/' ∨
      c_char (48 + rd c.clock_data (i + 1)) = '0' ∨
      c_char (48 + rd c.clock_data (i + 1)) = '1' :=
    fun i hi => c_char_symbol _ (hc.2.2.2.2.2.2.2.2 i hi)
  obtain ⟨hlen, hblk⟩ := hd
  rcases gather_data_block data c hc with ⟨_, h⟩ | ⟨_, h⟩ | ⟨_, h⟩
  · rw [h]
    obtain ⟨l, r⟩ := gather_data_bits_block c.clock_data 0 init_dcf77_data.string (by decide) rfl
    simp only [Nat.cast_ofNat, Nat.cast_zero] at l r
    refine ⟨l, fun b hb h0 i hi => ?_⟩
    simp only [r] at h0 ⊢
    interval_cases b
    · rw [if_pos (by omega)]
      have := hsym (14 * 0 + i - 14 * 0) (by omega)
      exact this
    · rw [if_neg (by omega)] at h0
      exact absurd (rdc_replicate 128 _) h0
    · rw [if_neg (by omega)] at h0
      exact absurd (rdc_replicate 128 _) h0
  · rw [h]
    obtain ⟨l, r⟩ := gather_data_bits_block c.clock_data 1 data.string (by decide) hlen
    simp only [Nat.cast_ofNat, Nat.cast_one] at l r
    refine ⟨l, fun b hb h0 i hi => ?_⟩
    simp only [r] at h0 ⊢
    interval_cases b
    · rw [if_neg (by omega)] at h0 ⊢
      exact hblk 0 (by decide) h0 i hi
    · rw [if_pos (by omega)]
      exact hsym (14 * 1 + i - 14 * 1) (by omega)
    · rw [if_neg (by omega)] at h0 ⊢
      exact hblk 2 (by decide) h0 i hi
  · rw [h]
    obtain ⟨l, r⟩ := gather_data_bits_block c.clock_data 2 data.string (by decide) hlen
    simp only [Nat.cast_ofNat] at l r
    refine ⟨by simp only [List.length_set, gather_data_tail_length, l], fun b hb h0 i hi => ?_⟩
    simp only [rdc_set, gather_data_tail_length, l, gather_data_tail_spec _ _ l, r] at h0 ⊢
    interval_cases b
    · rw [if_pos (by omega)] at h0
      exact absurd rfl h0
    · rw [if_neg (by omega), if_pos (by omega), if_neg (by omega)] at h0
      rw [if_neg (by omega), if_pos (by omega), if_neg (by omega)]
      exact hblk 1 (by decide) h0 i hi
    · rw [if_neg (by omega), if_pos (by omega), if_pos (by omega)]
      exact hsym (14 * 2 + i - 14 * 2) (by omega)

/-- The buffer after any sequence of such calls, from a buffer with whole blocks. -/
theorem gather_run_ok (calls : List gather_call) :
    ∀ data : dcf77_data, buffer_ok data.string → (∀ c ∈ calls, gather_call_ok c) →
      buffer_ok (gather_run data calls).string := by
  induction calls with
  | nil => intro data hd _; exact hd
  | cons c cs ih =>
    intro data hd hall
    have h1 := gather_data_ok data c (hall c (List.mem_cons_self _ _)) hd
    exact ih _ h1 (fun c' hc' => hall c' (List.mem_cons_of_mem _ hc'))

theorem buffer_ok_init : buffer_ok init_dcf77_data.string :=
  ⟨rfl, fun _ _ h0 => absurd (rdc_replicate 128 _) h0⟩

/-- The three weekday bits that `write_bcd` writes for a weekday 1..7. -/
theorem write_bcd_wday (num : Int) (h1 : 1 ≤ num) (h7 : num ≤ 7) :
    ∀ i, i < 3 →
      rdc (write_bcd (List.replicate 8 '0') 0 num) i = c_char (48 + bcd_bit num i) := by
  interval_cases num <;> decide

/-- C20. Pipe frame format: after any sequence of `gather_data` calls on an initialised
buffer, each with a locked time whose fields are in range and symbols 0, 1 or unknown, a
further such call that writes a line writes exactly 85 bytes: bytes 0..27 are the two
blocks gathered before, bytes 28..41 are the symbols 1..14 of this call, all of 0..41
being `'0'`, `'1'` or `'/'` (unknown); bytes 42..49 are the minute in BCD (four units
bits least-significant first, then the tens bits), 50..57 the hour, 58..65 the day, 66..70
the month (four units bits and one tens bit), 71..73 the three weekday bits, 74..81 the
year, byte 82 is `'+'`, byte 83 is `'0' + tz` and byte 84 is a newline. -/
theorem gather_data_frame (calls : List gather_call) (c : gather_call) (line : List Char)
    (hcalls : ∀ c1 ∈ calls, gather_call_ok c1) (hc : gather_call_ok c)
    (hw : (gather_data (gather_run init_dcf77_data calls) c.clock_data c.time 1
      c.fifo_open).2 = some line) :
    line.length = 85 ∧
    (∀ i, i < 28 → rdc line i = rdc (gather_run init_dcf77_data calls).string i) ∧
    (∀ i, i < 14 → rdc line (28 + i) = c_char (48 + rd c.clock_data (i + 1))) ∧
    (∀ i, i < 42 → rdc line i = '/' ∨ rdc line i = '0' ∨ rdc line i = '1') ∧
    (∀ i, i < 4 → rdc line (42 + i) = c_char (48 + bcd_bit (c.time.min % 10) i) ∧
      rdc line (46 + i) = c_char (48 + bcd_bit (c.time.min / 10) i)) ∧
    (∀ i, i < 4 → rdc line (50 + i) = c_char (48 + bcd_bit (c.time.hour % 10) i) ∧
      rdc line (54 + i) = c_char (48 + bcd_bit (c.time.hour / 10) i)) ∧
    (∀ i, i < 4 → rdc line (58 + i) = c_char (48 + bcd_bit (c.time.day % 10) i) ∧
      rdc line (62 + i) = c_char (48 + bcd_bit (c.time.day / 10) i)) ∧
    (∀ i, i < 4 → rdc line (66 + i) = c_char (48 + bcd_bit (c.time.mon % 10) i)) ∧
    rdc line 70 = c_char (48 + bcd_bit (c.time.mon / 10) 0) ∧
    (∀ i, i < 3 → rdc line (71 + i) = c_char (48 + bcd_bit c.time.wday i)) ∧
    (∀ i, i < 4 → rdc line (74 + i) = c_char (48 + bcd_bit (c.time.year % 10) i) ∧
      rdc line (78 + i) = c_char (48 + bcd_bit (c.time.year / 10) i)) ∧
    rdc line 82 = '+' ∧ rdc line 83 = c_char (48 + c.time.tz) ∧
    rdc line 84 = Char.ofNat 10 := by
  have hbuf := gather_run_ok calls init_dcf77_data buffer_ok_init hcalls
  generalize gather_run init_dcf77_data calls = data at hw hbuf ⊢
  have hsym : ∀ i, i < 14 → c_char (48 + rd c.clock_data (i + 1)) = '/' ∨
      c_char (48 + rd c.clock_data (i + 1)) = '0' ∨
      c_char (48 + rd c.clock_data (i + 1)) = '1' :=
    fun i hi => c_char_symbol _ (hc.2.2.2.2.2.2.2.2 i hi)
  obtain ⟨hlen, hblk⟩ := hbuf
  obtain ⟨l, r⟩ := gather_data_bits_block c.clock_data 2 data.string (by decide) hlen
  simp only [Nat.cast_ofNat] at l r
  have hp := gather_data_tail_spec (gather_data_bits c.clock_data 2 14 0 data.string) c.time l
  have hl3 := gather_data_tail_length (gather_data_bits c.clock_data 2 14 0 data.string) c.time
  rw [l] at hl3
  simp only [r] at hp
  rcases gather_data_block data c hc with ⟨_, h⟩ | ⟨_, h⟩ | ⟨_, h⟩
  · rw [h] at hw
    exact absurd hw (by simp)
  · rw [h] at hw
    exact absurd hw (by simp)
  rw [h] at hw
  generalize gather_data_tail (gather_data_bits c.clock_data 2 14 0 data.string) c.time = S
    at hw hp hl3
  simp only at hw
  obtain ⟨_, hmin, hhour, hday, hwday, hmon, hyear, htz, _⟩ := hc
  have htzc : (if c.time.tz > 0 then c_char (48 + c.time.tz) else '0')
      = c_char (48 + c.time.tz) := by rw [if_pos (by omega)]
  rw [htzc] at hp
  by_cases hcond : rdc S 0 ≠ Char.ofNat 0 ∧ rdc S 14 ≠ Char.ofNat 0 ∧ rdc S 28 ≠ Char.ofNat 0
  swap
  · rw [if_neg hcond] at hw
    exact absurd hw (by simp)
  rw [if_pos hcond] at hw
  by_cases hfo : c.fifo_open = true
  swap
  · rw [if_neg hfo] at hw
    exact absurd hw (by simp)
  rw [if_pos hfo] at hw
  have hline : line = S.take (c_strlen S) := (Option.some.inj hw).symm
  have h0 : rdc data.string (14 * 0) ≠ Char.ofNat 0 := by
    have := hcond.1
    rw [hp, if_pos (by decide), if_neg (by decide)] at this
    exact this
  have h14 : rdc data.string (14 * 1) ≠ Char.ofNat 0 := by
    have := hcond.2.1
    rw [hp, if_pos (by decide), if_neg (by decide)] at this
    exact this
  have hhead : ∀ i, i < 42 → rdc S i = '/' ∨ rdc S i = '0' ∨ rdc S i = '1' := by
    intro i hi
    rw [hp, if_pos hi]
    rcases (by omega : i < 14 ∨ (14 ≤ i ∧ i < 28) ∨ 28 ≤ i) with hh | hh | hh
    · rw [if_neg (by omega)]
      have := hblk 0 (by decide) h0 i hh
      simpa using this
    · rw [if_neg (by omega)]
      have := hblk 1 (by decide) h14 (i - 14) (by omega)
      rw [show 14 * 1 + (i - 14) = i by omega] at this
      exact this
    · rw [if_pos (by omega)]
      exact hsym (i - 14 * 2) (by omega)
  have hbcd : ∀ (num : Int) (k : Nat), k < 8 →
      rdc (write_bcd (List.replicate 8 '0') 0 num) k ≠ Char.ofNat 0 := by
    intro num k hk
    rcases write_bcd_chars num k hk with e | e <;> rw [e] <;> decide
  have hnz : ∀ i, i < 85 → rdc S i ≠ Char.ofNat 0 := by
    intro i hi
    rcases (by omega : i < 42 ∨ (42 ≤ i ∧ i < 50) ∨ (50 ≤ i ∧ i < 58) ∨ (58 ≤ i ∧ i < 66) ∨
      (66 ≤ i ∧ i < 71) ∨ (71 ≤ i ∧ i < 74) ∨ (74 ≤ i ∧ i < 82) ∨ i = 82 ∨ i = 83 ∨ i = 84)
      with hh | hh | hh | hh | hh | hh | hh | hh | hh | hh
    · exact symbol_char_ne _ (hhead i hh)
    · rw [hp, if_neg (by omega), if_pos (by omega)]
      exact hbcd _ _ (by omega)
    · rw [hp, if_neg (by omega), if_neg (by omega), if_pos (by omega)]
      exact hbcd _ _ (by omega)
    · rw [hp, if_neg (by omega), if_neg (by omega), if_neg (by omega), if_pos (by omega)]
      exact hbcd _ _ (by omega)
    · rw [hp, if_neg (by omega), if_neg (by omega), if_neg (by omega), if_neg (by omega),
        if_pos (by omega)]
      exact hbcd _ _ (by omega)
    · rw [hp, if_neg (by omega), if_neg (by omega), if_neg (by omega), if_neg (by omega),
        if_neg (by omega), if_pos (by omega)]
      exact hbcd _ _ (by omega)
    · rw [hp, if_neg (by omega), if_neg (by omega), if_neg (by omega), if_neg (by omega),
        if_neg (by omega), if_neg (by omega), if_pos (by omega)]
      exact hbcd _ _ (by omega)
    · subst hh
      rw [hp]
      simp only [Nat.reduceLT, if_false, Nat.reduceEqDiff, if_true]
      decide
    · subst hh
      rw [hp]
      simp only [Nat.reduceLT, if_false, Nat.reduceEqDiff, if_true]
      rcases (by omega : c.time.tz = 1 ∨ c.time.tz = 2) with e | e <;> rw [e] <;> decide
    · subst hh
      rw [hp]
      simp only [Nat.reduceLT, if_false, Nat.reduceEqDiff, if_true]
      decide
  have h85 : rdc S 85 = Char.ofNat 0 := by
    rw [hp]
    rfl
  have hstr : c_strlen S = 85 := c_strlen_eq S 85 (by omega) hnz h85
  rw [hstr] at hline
  have hrd : ∀ i, i < 85 → rdc line i = rdc S i := by
    intro i hi
    rw [hline, rdc_take _ _ _ hi]
  have hfield : ∀ (p : Nat) (num : Int),
      (∀ j, p ≤ j → j < p + 8 →
        rdc S j = rdc (write_bcd (List.replicate 8 '0') 0 num) (j - p)) →
      p + 8 ≤ 85 → 0 ≤ num → num ≤ 99 →
      ∀ i, i < 4 → rdc line (p + i) = c_char (48 + bcd_bit (num % 10) i) ∧
        rdc line (p + 4 + i) = c_char (48 + bcd_bit (num / 10) i) := by
    intro p num hS hp8 hn0 hn99 i hi
    obtain ⟨a, b⟩ := write_bcd_bits num hn0 hn99 i hi
    rw [hrd _ (by omega), hrd _ (by omega), hS _ (by omega) (by omega),
      hS _ (by omega) (by omega), show p + i - p = i by omega,
      show p + 4 + i - p = i + 4 by omega]
    exact ⟨a, b⟩
  refine ⟨by rw [hline, List.length_take, hl3]; rfl, ?_, ?_, ?_, ?_, ?_, ?_, ?_, ?_, ?_, ?_, ?_,
    ?_, ?_⟩
  · intro i hi
    rw [hrd i (by omega), hp, if_pos (by omega), if_neg (by omega)]
  · intro i hi
    rw [hrd _ (by omega), hp, if_pos (by omega), if_pos (by omega)]
    congr 3
    omega
  · intro i hi
    rw [hrd i (by omega)]
    exact hhead i hi
  · exact hfield 42 c.time.min (fun j h1 h2 => by
      rw [hp, if_neg (by omega), if_pos (by omega)]) (by decide) hmin.1 (by omega)
  · exact hfield 50 c.time.hour (fun j h1 h2 => by
      rw [hp, if_neg (by omega), if_neg (by omega), if_pos (by omega)]) (by decide) hhour.1
      (by omega)
  · exact hfield 58 c.time.day (fun j h1 h2 => by
      rw [hp, if_neg (by omega), if_neg (by omega), if_neg (by omega), if_pos (by omega)])
      (by decide) (by omega) (by omega)
  · intro i hi
    rw [hrd _ (by omega), hp, if_neg (by omega), if_neg (by omega), if_neg (by omega),
      if_neg (by omega), if_pos (by omega), show 66 + i - 66 = i by omega]
    exact (write_bcd_bits c.time.mon (by omega) (by omega) i hi).1
  · rw [hrd _ (by decide), hp]
    exact (write_bcd_bits c.time.mon (by omega) (by omega) 0 (by decide)).2
  · intro i hi
    rw [hrd _ (by omega), hp, if_neg (by omega), if_neg (by omega), if_neg (by omega),
      if_neg (by omega), if_neg (by omega), if_pos (by omega), show 71 + i - 71 = i by omega]
    exact write_bcd_wday c.time.wday hwday.1 hwday.2 i hi
  · exact hfield 74 c.time.year (fun j h1 h2 => by
      rw [hp, if_neg (by omega), if_neg (by omega), if_neg (by omega), if_neg (by omega),
        if_neg (by omega), if_neg (by omega), if_pos (by omega)]) (by decide) hyear.1
      (by omega)
  · rw [hrd _ (by decide), hp]
    rfl
  · rw [hrd _ (by decide), hp]
    rfl
  · rw [hrd _ (by decide), hp]
    rfl

/-- Where the first two blocks of a line come from: a call for a minute that is a multiple
of 3 puts its symbols 1..14 into bytes 0..13, and a call for the minute after it puts its
symbols into bytes 14..27 and keeps bytes 0..13. -/
theorem gather_data_blocks (data : dcf77_data) (c : gather_call) (hc : gather_call_ok c)
    (hlen : data.string.length = 128) :
    (c_rem c.time.min 3 = 0 → ∀ i, i < 14 →
      rdc (gather_data data c.clock_data c.time 1 c.fifo_open).1.string i
        = c_char (48 + rd c.clock_data (i + 1))) ∧
    (c_rem c.time.min 3 = 1 → ∀ i, i < 14 →
      rdc (gather_data data c.clock_data c.time 1 c.fifo_open).1.string (14 + i)
        = c_char (48 + rd c.clock_data (i + 1)) ∧
      rdc (gather_data data c.clock_data c.time 1 c.fifo_open).1.string i
        = rdc data.string i) := by
  constructor
  · intro hb i hi
    rcases gather_data_block data c hc with ⟨_, h⟩ | ⟨h1, _⟩ | ⟨h1, _⟩
    · rw [h]
      obtain ⟨_, r⟩ := gather_data_bits_block c.clock_data 0 init_dcf77_data.string
        (by decide) rfl
      simp only [Nat.cast_ofNat, Nat.cast_zero] at r
      simp only [r]
      rw [if_pos (by omega)]
      rfl
    · rw [hb] at h1
      exact absurd h1 (by decide)
    · rw [hb] at h1
      exact absurd h1 (by decide)
  · intro hb i hi
    rcases gather_data_block data c hc with ⟨h1, _⟩ | ⟨_, h⟩ | ⟨h1, _⟩
    · rw [hb] at h1
      exact absurd h1 (by decide)
    · rw [h]
      obtain ⟨_, r⟩ := gather_data_bits_block c.clock_data 1 data.string (by decide) hlen
      simp only [Nat.cast_ofNat, Nat.cast_one] at r
      simp only [r]
      rw [if_pos (by omega), if_neg (by omega)]
      refine ⟨?_, rfl⟩
      congr 3
      omega
    · rw [hb] at h1
      exact absurd h1 (by decide)

theorem gather_data_frame_witness :
    (gather_data (gather_run init_dcf77_data
      [gather_call.mk (List.replicate 60 1)
        { calendar 30 13 15 1 1 24 1 with stamp := 1705321800 } true,
       gather_call.mk (List.replicate 60 (-1))
        { calendar 31 13 15 1 1 24 1 with stamp := 1705321860 } true])
      (List.replicate 60 0) { calendar 32 13 15 1 1 24 1 with stamp := 1705321920 } 1 true).2
      = some ("11111111111111//////////////00000000000000".toList ++
          "0100110011001000101010001000010000100100+1".toList ++ [Char.ofNat 10]) ∧
    ("11111111111111//////////////00000000000000".toList ++
      "0100110011001000101010001000010000100100+1".toList ++ [Char.ofNat 10]).length = 85 :=
  ⟨by decide,
   (gather_data_frame
      [gather_call.mk (List.replicate 60 1)
        { calendar 30 13 15 1 1 24 1 with stamp := 1705321800 } true,
       gather_call.mk (List.replicate 60 (-1))
        { calendar 31 13 15 1 1 24 1 with stamp := 1705321860 } true]
      (gather_call.mk (List.replicate 60 0)
        { calendar 32 13 15 1 1 24 1 with stamp := 1705321920 } true)
      ("11111111111111//////////////00000000000000".toList ++
        "0100110011001000101010001000010000100100+1".toList ++ [Char.ofNat 10])
      (by decide) (by decide) (by decide)).1⟩

/-! ## add_minute and the calendar -/

theorem c_div_of_nonneg (a b : Int) (ha : 0 ≤ a) (hb : 0 ≤ b) : c_div a b = a / b :=
  Int.tdiv_eq_ediv ha hb

theorem month_length_range (mon year : Int) :
    28 ≤ month_length mon year ∧ month_length mon year ≤ 31 := by
  unfold month_length
  split_ifs <;> exact ⟨by decide, by decide⟩

/-- A chain of four tests with the same outcome is one test. -/
theorem ite_chain_four {α : Type} (c1 c2 c3 c4 : Prop) [Decidable c1] [Decidable c2]
    [Decidable c3] [Decidable c4] (x y : α) :
    (if c1 then x else if c2 then x else if c3 then x else if c4 then x else y)
      = if c1 ∨ c2 ∨ c3 ∨ c4 then x else y := by
  by_cases h1 : c1
  · simp [h1]
  by_cases h2 : c2
  · simp [h2]
  by_cases h3 : c3
  · simp [h3]
  by_cases h4 : c4
  · simp [h4]
  simp [h1, h2, h3, h4]

/-- The four tests of lines 411-414 together say that the day is past the end of the
month. -/
theorem month_tests_iff (day mon year : Int) (hm : 1 ≤ mon ∧ mon ≤ 12) (hy : 0 ≤ year) :
    ((mon = 2 ∧ year ≥ 0 ∧ day > 28 ∧ c_rem year 4 ≠ 0) ∨
     (mon = 2 ∧ year ≥ 0 ∧ day > 29 ∧ c_rem year 4 = 0) ∨
     ((mon = 4 ∨ mon = 6 ∨ mon = 9 ∨ mon = 11) ∧ day > 30) ∨
     ((mon = 1 ∨ mon = 3 ∨ mon = 5 ∨ mon = 7 ∨ mon = 8 ∨ mon = 10 ∨ mon = 12) ∧ day > 31))
      ↔ day > month_length mon year := by
  rw [c_rem_of_nonneg year 4 hy (by decide)]
  unfold month_length
  split_ifs <;> omega

/-- The month and year carry of `add_minute` for a known month and year. -/
theorem add_minute_month_eq (d : dcf77_time) (hm : 1 ≤ d.mon ∧ d.mon ≤ 12)
    (hy : 0 ≤ d.year ∧ d.year ≤ 99) :
    add_minute_month d =
      if d.day > month_length d.mon d.year then
        (if d.mon < 12 then { d with day := 1, mon := d.mon + 1 }
         else { d with day := 1, mon := 1, year := if d.year = 99 then 0 else d.year + 1 })
      else d := by
  have hy8 : int8 (d.year + 1) = d.year + 1 := int8_of_range _ (by omega) (by omega)
  have hm8 : int8 (d.mon + 1) = d.mon + 1 := int8_of_range _ (by omega) (by omega)
  unfold add_minute_month
  simp only [hy8, hm8]
  rw [ite_chain_four]
  simp only [month_tests_iff d.day d.mon d.year hm hy.1]
  by_cases ho : d.day > month_length d.mon d.year
  · simp only [if_pos ho, if_pos hy.1]
    by_cases h12 : d.mon < 12
    · rw [if_neg (by omega), if_pos h12]
    · rw [if_pos (by omega), if_neg h12]
      by_cases h99 : d.year = 99
      · rw [if_pos (by omega), if_pos h99]
      · rw [if_neg (by omega), if_neg h99, hy8]
  · simp only [if_neg ho, if_pos hy.1]
    rw [if_neg (by omega)]

/-- The day carry of `add_minute` for a known valid date and an hour count of 24 or 25:
the day after, with the hour reduced by 24. -/
theorem add_minute_day_eq (d : dcf77_time) (hh : 24 ≤ d.hour ∧ d.hour ≤ 47)
    (hd : 1 ≤ d.day ∧ d.day ≤ month_length d.mon d.year) (hw : 1 ≤ d.wday ∧ d.wday ≤ 7)
    (hm : 1 ≤ d.mon ∧ d.mon ≤ 12) (hy : 0 ≤ d.year ∧ d.year ≤ 99) :
    add_minute_day d = { next_day d with hour := d.hour - 24 } := by
  have hml := month_length_range d.mon d.year
  have hq : c_div d.hour 24 = 1 := by
    rw [c_div_of_nonneg _ _ (by omega) (by decide)]
    omega
  have hr : c_rem d.hour 24 = d.hour - 24 := by
    rw [c_rem_of_nonneg _ _ (by omega) (by decide)]
    omega
  have hw8 : int8 (d.wday + 1) = d.wday + 1 := int8_of_range _ (by omega) (by omega)
  have hw7 : int8 (d.wday + 1 - 7) = d.wday + 1 - 7 := int8_of_range _ (by omega) (by omega)
  have hd8 : int8 (d.day + 1) = d.day + 1 := int8_of_range _ (by omega) (by omega)
  have hwd : (if d.wday + 1 > 7 then d.wday + 1 - 7 else d.wday + 1)
      = if d.wday = 7 then 1 else d.wday + 1 := by
    by_cases h7 : d.wday = 7
    · rw [if_pos (by omega), if_pos h7]
      omega
    · rw [if_neg (by omega), if_neg h7]
  unfold add_minute_day
  simp only [hq, hw8, hw7, hwd, if_pos (show d.wday > 0 by omega),
    if_pos (show d.day ≥ 0 by omega), hd8, if_pos (show d.mon > 0 by omega)]
  have hX := add_minute_month_eq
    { d with wday := if d.wday = 7 then 1 else d.wday + 1, day := d.day + 1 } hm hy
  simp only at hX
  rw [hX]
  unfold next_day
  by_cases hlt : d.day < month_length d.mon d.year
  · simp only [if_neg (show ¬ d.day + 1 > month_length d.mon d.year by omega), if_pos hlt, hr]
  · simp only [if_pos (show d.day + 1 > month_length d.mon d.year by omega), if_neg hlt]
    by_cases h12 : d.mon < 12
    · simp only [if_pos h12, hr]
    · simp only [if_neg h12, hr]

/-- The day after does not depend on the minute and the hour, and keeps them. -/
theorem next_day_min_hour (d : dcf77_time) (a b : Int) :
    next_day { d with min := a, hour := b } = { next_day d with min := a, hour := b } := by
  unfold next_day
  simp only
  split_ifs <;> rfl

/-- The calendar part of `add_minute` on a fully known valid time, for a count that the
`int8_t` minute can take: the time `count` minutes later. -/
theorem add_minute_fields_eq (d : dcf77_time) (count : Int) (hv : valid_time d)
    (hc0 : 0 ≤ count) (hc : d.min + count ≤ 127) :
    add_minute_fields d count = minutes_later d count := by
  obtain ⟨hmin, hhour, hday, hwday, hmon, hyear⟩ := hv
  have h8 : int8 (d.min + count) = d.min + count := int8_of_range _ (by omega) (by omega)
  have hq : c_div (d.min + count) 60 = (d.min + count) / 60 :=
    c_div_of_nonneg _ _ (by omega) (by decide)
  have hr : c_rem (d.min + count) 60 = (d.min + count) % 60 :=
    c_rem_of_nonneg _ _ (by omega) (by decide)
  have hH8 : int8 (d.hour + (d.min + count) / 60) = d.hour + (d.min + count) / 60 :=
    int8_of_range _ (by omega) (by omega)
  have hHq : c_div (d.hour + (d.min + count) / 60) 24 = (d.hour + (d.min + count) / 60) / 24 :=
    c_div_of_nonneg _ _ (by omega) (by decide)
  unfold add_minute_fields minutes_later
  simp only [if_pos (show d.min ≥ 0 from hmin.1), h8, hq, hr,
    if_pos (show d.hour ≥ 0 from hhour.1), hH8, hHq]
  by_cases hT : (d.min + count) / 60 = 0
  · have hm : (d.min + count) % 60 = d.min + count := by omega
    have hh0 : d.hour / 24 = 0 := by omega
    simp only [hh0, hT, hm, ne_eq, not_true_eq_false, if_false, if_true, add_zero]
  · simp only [ne_eq, hT, not_false_eq_true, if_true]
    by_cases hH : (d.hour + (d.min + count) / 60) / 24 = 0
    · simp only [hH, not_true_eq_false, if_false, if_true, hr]
    · simp only [hH, not_false_eq_true, if_true, if_false]
      have hde := add_minute_day_eq
        { d with min := d.min + count, hour := d.hour + (d.min + count) / 60 }
        (by constructor <;> simp only <;> omega) hday hwday hmon hyear
      rw [next_day_min_hour d (d.min + count) (d.hour + (d.min + count) / 60)] at hde
      simp only at hde
      rw [hde, next_day_min_hour d ((d.min + count) % 60)
        ((d.hour + (d.min + count) / 60) % 24)]
      have : d.hour + (d.min + count) / 60 - 24 = (d.hour + (d.min + count) / 60) % 24 := by
        omega
      generalize next_day d = nd
      simp only [hr, this]

/-- The day after a valid date is a valid date. -/
theorem next_day_valid (d : dcf77_time) (hv : valid_time d) : valid_time (next_day d) := by
  obtain ⟨hmin, hhour, hday, hwday, hmon, hyear⟩ := hv
  unfold next_day
  by_cases h1 : d.day < month_length d.mon d.year
  · rw [if_pos h1]
    refine ⟨hmin, hhour, ⟨?_, ?_⟩, ⟨?_, ?_⟩, hmon, hyear⟩ <;> simp only <;> omega
  · rw [if_neg h1]
    by_cases h2 : d.mon < 12
    · rw [if_pos h2]
      have := month_length_range (d.mon + 1) d.year
      refine ⟨hmin, hhour, ⟨?_, ?_⟩, ⟨?_, ?_⟩, ⟨?_, ?_⟩, hyear⟩ <;> simp only <;> omega
    · rw [if_neg h2]
      have := month_length_range 1 (if d.year = 99 then 0 else d.year + 1)
      refine ⟨hmin, hhour, ⟨?_, ?_⟩, ⟨?_, ?_⟩, ⟨?_, ?_⟩, ⟨?_, ?_⟩⟩ <;> simp only <;> omega

/-- The successor of a valid time is a valid time. -/
theorem next_minute_valid (d : dcf77_time) (hv : valid_time d) : valid_time (next_minute d) := by
  have hv0 := hv
  obtain ⟨hmin, hhour, hday, hwday, hmon, hyear⟩ := hv
  unfold next_minute
  by_cases h1 : d.min < 59
  · rw [if_pos h1]
    exact ⟨⟨by simp only; omega, by simp only; omega⟩, hhour, hday, hwday, hmon, hyear⟩
  · rw [if_neg h1]
    by_cases h2 : d.hour < 23
    · rw [if_pos h2]
      exact ⟨⟨le_refl (0 : Int), show (0 : Int) ≤ 59 by decide⟩,
        ⟨by simp only; omega, by simp only; omega⟩, hday, hwday, hmon, hyear⟩
    · rw [if_neg h2]
      exact next_day_valid _ ⟨⟨le_refl (0 : Int), show (0 : Int) ≤ 59 by decide⟩,
        ⟨le_refl (0 : Int), show (0 : Int) ≤ 23 by decide⟩, hday, hwday, hmon, hyear⟩

/-- One minute later is the calendar successor. -/
theorem minutes_later_one (d : dcf77_time) (hv : valid_time d) :
    minutes_later d 1 = next_minute d := by
  obtain ⟨hmin, hhour, hday, hwday, hmon, hyear⟩ := hv
  unfold minutes_later next_minute
  by_cases h1 : d.min < 59
  · have a : (d.min + 1) / 60 = 0 := by omega
    have b : (d.min + 1) % 60 = d.min + 1 := by omega
    have c : d.hour / 24 = 0 := by omega
    simp only [a, b, c, add_zero, if_true, if_pos h1]
  · have a : (d.min + 1) / 60 = 1 := by omega
    have b : (d.min + 1) % 60 = 0 := by omega
    rw [if_neg h1]
    by_cases h2 : d.hour < 23
    · have c : (d.hour + 1) / 24 = 0 := by omega
      simp only [a, b, c, if_true, if_pos h2]
    · have c : ¬ (d.hour + 1) / 24 = 0 := by omega
      have e : (d.hour + 1) % 24 = 0 := by omega
      simp only [a, b, c, e, if_false, if_neg h2]

/-- The successor keeps the minute count within reach. -/
theorem next_minute_min (d : dcf77_time) (hv : valid_time d) :
    0 ≤ (next_minute d).min ∧ (next_minute d).min ≤ d.min + 1 := by
  have := (next_minute_valid d hv).1
  obtain ⟨hmin, _⟩ := hv
  unfold next_minute at this ⊢
  by_cases h1 : d.min < 59
  · rw [if_pos h1]
    simp only
    omega
  · rw [if_neg h1] at this ⊢
    omega

/-- Stepping one minute first and `n` minutes then is stepping `n + 1` minutes. -/
theorem minutes_later_succ (d : dcf77_time) (n : Int) (hv : valid_time d) (hn : 0 ≤ n)
    (hc : d.min + (n + 1) ≤ 127) :
    minutes_later (next_minute d) n = minutes_later d (n + 1) := by
  obtain ⟨hmin, hhour, hday, hwday, hmon, hyear⟩ := hv
  unfold next_minute
  by_cases h1 : d.min < 59
  · rw [if_pos h1]
    unfold minutes_later
    simp only [show d.min + 1 + n = d.min + (n + 1) by omega]
  · rw [if_neg h1]
    have a : (d.min + (n + 1)) / 60 = 1 + n / 60 := by omega
    have b : (d.min + (n + 1)) % 60 = n % 60 := by omega
    by_cases h2 : d.hour < 23
    · rw [if_pos h2]
      unfold minutes_later
      simp only [zero_add, a, b, show d.hour + 1 + n / 60 = d.hour + (1 + n / 60) by omega]
    · rw [if_neg h2, next_day_min_hour d 0 0]
      unfold minutes_later
      have c : (0 + n / 60) / 24 = 0 := by omega
      have e : ¬ (d.hour + (1 + n / 60)) / 24 = 0 := by omega
      have f : (d.hour + (1 + n / 60)) % 24 = n / 60 := by omega
      simp only [zero_add, a, b] at c ⊢
      rw [if_pos c, if_neg e, f, next_day_min_hour d (n % 60) (n / 60)]

/-- The time `count` minutes later does not depend on the stamp, and keeps it. -/
theorem minutes_later_stamp (d : dcf77_time) (s count : Int) :
    minutes_later { d with stamp := s } count = { minutes_later d count with stamp := s } := by
  have hn : ∀ e : dcf77_time, next_day { e with stamp := s } = { next_day e with stamp := s } := by
    intro e
    unfold next_day
    simp only
    split_ifs <;> rfl
  unfold minutes_later
  simp only
  split_ifs
  · rfl
  · exact hn { d with min := (d.min + count) % 60,
                      hour := (d.hour + (d.min + count) / 60) % 24 }

/-- The function `add_minute` on a fully known valid time, for a count that the `int8_t`
minute can take. -/
theorem add_minute_eq (d : dcf77_time) (info : time_info_t) (count : Int) (hv : valid_time d)
    (hc0 : 0 ≤ count) (hc : d.min + count ≤ 127) :
    add_minute d info count =
      ({ minutes_later d count with
          stamp := if d.stamp ≠ 0 then d.stamp + count * 60 else d.stamp },
       if info.time.tv_sec ≠ 0 then
         { time := { info.time with tv_sec := info.time.tv_sec + count * 60 },
           clock := { info.clock with tv_sec := info.clock.tv_sec + count * 60 } }
       else info) := by
  unfold add_minute
  simp only
  by_cases hs : d.stamp ≠ 0
  · rw [if_pos hs, if_pos hs,
      add_minute_fields_eq { d with stamp := d.stamp + count * 60 } count hv hc0 hc,
      minutes_later_stamp d (d.stamp + count * 60) count]
  · rw [if_neg hs, if_neg hs, add_minute_fields_eq d count hv hc0 hc,
      ← minutes_later_stamp d d.stamp count]

/-- The successor changes the calendar fields only. -/
theorem next_minute_frame (d : dcf77_time) :
    (next_minute d).tz = d.tz ∧ (next_minute d).dst = d.dst ∧ (next_minute d).lsec = d.lsec ∧
    (next_minute d).alert = d.alert ∧ (next_minute d).check = d.check ∧
    (next_minute d).min_chk = d.min_chk ∧ (next_minute d).hour_chk = d.hour_chk ∧
    (next_minute d).day_chk = d.day_chk ∧ (next_minute d).wday_chk = d.wday_chk ∧
    (next_minute d).mon_chk = d.mon_chk ∧ (next_minute d).year_chk = d.year_chk ∧
    (next_minute d).tz_chk = d.tz_chk ∧ (next_minute d).stamp_chk = d.stamp_chk ∧
    (next_minute d).stamp = d.stamp := by
  unfold next_minute next_day
  simp only
  split_ifs <;> exact ⟨rfl, rfl, rfl, rfl, rfl, rfl, rfl, rfl, rfl, rfl, rfl, rfl, rfl, rfl⟩

/-- Zero minutes later is the same time. -/
theorem minutes_later_zero (d : dcf77_time) (hv : valid_time d) : minutes_later d 0 = d := by
  obtain ⟨hmin, hhour, _⟩ := hv
  have a : d.min / 60 = 0 := by omega
  have b : d.min % 60 = d.min := by omega
  have c : d.hour / 24 = 0 := by omega
  unfold minutes_later
  simp only [add_zero, a, b, c, if_true]

/-- The minute reference after one more call of `add_minute`; it does not depend on the
time that is advanced with it. -/
theorem add_minute_info_step (d e : dcf77_time) (info : time_info_t) (n : Int)
    (hi : 0 ≤ info.time.tv_sec) :
    (add_minute e (add_minute d info 1).2 n).2 = (add_minute d info (n + 1)).2 ∧
    0 ≤ (add_minute d info 1).2.time.tv_sec := by
  unfold add_minute
  simp only
  by_cases h : info.time.tv_sec ≠ 0
  · simp only [if_pos h]
    rw [if_pos (by omega)]
    have e1 : info.time.tv_sec + 1 * 60 + n * 60 = info.time.tv_sec + (n + 1) * 60 := by omega
    have e2 : info.clock.tv_sec + 1 * 60 + n * 60 = info.clock.tv_sec + (n + 1) * 60 := by omega
    rw [e1, e2]
    exact ⟨rfl, by omega⟩
  · simp only [if_neg h]
    exact ⟨trivial, hi⟩

/-- The time after `n` calls of `add_minute` with count 1 is that of one call with count
`n`, for a count that the `int8_t` minute can take. -/
theorem add_minute_times_eq (n : Nat) :
    ∀ (d : dcf77_time) (info : time_info_t), valid_time d → d.min + n ≤ 127 → 0 ≤ d.stamp →
      0 ≤ info.time.tv_sec → add_minute_times n (d, info) = add_minute d info n := by
  induction n with
  | zero =>
    intro d info hv _ _ _
    rw [add_minute_times, Nat.cast_zero, add_minute_eq d info 0 hv (le_refl 0) (by have := hv.1.2; omega),
      minutes_later_zero d hv]
    by_cases hs : d.stamp ≠ 0 <;> by_cases hi : info.time.tv_sec ≠ 0 <;>
      simp [hs, hi]
  | succ n ih =>
    intro d info hv hc hs hi
    push_cast at hc ⊢
    have hmin := hv.1
    have h1 := add_minute_eq d info 1 hv (by decide) (by omega)
    rw [minutes_later_one d hv] at h1
    have hv1 : valid_time (add_minute d info 1).1 := by
      rw [h1]
      exact next_minute_valid d hv
    have hm1 : (add_minute d info 1).1.min + n ≤ 127 := by
      rw [h1]
      have := (next_minute_min d hv).2
      show (next_minute d).min + n ≤ 127
      omega
    have hst : (add_minute d info 1).1.stamp = if d.stamp ≠ 0 then d.stamp + 1 * 60 else d.stamp := by
      rw [h1]
    have hs1 : 0 ≤ (add_minute d info 1).1.stamp := by
      rw [hst]
      split_ifs <;> omega
    obtain ⟨hinfo, hi1⟩ := add_minute_info_step d (add_minute d info 1).1 info n hi
    rw [add_minute_times, ih (add_minute d info 1).1 (add_minute d info 1).2 hv1 hm1 hs1 hi1]
    refine Prod.ext ?_ hinfo
    rw [add_minute_eq _ _ n hv1 (by omega) hm1, add_minute_eq d info (n + 1) hv (by omega) hc]
    simp only [hst]
    rw [h1]
    simp only
    rw [minutes_later_stamp (next_minute d) _ n, minutes_later_succ d n hv (by omega) hc]
    simp only [(next_minute_frame d).2.2.2.2.2.2.2.2.2.2.2.2.2]
    have hX : (if (if d.stamp ≠ 0 then d.stamp + 1 * 60 else d.stamp) ≠ 0 then
          (if d.stamp ≠ 0 then d.stamp + 1 * 60 else d.stamp) + (n : Int) * 60
        else (if d.stamp ≠ 0 then d.stamp + 1 * 60 else d.stamp))
        = if d.stamp ≠ 0 then d.stamp + ((n : Int) + 1) * 60 else d.stamp := by
      by_cases h0 : d.stamp ≠ 0
      · simp only [if_pos h0]
        rw [if_pos (by omega)]
        omega
      · simp only [if_neg h0, if_false]
    rw [hX]

/-- The day carry of `add_minute` keeps the minute and keeps the date fields unknown or in
range, when a known day comes with a known month and year. -/
theorem add_minute_day_range (d : dcf77_time) (hh : d.hour = 24)
    (hday : d.day < 0 ∨ (1 ≤ d.day ∧ d.day ≤ 31)) (hwday : d.wday < 0 ∨ (1 ≤ d.wday ∧ d.wday ≤ 7))
    (hmon : d.mon < 0 ∨ (1 ≤ d.mon ∧ d.mon ≤ 12)) (hyear : d.year < 0 ∨ (0 ≤ d.year ∧ d.year ≤ 99))
    (hk : d.day ≥ 0 → d.mon > 0 ∧ d.year ≥ 0) :
    (add_minute_day d).min = d.min ∧ (add_minute_day d).hour = 0 ∧
    ((add_minute_day d).day < 0 ∨ (1 ≤ (add_minute_day d).day ∧ (add_minute_day d).day ≤ 31)) ∧
    ((add_minute_day d).wday < 0 ∨
      (1 ≤ (add_minute_day d).wday ∧ (add_minute_day d).wday ≤ 7)) ∧
    ((add_minute_day d).mon < 0 ∨ (1 ≤ (add_minute_day d).mon ∧ (add_minute_day d).mon ≤ 12)) ∧
    ((add_minute_day d).year < 0 ∨
      (0 ≤ (add_minute_day d).year ∧ (add_minute_day d).year ≤ 99)) := by
  have hq24 : c_div 24 24 = 1 := by decide
  have hr24 : c_rem 24 24 = 0 := by decide
  have hwd : ∀ w : Int, 1 ≤ w → w ≤ 7 →
      (if int8 (w + 1) > 7 then int8 (int8 (w + 1) - 7) else int8 (w + 1)) =
        if w = 7 then 1 else w + 1 := by
    intro w h1 h7
    rw [int8_of_range (w + 1) (by omega) (by omega)]
    by_cases e : w = 7
    · rw [if_pos (by omega), if_pos e, e]
      decide
    · rw [if_neg (by omega), if_neg e]
  unfold add_minute_day
  simp only [hh, hq24]
  generalize hW : (if d.wday > 0 then
      ({ d with hour := 24,
                wday := if int8 (d.wday + 1) > 7 then int8 (int8 (d.wday + 1) - 7)
                        else int8 (d.wday + 1) } : dcf77_time)
      else d) = W
  have hWf : W.min = d.min ∧ W.hour = 24 ∧ W.day = d.day ∧ W.mon = d.mon ∧ W.year = d.year ∧
      (W.wday < 0 ∨ (1 ≤ W.wday ∧ W.wday ≤ 7)) := by
    rw [← hW]
    by_cases hw : d.wday > 0
    · rw [if_pos hw]
      refine ⟨rfl, rfl, rfl, rfl, rfl, ?_⟩
      simp only [hwd d.wday (by omega) (by omega)]
      right
      split_ifs <;> omega
    · rw [if_neg hw]
      exact ⟨rfl, hh, rfl, rfl, rfl, hwday⟩
  obtain ⟨hWmin, hWhour, hWday, hWmon, hWyear, hWwday⟩ := hWf
  by_cases hdk : d.day ≥ 0
  swap
  · rw [if_neg (by rw [hWday]; exact hdk)]
    simp only [hWmin, hWhour, hWday, hWmon, hWyear, hr24]
    exact ⟨trivial, trivial, hday, hWwday, hmon, hyear⟩
  rw [if_pos (by rw [hWday]; exact hdk)]
  obtain ⟨hmk, hyk⟩ := hk hdk
  have hd8 : int8 (d.day + 1) = d.day + 1 := int8_of_range _ (by omega) (by omega)
  simp only [hWmin, hWhour, hWday, hWmon, hWyear, hq24, if_pos hmk, hd8]
  have hX := add_minute_month_eq { W with day := d.day + 1 }
    (by simp only [hWmon]; omega) (by simp only [hWyear]; omega)
  simp only [hWmin, hWhour, hWday, hWmon, hWyear] at hX
  rw [hX]
  have hml := month_length_range d.mon d.year
  by_cases hov : d.day + 1 > month_length d.mon d.year
  · rw [if_pos hov]
    by_cases h12 : d.mon < 12
    · rw [if_pos h12]
      simp only [hWmin, hWhour, hr24]
      refine ⟨trivial, trivial, ?_, hWwday, ?_, ?_⟩ <;> omega
    · rw [if_neg h12]
      simp only [hWmin, hWhour, hr24]
      refine ⟨trivial, trivial, ?_, hWwday, ?_, ?_⟩ <;> omega
  · rw [if_neg hov]
    simp only [hWmin, hWhour, hWmon, hWyear, hr24]
    refine ⟨trivial, trivial, ?_, hWwday, ?_, ?_⟩ <;> omega

/-- The calendar part of `add_minute` with count 1 keeps every field unknown or in range,
when a known day comes with a known month and year. -/
theorem add_minute_fields_range (d : dcf77_time) (hr : fields_in_range d)
    (hk : d.day ≥ 0 → d.mon > 0 ∧ d.year ≥ 0) : fields_in_range (add_minute_fields d 1) := by
  obtain ⟨hmin, hhour, hday, hwday, hmon, hyear⟩ := hr
  unfold add_minute_fields
  by_cases h0 : d.min ≥ 0
  swap
  · rw [if_neg h0]
    exact ⟨hmin, hhour, hday, hwday, hmon, hyear⟩
  rw [if_pos h0]
  have h8 : int8 (d.min + 1) = d.min + 1 := int8_of_range _ (by omega) (by omega)
  have hq : c_div (d.min + 1) 60 = (d.min + 1) / 60 := c_div_of_nonneg _ _ (by omega) (by decide)
  have hrm : c_rem (d.min + 1) 60 = (d.min + 1) % 60 := c_rem_of_nonneg _ _ (by omega) (by decide)
  simp only [h8, hq]
  by_cases h59 : d.min < 59
  · rw [if_neg (by omega)]
    refine ⟨?_, hhour, hday, hwday, hmon, hyear⟩
    simp only
    omega
  rw [if_pos (by omega)]
  have hm0 : (d.min + 1) % 60 = 0 := by omega
  have hq1 : (d.min + 1) / 60 = 1 := by omega
  simp only [hq1]
  by_cases hh : d.hour ≥ 0
  swap
  · rw [if_neg hh]
    refine ⟨?_, hhour, hday, hwday, hmon, hyear⟩
    simp only [hrm, hm0]
    omega
  rw [if_pos hh]
  have hh8 : int8 (d.hour + 1) = d.hour + 1 := int8_of_range _ (by omega) (by omega)
  have hhq : c_div (d.hour + 1) 24 = (d.hour + 1) / 24 :=
    c_div_of_nonneg _ _ (by omega) (by decide)
  simp only [hh8, hhq]
  by_cases h23 : d.hour < 23
  · rw [if_neg (by omega)]
    refine ⟨?_, ?_, hday, hwday, hmon, hyear⟩ <;> simp only [hrm, hm0] <;> omega
  rw [if_pos (by omega)]
  obtain ⟨a, b, c, e, f, g⟩ := add_minute_day_range
    { d with min := d.min + 1, hour := d.hour + 1 } (show d.hour + 1 = 24 by omega) hday hwday
    hmon hyear hk
  simp only at a
  refine ⟨?_, ?_, c, e, f, g⟩
  · simp only [a, hrm, hm0]
    omega
  · simp only [b]
    omega

/-- C21. One-minute calendar advance: for a time whose min, hour, day, wday, mon and year
are known and form a valid date, `add_minute` with count 1 gives the calendar successor
minute (min 59 -> 0 carrying into the hour, hour 23 -> 0 carrying into day and weekday
7 -> 1, day wrapping at the month length into the month, month 12 -> 1 into the year,
year 99 -> 0), which is again a valid time; the stamp goes up by 60 if it was not zero and
stays 0 otherwise; tz, dst, lsec, alert, the check score and all confidence counters are
unchanged. -/
theorem add_minute_successor (d : dcf77_time) (info : time_info_t) (hv : valid_time d) :
    (add_minute d info 1).1 =
      { next_minute d with stamp := if d.stamp ≠ 0 then d.stamp + 60 else 0 } ∧
    valid_time (add_minute d info 1).1 ∧
    (add_minute d info 1).1.tz = d.tz ∧ (add_minute d info 1).1.dst = d.dst ∧
    (add_minute d info 1).1.lsec = d.lsec ∧ (add_minute d info 1).1.alert = d.alert ∧
    (add_minute d info 1).1.check = d.check ∧
    (add_minute d info 1).1.min_chk = d.min_chk ∧
    (add_minute d info 1).1.hour_chk = d.hour_chk ∧
    (add_minute d info 1).1.day_chk = d.day_chk ∧
    (add_minute d info 1).1.wday_chk = d.wday_chk ∧
    (add_minute d info 1).1.mon_chk = d.mon_chk ∧
    (add_minute d info 1).1.year_chk = d.year_chk ∧
    (add_minute d info 1).1.tz_chk = d.tz_chk ∧
    (add_minute d info 1).1.stamp_chk = d.stamp_chk := by
  have h1 := add_minute_eq d info 1 hv (by decide) (by have := hv.1.2; omega)
  rw [minutes_later_one d hv] at h1
  have hst : (if d.stamp ≠ 0 then d.stamp + 1 * 60 else d.stamp)
      = if d.stamp ≠ 0 then d.stamp + 60 else 0 := by
    by_cases h : d.stamp ≠ 0
    · rw [if_pos h, if_pos h]
      omega
    · rw [if_neg h, if_neg h]
      omega
  rw [hst] at h1
  rw [h1]
  obtain ⟨f1, f2, f3, f4, f5, f6, f7, f8, f9, f10, f11, f12, f13, _⟩ := next_minute_frame d
  exact ⟨rfl, next_minute_valid d hv, f1, f2, f3, f4, f5, f6, f7, f8, f9, f10, f11, f12, f13⟩

theorem add_minute_successor_witness :
    (add_minute { calendar 59 23 31 2 12 24 1 with stamp := 1735685940 } init_time_info 1).1 =
      { next_minute { calendar 59 23 31 2 12 24 1 with stamp := 1735685940 } with
        stamp := 1735686000 } ∧
    next_minute { calendar 59 23 31 2 12 24 1 with stamp := 1735685940 } =
      { calendar 0 0 1 3 1 25 1 with stamp := 1735685940 } :=
  ⟨(add_minute_successor { calendar 59 23 31 2 12 24 1 with stamp := 1735685940 }
      init_time_info (by decide)).1, by decide⟩

/-- C22, amended. Multi-minute calendar advance: for a fully known valid time with a stamp
and a minute reference that are not negative, and a count of at least 1 that the `int8_t`
minute can take (`min + count <= 127`), `add_minute` with this count gives the same time
and minute reference as `add_minute` with count 1 applied count times, and advances a
non-zero stamp and a set minute reference (both of its clocks) by `60 * count` seconds. -/
theorem add_minute_repeat (d : dcf77_time) (info : time_info_t) (count : Nat)
    (hv : valid_time d) (_h1 : 1 ≤ count) (hc : d.min + count ≤ 127) (hs : 0 ≤ d.stamp)
    (hi : 0 ≤ info.time.tv_sec) :
    add_minute d info count = add_minute_times count (d, info) ∧
    (d.stamp ≠ 0 → (add_minute d info count).1.stamp = d.stamp + 60 * count) ∧
    (info.time.tv_sec ≠ 0 →
      (add_minute d info count).2.time.tv_sec = info.time.tv_sec + 60 * count ∧
      (add_minute d info count).2.clock.tv_sec = info.clock.tv_sec + 60 * count) := by
  refine ⟨(add_minute_times_eq count d info hv hc hs hi).symm, ?_, ?_⟩
  · intro h
    rw [add_minute_eq d info count hv (by omega) hc]
    simp only [if_pos h]
    omega
  · intro h
    rw [add_minute_eq d info count hv (by omega) hc]
    simp only [if_pos h]
    constructor <;> omega

theorem add_minute_repeat_witness :
    add_minute { calendar 59 23 31 2 12 24 1 with stamp := 1735685940 }
      { time := { tv_sec := 1000, tv_nsec := 0 },
        clock := { tv_sec := 1735685940, tv_nsec := 0 } } (61 : Nat) =
    add_minute_times 61 ({ calendar 59 23 31 2 12 24 1 with stamp := 1735685940 },
      { time := { tv_sec := 1000, tv_nsec := 0 },
        clock := { tv_sec := 1735685940, tv_nsec := 0 } }) :=
  (add_minute_repeat { calendar 59 23 31 2 12 24 1 with stamp := 1735685940 }
    { time := { tv_sec := 1000, tv_nsec := 0 },
      clock := { tv_sec := 1735685940, tv_nsec := 0 } } 61
    (by decide) (by decide) (by decide) (by decide) (by decide)).1

set_option maxRecDepth 8000 in
/-- C22, counterexample. From 12:59 on a valid date a count of 69 (a second counter of
4140 to 4199) takes the `int8_t` minute past 127: one call of `add_minute` yields minute
-8 and hour 10, while 69 calls with count 1 yield 14:08.  And a stamp of -60 is advanced
to 60 by one call with count 2, while the first of two calls with count 1 makes it 0,
which the second call takes for "no stamp". -/
theorem add_minute_count_wraps :
    valid_time (calendar 59 12 15 1 1 24 1) ∧ c_div 4140 60 = 69 ∧
    (add_minute (calendar 59 12 15 1 1 24 1) init_time_info 69).1.min = -8 ∧
    (add_minute (calendar 59 12 15 1 1 24 1) init_time_info 69).1.hour = 10 ∧
    (add_minute_times 69 (calendar 59 12 15 1 1 24 1, init_time_info)).1.min = 8 ∧
    (add_minute_times 69 (calendar 59 12 15 1 1 24 1, init_time_info)).1.hour = 14 ∧
    (add_minute { calendar 0 12 15 1 1 24 1 with stamp := -60 } init_time_info 2).1.stamp
      = 60 ∧
    (add_minute_times 2 ({ calendar 0 12 15 1 1 24 1 with stamp := -60 },
      init_time_info)).1.stamp = 0 := by
  refine ⟨by decide, by decide, by decide, by decide, by decide, by decide, by decide,
    by decide⟩

/-- C26, amended. `add_minute` preserves the field invariants: for a time in which each of
min, hour, day, wday, mon and year is unknown (negative) or inside its declared range, and
in which a known day comes with a known month and year, the time that `add_minute` with
count 1 produces has again each of these fields unknown or inside its declared range. -/
theorem add_minute_invariant (d : dcf77_time) (info : time_info_t) (hr : fields_in_range d)
    (hk : d.day ≥ 0 → d.mon > 0 ∧ d.year ≥ 0) :
    fields_in_range (add_minute d info 1).1 := by
  unfold add_minute
  simp only
  by_cases hs : d.stamp ≠ 0
  · rw [if_pos hs]
    exact add_minute_fields_range { d with stamp := d.stamp + 1 * 60 } hr hk
  · rw [if_neg hs]
    exact add_minute_fields_range d hr hk

theorem add_minute_invariant_witness :
    fields_in_range (add_minute (calendar 59 23 31 1 12 99 1) init_time_info 1).1 :=
  add_minute_invariant (calendar 59 23 31 1 12 99 1) init_time_info (by decide) (by decide)

/-- C26, counterexample. Minute 59, hour 23 and day 31 are known, the month and the year
are unknown: every field is unknown or in range, but after `add_minute` with count 1 the
day is 32.  With month 12 known and the year unknown the month comes out as 13. -/
theorem add_minute_day_32 :
    fields_in_range (calendar 59 23 31 1 (-1) (-1) 1) ∧
    (add_minute (calendar 59 23 31 1 (-1) (-1) 1) init_time_info 1).1.day = 32 ∧
    ¬ fields_in_range (add_minute (calendar 59 23 31 1 (-1) (-1) 1) init_time_info 1).1 ∧
    fields_in_range (calendar 59 23 31 1 12 (-1) 1) ∧
    (add_minute (calendar 59 23 31 1 12 (-1) 1) init_time_info 1).1.mon = 13 := by
  refine ⟨by decide, by decide, by decide, by decide, by decide⟩

/-! ## The shift at the first minute marker -/

/-- The scan of line 1049 stops at the last slot that is not unknown. -/
theorem shift_scan_stop (data : List Int) (k : Nat) (hk : rd data k ≠ -1) :
    ∀ (n m : Nat), k ≤ m → m - k < n → (∀ j, k < j → j ≤ m → rd data j = -1) →
      shift_scan data n (m : Int) = (k : Int) := by
  intro n
  induction n with
  | zero => intro m _ h _; omega
  | succ n ih =>
    intro m hkm hn hu
    rw [shift_scan]
    simp only [Int.toNat_ofNat]
    by_cases he : m = k
    · subst he
      rw [if_neg (fun h => hk h.2)]
    · rw [if_pos ⟨by omega, hu m (by omega) (le_refl m)⟩]
      have hm : (m : Int) - 1 = ((m - 1 : Nat) : Int) := by omega
      rw [hm]
      exact ih (m - 1) (by omega) (by omega) (fun j h1 h2 => hu j h1 (by omega))

theorem shift_copy_done (n : Nat) (j : Int) (data : List Int) :
    shift_copy n (-1) j data = (j, data) := by
  cases n with
  | zero => rfl
  | succ n => rw [shift_copy, if_neg (by decide)]

/-- The copy loop of line 1050, slot by slot. -/
theorem shift_copy_spec :
    ∀ (n k j : Nat) (data : List Int), k < n → k ≤ j → j < data.length →
      (shift_copy n (k : Int) (j : Int) data).1 = (j : Int) - k - 1 ∧
      (shift_copy n (k : Int) (j : Int) data).2.length = data.length ∧
      ∀ m, rd (shift_copy n (k : Int) (j : Int) data).2 m =
        if j - k ≤ m ∧ m ≤ j then rd data (m - (j - k)) else rd data m := by
  intro n
  induction n with
  | zero => intro k j data h _ _; omega
  | succ n ih =>
    intro k j data hkn hkj hjl
    rw [shift_copy, if_pos (by omega)]
    simp only [Int.toNat_ofNat]
    have hwr : ∀ m, rd (wr data (j : Int) (rd data k)) m = if m = j then rd data k else rd data m := by
      intro m
      by_cases e : m = j
      · rw [if_pos e, e]
        have := rd_wr_eq data (j : Int) (rd data k) (by omega) (by simpa using hjl)
        simpa using this
      · rw [if_neg e]
        exact rd_wr_ne data (j : Int) (rd data k) m (by omega)
    cases k with
    | zero =>
      have e1 : ((0 : Nat) : Int) - 1 = -1 := by decide
      rw [e1, shift_copy_done]
      refine ⟨by simp only; omega, by simp only [wr_length], fun m => ?_⟩
      simp only [hwr]
      by_cases e : m = j
      · rw [if_pos e, if_pos (by omega), e]
        simp
      · rw [if_neg e, if_neg (by omega)]
    | succ k =>
      have e1 : ((k + 1 : Nat) : Int) - 1 = (k : Int) := by omega
      have e2 : (j : Int) - 1 = ((j - 1 : Nat) : Int) := by omega
      rw [e1, e2]
      obtain ⟨a, b, c⟩ := ih k (j - 1) (wr data (j : Int) (rd data (k + 1))) (by omega) (by omega)
        (by rw [wr_length]; omega)
      refine ⟨by rw [a]; omega, by rw [b, wr_length], fun m => ?_⟩
      rw [c m]
      simp only [hwr]
      by_cases h1 : j - 1 - k ≤ m ∧ m ≤ j - 1
      · rw [if_pos h1, if_neg (by omega), if_pos (by omega)]
        congr 1
        omega
      · rw [if_neg h1]
        by_cases e : m = j
        · rw [if_pos e, if_pos (by omega)]
          congr 1
          omega
        · rw [if_neg e, if_neg (by omega)]

/-- The fill loop of line 1051, slot by slot. -/
theorem shift_fill_spec :
    ∀ (n : Nat) (q : Int) (data : List Int), -1 ≤ q → q < n → q < data.length →
      (shift_fill n q data).length = data.length ∧
      ∀ m : Nat, rd (shift_fill n q data) m = if (m : Int) ≤ q then -1 else rd data m := by
  intro n
  induction n with
  | zero =>
    intro q data h1 h2 _
    refine ⟨rfl, fun m => ?_⟩
    rw [if_neg (by omega)]
    rfl
  | succ n ih =>
    intro q data h1 h2 h3
    rw [shift_fill]
    by_cases hq : q ≥ 0
    · rw [if_pos hq]
      obtain ⟨a, b⟩ := ih (q - 1) (wr data q (-1)) (by omega) (by omega)
        (by rw [wr_length]; omega)
      refine ⟨by rw [a, wr_length], fun m => ?_⟩
      rw [b m]
      by_cases h : (m : Int) ≤ q - 1
      · rw [if_pos h, if_pos (by omega)]
      · rw [if_neg h]
        by_cases e : (m : Int) = q
        · rw [if_pos (by omega)]
          have := rd_wr_eq data q (-1) hq (by omega)
          rw [show q.toNat = m by omega] at this
          exact this
        · rw [if_neg (by omega)]
          exact rd_wr_ne data q (-1) m e
    · rw [if_neg hq]
      refine ⟨rfl, fun m => ?_⟩
      rw [if_neg (by omega)]

/-- Two arrays of the same length with the same elements are equal. -/
theorem list_eq_of_rd (a b : List Int) (hl : a.length = b.length)
    (h : ∀ i, i < a.length → rd a i = rd b i) : a = b := by
  apply List.ext_getElem hl
  intro i h1 h2
  have := h i h1
  unfold rd at this
  rw [List.getD_eq_getElem _ _ h1, List.getD_eq_getElem _ _ h2] at this
  exact this

/-- The three loops of lines 1049-1051 together, slot by slot, for an array whose last
slot up to 58 that is not unknown is slot `k`. -/
theorem shift_data_spec (data : List Int) (k : Nat) (hlen : 59 ≤ data.length) (hk58 : k ≤ 58)
    (hk : rd data k ≠ -1) (hu : ∀ j, k < j → j ≤ 58 → rd data j = -1) :
    (shift_data data).length = data.length ∧
    ∀ m, rd (shift_data data) m =
      if m < 58 - k then -1 else if m ≤ 58 then rd data (m - (58 - k)) else rd data m := by
  have hscan : shift_scan data 60 58 = (k : Int) :=
    shift_scan_stop data k hk 60 58 hk58 (by omega) hu
  obtain ⟨c1, c2, c3⟩ := shift_copy_spec 60 k 58 data (by omega) hk58 (by omega)
  simp only [Nat.cast_ofNat] at c1 c2 c3
  unfold shift_data
  simp only [hscan]
  obtain ⟨f1, f2⟩ := shift_fill_spec 60 (shift_copy 60 (k : Int) 58 data).1
    (shift_copy 60 (k : Int) 58 data).2 (by rw [c1]; omega) (by rw [c1]; omega)
    (by rw [c1, c2]; omega)
  refine ⟨by rw [f1, c2], fun m => ?_⟩
  rw [f2 m, c1, c3 m]
  by_cases h1 : m < 58 - k
  · rw [if_pos (by omega), if_pos h1]
  · rw [if_neg (by omega), if_neg h1]
    by_cases h2 : m ≤ 58
    · rw [if_pos (by omega), if_pos h2]
    · rw [if_neg (by omega), if_neg h2]

/-- C27, amended. Right-justification at the first minute marker: for a vector of 60
symbols in which slot `k` (`k < 58`) holds the final received bit and this bit is known,
and slots `k+1 .. 58` are unknown, the shift moves old slot `k - i` to slot `58 - i` for
every `i <= k` (so the final received bit ends up in slot 58), makes all slots below
`58 - k` unknown and leaves slot 59 unchanged; a second shift changes nothing. -/
theorem shift_right_justifies (data : List Int) (k : Nat) (hlen : data.length = 60)
    (hk : k < 58) (hknown : rd data k ≠ -1) (hu : ∀ j, k < j → j ≤ 58 → rd data j = -1) :
    (∀ i, i ≤ k → rd (shift_data data) (58 - i) = rd data (k - i)) ∧
    (∀ m, m < 58 - k → rd (shift_data data) m = -1) ∧
    rd (shift_data data) 59 = rd data 59 ∧
    shift_data (shift_data data) = shift_data data := by
  obtain ⟨l1, s1⟩ := shift_data_spec data k (by omega) (by omega) hknown hu
  have h58 : rd (shift_data data) 58 ≠ -1 := by
    rw [s1 58, if_neg (by omega), if_pos (le_refl 58), show 58 - (58 - k) = k by omega]
    exact hknown
  obtain ⟨l2, s2⟩ := shift_data_spec (shift_data data) 58 (by omega) (le_refl 58) h58
    (fun j a b => by omega)
  refine ⟨fun i hi => ?_, fun m hm => ?_, ?_, ?_⟩
  · rw [s1 (58 - i), if_neg (by omega), if_pos (by omega)]
    congr 1
    omega
  · rw [s1 m, if_pos hm]
  · rw [s1 59, if_neg (by omega), if_neg (by omega)]
  · apply list_eq_of_rd _ _ l2
    intro m _
    rw [s2 m, if_neg (by omega)]
    by_cases h : m ≤ 58
    · rw [if_pos h]
      rfl
    · rw [if_neg h]

theorem shift_right_justifies_witness :
    rd (shift_data ([0, 1, 1, 0, 1, 0, 0, 1, 1, 0, 1] ++ List.replicate 49 (-1))) 58 = 1 ∧
    rd (shift_data ([0, 1, 1, 0, 1, 0, 0, 1, 1, 0, 1] ++ List.replicate 49 (-1))) 57 = 0 ∧
    shift_data (shift_data ([0, 1, 1, 0, 1, 0, 0, 1, 1, 0, 1] ++ List.replicate 49 (-1)))
      = shift_data ([0, 1, 1, 0, 1, 0, 0, 1, 1, 0, 1] ++ List.replicate 49 (-1)) :=
  ⟨(shift_right_justifies ([0, 1, 1, 0, 1, 0, 0, 1, 1, 0, 1] ++ List.replicate 49 (-1)) 10
      (by decide) (by decide) (by decide)
      (fun j a b => by interval_cases j <;> rfl)).1 0 (by decide),
   by decide,
   by decide⟩

/-- C27, counterexample. Eleven symbols were received, slots 0..10, the final one (slot 10)
unknown; slots 11..58 are unknown.  The shift does not move slot 10 to slot 58: slot 58
gets the bit of slot 9, the last known one, and slot 57 the bit of slot 8. -/
theorem shift_last_unknown :
    rd ([0, 1, 1, 0, 1, 0, 0, 1, 0, 1, -1] ++ List.replicate 49 (-1)) 10 = -1 ∧
    rd (shift_data ([0, 1, 1, 0, 1, 0, 0, 1, 0, 1, -1] ++ List.replicate 49 (-1))) 58 = 1 ∧
    rd (shift_data ([0, 1, 1, 0, 1, 0, 0, 1, 0, 1, -1] ++ List.replicate 49 (-1))) 57 = 0 ∧
    rd ([0, 1, 1, 0, 1, 0, 0, 1, 0, 1, -1] ++ List.replicate 49 (-1)) 9 = 1 := by
  decide

/-- An unknown symbol among the first `count` makes `check_number` return -1. -/
theorem check_number_unknown (data : List Int) (p count : Nat) (lo hi : Int)
    (h : ∃ i, i < count ∧ rd data (p + i) < 0) : check_number data p count lo hi = -1 := by
  obtain ⟨j, hj, hneg⟩ := h
  unfold check_number
  by_cases h0 : rd data p < 0
  · rw [if_pos h0]
  · rw [if_neg h0]
    have := check_number_loop_unknown data p count 0 0 ⟨j, by omega, by omega, hneg⟩
    simp only [Nat.zero_add] at this
    simp [this]

/-- C24, amended. If at least one of the month units bits 45..48 is unknown,
`check_data_mon` sets the month to -1; an unknown tens bit 49 is read as 0, that is, the
month comes out as for the same vector with bit 49 cleared. -/
theorem check_data_mon_unknown (data : List Int) (hlen : 49 < data.length) :
    ((∃ i, i < 4 ∧ rd data (45 + i) < 0) → check_data_mon data = -1) ∧
    (rd data 49 < 0 → check_data_mon data = check_data_mon (data.set 49 0)) := by
  constructor
  · intro h
    unfold check_data_mon
    simp only [check_number_unknown data 45 4 0 9 h]
    have e : (if (-1 : Int) ≥ 0 ∧ rd data 49 > 0 then -1 + rd data 49 * 10 else -1) = -1 :=
      if_neg (by omega)
    rw [e]
    rfl
  · intro h
    unfold check_data_mon
    have hc : check_number (data.set 49 0) 45 4 0 9 = check_number data 45 4 0 9 :=
      check_number_congr _ _ 45 4 0 9 (by omega)
        (fun i hi => rd_set_ne data 49 (45 + i) 0 (by omega))
    simp only [hc, rd_set_eq data 49 0 hlen]
    have e1 : (if check_number data 45 4 0 9 ≥ 0 ∧ rd data 49 > 0
        then check_number data 45 4 0 9 + rd data 49 * 10 else check_number data 45 4 0 9)
        = check_number data 45 4 0 9 := if_neg (by omega)
    have e2 : (if check_number data 45 4 0 9 ≥ 0 ∧ (0 : Int) > 0
        then check_number data 45 4 0 9 + 0 * 10 else check_number data 45 4 0 9)
        = check_number data 45 4 0 9 := if_neg (by omega)
    rw [e1, e2]

theorem check_data_mon_unknown_witness :
    check_data_mon (List.replicate 45 0 ++ [1, 0, -1, 0, 1] ++ List.replicate 10 0) = -1 :=
  (check_data_mon_unknown (List.replicate 45 0 ++ [1, 0, -1, 0, 1] ++ List.replicate 10 0)
    (by decide)).1 ⟨2, by decide, by decide⟩

/-- C24, counterexample. The month bits 45..48 are 1, 0, 1, 0 and the tens bit 49 is
unknown: `check_data_mon` sets the month to 5, not to -1. -/
theorem check_data_mon_tens_unknown :
    rd (List.replicate 45 0 ++ [1, 0, 1, 0, -1] ++ List.replicate 10 0) 49 = -1 ∧
    check_data_mon (List.replicate 45 0 ++ [1, 0, 1, 0, -1] ++ List.replicate 10 0) = 5 := by
  decide

/-- The counting loop of `check_parity` never lowers `fail`, and raises it when one of
the symbols it visits is unknown. -/
theorem check_parity_count_fail (data : List Int) (p : Nat) :
    ∀ (n i : Nat) (parity fail : Int),
      fail ≤ (check_parity_count data p n i parity fail).2 ∧
      ((∃ j, i ≤ j ∧ j < i + n ∧ rd data (p + j) < 0) →
        fail < (check_parity_count data p n i parity fail).2) := by
  intro n
  induction n with
  | zero =>
    intro i parity fail
    refine ⟨le_refl _, ?_⟩
    rintro ⟨j, h1, h2, _⟩
    omega
  | succ n ih =>
    intro i parity fail
    rw [check_parity_count]
    by_cases hi : rd data (p + i) < 0
    · rw [if_pos hi]
      have := (ih (i + 1) parity (fail + 1)).1
      exact ⟨by omega, fun _ => by omega⟩
    · rw [if_neg hi]
      obtain ⟨a, b⟩ := ih (i + 1) (parity + rd data (p + i)) fail
      refine ⟨a, ?_⟩
      rintro ⟨j, h1, h2, h3⟩
      have hj : j ≠ i := fun e => hi (e ▸ h3)
      exact b ⟨j, by omega, by omega, h3⟩

/-- A positive result of `check_parity` on a block of tri-state symbols means that the
even-parity check over the block succeeds. -/
theorem check_parity_pos (data : List Int) (p count : Nat) (hc : 2 ≤ count)
    (hts : ∀ i, i < count → rd data (p + i) = -1 ∨ rd data (p + i) = 0 ∨ rd data (p + i) = 1)
    (h : (check_parity data p count).1 > 0) : parity_holds data p count := by
  have hknown : ∀ i, i < count → ¬ rd data (p + i) < 0 := by
    intro i hi hneg
    unfold check_parity at h
    by_cases h0 : rd data p < 0
    · rw [if_pos h0] at h
      exact absurd h (show ¬ ((0 : Int) > 0) by decide)
    · rw [if_neg h0] at h
      by_cases h1 : rd data (p + (count - 1)) < 0
      · rw [if_pos h1] at h
        exact absurd h (show ¬ ((0 : Int) > 0) by decide)
      · rw [if_neg h1] at h
        have hi2 : i < count - 1 := by
          by_contra hge
          have : i = count - 1 := by omega
          exact h1 (this ▸ hneg)
        have hf := (check_parity_count_fail data p (count - 1) 0 0 0).2
          ⟨i, by omega, by omega, hneg⟩
        dsimp only at h
        by_cases h2 : (check_parity_count data p (count - 1) 0 0 0).2 > 1
        · rw [if_pos h2] at h
          exact absurd h (show ¬ ((0 : Int) > 0) by decide)
        · rw [if_neg h2] at h
          have hne : (check_parity_count data p (count - 1) 0 0 0).2 ≠ 0 := by omega
          simp only [if_pos hne] at h
          split_ifs at h <;> first | exact absurd h (show ¬ ((0 : Int) > 0) by decide) | exact absurd h (show ¬ ((-1 : Int) > 0) by decide)
  have hsym : ∀ i, i < count → rd data (p + i) = 0 ∨ rd data (p + i) = 1 := by
    intro i hi
    have := hknown i hi
    rcases hts i hi with a | a | a
    · omega
    · exact Or.inl a
    · exact Or.inr a
  refine ⟨hsym, ?_⟩
  rw [check_parity_known_sum data p count hc hsym] at h
  have hs : (∑ i in Finset.range (count - 1), rd data (p + i)) % 2
      = rd data (p + (count - 1)) := by
    by_contra hne
    rw [if_neg hne] at h
    exact absurd h (show ¬ ((-1 : Int) > 0) by decide)
  have hsplit : ∑ i in Finset.range count, rd data (p + i)
      = ∑ i in Finset.range (count - 1), rd data (p + i) + rd data (p + (count - 1)) := by
    have : count = (count - 1) + 1 := by omega
    conv_lhs => rw [this]
    rw [Finset.sum_range_succ]
  rw [hsplit]
  have := hsym (count - 1) (by omega)
  omega

/-- The parity check over a block is a property of the symbols of the block. -/
theorem parity_holds_congr (d1 d2 : List Int) (p count : Nat)
    (h : ∀ i, i < count → rd d1 (p + i) = rd d2 (p + i)) (hp : parity_holds d1 p count) :
    parity_holds d2 p count := by
  obtain ⟨a, b⟩ := hp
  refine ⟨fun i hi => by rw [← h i hi]; exact a i hi, ?_⟩
  rw [← Finset.sum_congr rfl (fun i hi => h i (Finset.mem_range.mp hi))]
  exact b

/-- The array that `check_data_min` leaves is the one `check_parity` leaves. -/
theorem check_data_min_array (data : List Int) (min : Int) :
    (check_data_min data min).1 = (check_parity data 21 8).2 := by
  unfold check_data_min
  dsimp only
  split_ifs <;> rfl

/-- A minute that was not known before is known after `check_data_min` only if
`check_parity` over 21..28 was positive. -/
theorem check_data_min_known (data : List Int) (min : Int) (hm : min < 0)
    (h : (check_data_min data min).2 ≥ 0) : (check_parity data 21 8).1 > 0 := by
  by_contra hn
  unfold check_data_min at h
  dsimp only at h
  rw [if_neg hn] at h
  exact absurd h (by omega)

/-- An hour that was not known before is known after `check_data_hour` only if
`check_parity` over 29..35 was positive. -/
theorem check_data_hour_known (data : List Int) (hour : Int) (hm : hour < 0)
    (h : (check_data_hour data hour).2 ≥ 0) : (check_parity data 29 7).1 > 0 := by
  by_contra hn
  unfold check_data_hour at h
  dsimp only at h
  rw [if_neg hn] at h
  exact absurd h (by omega)

/-- The date decoders do not read the parity bit 58. -/
theorem check_data_date_fields_bit58 (data : List Int) (v : Int) :
    check_data_day (data.set 58 v) = check_data_day data ∧
    check_data_wday (data.set 58 v) = check_data_wday data ∧
    check_data_mon (data.set 58 v) = check_data_mon data ∧
    check_data_year (data.set 58 v) = check_data_year data := by
  have hn : ∀ (p count : Nat) (lo hi : Int), 1 ≤ count → p + count ≤ 58 →
      check_number (data.set 58 v) p count lo hi = check_number data p count lo hi :=
    fun p count lo hi h1 h2 => check_number_congr _ _ p count lo hi h1
      (fun i hi => rd_set_ne data 58 (p + i) v (by omega))
  refine ⟨?_, ?_, ?_, ?_⟩
  · unfold check_data_day
    rw [hn 36 4 0 9 (by decide) (by decide), hn 40 2 0 3 (by decide) (by decide)]
  · unfold check_data_wday
    rw [hn 42 3 1 7 (by decide) (by decide)]
  · unfold check_data_mon
    rw [hn 45 4 0 9 (by decide) (by decide), rd_set_ne data 58 49 v (by decide)]
  · unfold check_data_year
    rw [hn 50 4 0 9 (by decide) (by decide), hn 54 4 0 9 (by decide) (by decide)]

/-- C23, amended. For every vector of 60 tri-state symbols applied to a freshly initialised
`dcf77_time`, the minute comes out of the field decoder known (non-negative) only if the
even-parity check over bits 21..28 succeeds, and the hour only if the even-parity check over
bits 29..35 succeeds.  Day, weekday, month and year are decoded from their own bits 36..57
alone: they are the same whatever the parity bit 58 is. -/
theorem parity_gates_time_fields (data : List Int) (hts : tri_state data) :
    ((check_data_fields data init_dcf77_time).2.min ≥ 0 → parity_holds data 21 8) ∧
    ((check_data_fields data init_dcf77_time).2.hour ≥ 0 → parity_holds data 29 7) ∧
    (∀ v : Int,
      (check_data_fields (data.set 58 v) init_dcf77_time).2.day
        = (check_data_fields data init_dcf77_time).2.day ∧
      (check_data_fields (data.set 58 v) init_dcf77_time).2.wday
        = (check_data_fields data init_dcf77_time).2.wday ∧
      (check_data_fields (data.set 58 v) init_dcf77_time).2.mon
        = (check_data_fields data init_dcf77_time).2.mon ∧
      (check_data_fields (data.set 58 v) init_dcf77_time).2.year
        = (check_data_fields data init_dcf77_time).2.year) := by
  refine ⟨fun h => ?_, fun h => ?_, fun v => ?_⟩
  · have h1 : (check_data_min data (-2)).2 ≥ 0 := h
    exact check_parity_pos data 21 8 (by decide) (fun i hi => hts (21 + i) (by omega))
      (check_data_min_known data (-2) (by decide) h1)
  · have h1 : (check_data_hour (check_data_min data (-2)).1 (-2)).2 ≥ 0 := h
    rw [check_data_min_array] at h1
    have hrd : ∀ i, i < 7 → rd (check_parity data 21 8).2 (29 + i) = rd data (29 + i) :=
      fun i _ => check_parity_outside data 21 8 (29 + i) (Or.inr (by omega))
    have hp := check_parity_pos (check_parity data 21 8).2 29 7 (by decide)
      (fun i hi => by rw [hrd i hi]; exact hts (29 + i) (by omega))
      (check_data_hour_known _ (-2) (by decide) h1)
    exact parity_holds_congr _ _ 29 7 hrd hp
  · obtain ⟨a1, a2, a3, a4⟩ := check_data_fields_date (data.set 58 v) init_dcf77_time
    obtain ⟨b1, b2, b3, b4⟩ := check_data_fields_date data init_dcf77_time
    obtain ⟨c1, c2, c3, c4⟩ := check_data_date_fields_bit58 data v
    exact ⟨by rw [a1, b1, c1], by rw [a2, b2, c2], by rw [a3, b3, c3], by rw [a4, b4, c4]⟩

set_option maxRecDepth 8000 in
theorem parity_gates_time_fields_witness :
    (check_data_fields (encode_frame (calendar 30 12 15 3 5 24 2)) init_dcf77_time).2.min = 30 ∧
    parity_holds (encode_frame (calendar 30 12 15 3 5 24 2)) 21 8 :=
  ⟨by decide,
   (parity_gates_time_fields (encode_frame (calendar 30 12 15 3 5 24 2)) (by decide)).1
     (by decide)⟩

set_option maxRecDepth 8000 in
/-- C23, counterexample. A frame for 15 May 2024 (a Wednesday) whose date parity bit 58 is
flipped: the even-parity check over bits 36..58 fails, and day, weekday, month and year
come out of the field decoder known all the same. -/
theorem date_fields_without_parity :
    tri_state (flip_bit (encode_frame (calendar 30 12 15 3 5 24 2)) 58) ∧
    ¬ parity_holds (flip_bit (encode_frame (calendar 30 12 15 3 5 24 2)) 58) 36 23 ∧
    (check_parity (flip_bit (encode_frame (calendar 30 12 15 3 5 24 2)) 58) 36 23).1 = -1 ∧
    (check_data_fields (flip_bit (encode_frame (calendar 30 12 15 3 5 24 2)) 58)
      init_dcf77_time).2.day = 15 ∧
    (check_data_fields (flip_bit (encode_frame (calendar 30 12 15 3 5 24 2)) 58)
      init_dcf77_time).2.wday = 3 ∧
    (check_data_fields (flip_bit (encode_frame (calendar 30 12 15 3 5 24 2)) 58)
      init_dcf77_time).2.mon = 5 ∧
    (check_data_fields (flip_bit (encode_frame (calendar 30 12 15 3 5 24 2)) 58)
      init_dcf77_time).2.year = 24 := by
  decide

/-- A field of `*now` that has the same value on both sides of a branch. -/
theorem ite_now_field (f : dcf77_time → Int) (c : Prop) [Decidable c]
    (a b : dcf77_time × dcf77_time) (x : Int) (h1 : f a.1 = x) (h2 : f b.1 = x) :
    f (if c then a else b).1 = x := by
  split <;> assumption

/-- The calendar fields and the time zone of `*now` after the locked branch, one comparison
each (lines 570-604). -/
theorem check_data_locked_fields (L : Libc) (d last : dcf77_time) :
    (check_data_locked L d last).1.min
      = (if d.min ≠ (L.localtime_r (last.stamp + 60)).tm_min
          then int8 (L.localtime_r (last.stamp + 60)).tm_min else d.min) ∧
    (check_data_locked L d last).1.hour
      = (if d.hour ≠ (L.localtime_r (last.stamp + 60)).tm_hour
          then int8 (L.localtime_r (last.stamp + 60)).tm_hour else d.hour) ∧
    (check_data_locked L d last).1.day
      = (if d.day ≠ (L.localtime_r (last.stamp + 60)).tm_mday
          then int8 (L.localtime_r (last.stamp + 60)).tm_mday else d.day) ∧
    (check_data_locked L d last).1.mon
      = (if d.mon ≠ (L.localtime_r (last.stamp + 60)).tm_mon + 1
          then int8 ((L.localtime_r (last.stamp + 60)).tm_mon + 1) else d.mon) ∧
    (check_data_locked L d last).1.year
      = (if d.year ≠ (L.localtime_r (last.stamp + 60)).tm_year - 100
          then int8 ((L.localtime_r (last.stamp + 60)).tm_year - 100) else d.year) ∧
    (check_data_locked L d last).1.wday
      = (if c_rem d.wday 7 ≠ (L.localtime_r (last.stamp + 60)).tm_wday
          then (if int8 (L.localtime_r (last.stamp + 60)).tm_wday = 0 then 7
            else int8 (L.localtime_r (last.stamp + 60)).tm_wday) else d.wday) ∧
    (check_data_locked L d last).1.tz
      = (if d.tz ≠ (L.localtime_r (last.stamp + 60)).tm_isdst + 1 then last.tz else d.tz) := by
  unfold check_data_locked
  refine ⟨?_, ?_, ?_, ?_, ?_, ?_, ?_⟩
  · refine ite_now_field (fun x => x.min) _ _ _ _ ?_ ?_ <;>
      exact apply_ite Prod.fst _ _ _
  · refine ite_now_field (fun x => x.hour) _ _ _ _ ?_ ?_ <;>
      exact apply_ite Prod.fst _ _ _
  · refine ite_now_field (fun x => x.day) _ _ _ _ ?_ ?_ <;>
      exact apply_ite Prod.fst _ _ _
  · refine ite_now_field (fun x => x.mon) _ _ _ _ ?_ ?_ <;>
      exact apply_ite Prod.fst _ _ _
  · refine ite_now_field (fun x => x.year) _ _ _ _ ?_ ?_ <;>
      exact apply_ite Prod.fst _ _ _
  · refine ite_now_field (fun x => x.wday) _ _ _ _ ?_ ?_ <;>
      exact apply_ite Prod.fst _ _ _
  · refine ite_now_field (fun x => x.tz) _ _ _ _ ?_ ?_ <;>
      exact apply_ite Prod.fst _ _ _

/-- C25, amended. Locked-mode forcing: for every locked `last` (`last.stamp != 0`) and
every frame, with the local broken-down time of `last.stamp + 60` in the ranges of a
`struct tm` of this century, after `check_data` the calendar fields of `now` equal the
predicted values: `now.min = tm_min`, `now.hour = tm_hour`, `now.day = tm_mday`,
`now.mon = tm_mon + 1`, `now.year = tm_year - 100`, `now.wday = tm_wday` with Sunday as 7.
The time zone is `tm_isdst + 1` when the decoded time zone equals it, and `last.tz`
otherwise. -/
theorem locked_forcing (L : Libc) (data : List Int) (now last : dcf77_time)
    (hs : last.stamp ≠ 0)
    (hmin : 0 ≤ (L.localtime_r (last.stamp + 60)).tm_min ∧
      (L.localtime_r (last.stamp + 60)).tm_min ≤ 59)
    (hhour : 0 ≤ (L.localtime_r (last.stamp + 60)).tm_hour ∧
      (L.localtime_r (last.stamp + 60)).tm_hour ≤ 23)
    (hday : 1 ≤ (L.localtime_r (last.stamp + 60)).tm_mday ∧
      (L.localtime_r (last.stamp + 60)).tm_mday ≤ 31)
    (hmon : 0 ≤ (L.localtime_r (last.stamp + 60)).tm_mon ∧
      (L.localtime_r (last.stamp + 60)).tm_mon ≤ 11)
    (hyear : 100 ≤ (L.localtime_r (last.stamp + 60)).tm_year ∧
      (L.localtime_r (last.stamp + 60)).tm_year ≤ 199)
    (hwday : 0 ≤ (L.localtime_r (last.stamp + 60)).tm_wday ∧
      (L.localtime_r (last.stamp + 60)).tm_wday ≤ 6) :
    (check_data L data now last).now.min = (L.localtime_r (last.stamp + 60)).tm_min ∧
    (check_data L data now last).now.hour = (L.localtime_r (last.stamp + 60)).tm_hour ∧
    (check_data L data now last).now.day = (L.localtime_r (last.stamp + 60)).tm_mday ∧
    (check_data L data now last).now.mon = (L.localtime_r (last.stamp + 60)).tm_mon + 1 ∧
    (check_data L data now last).now.year = (L.localtime_r (last.stamp + 60)).tm_year - 100 ∧
    (check_data L data now last).now.wday
      = (if (L.localtime_r (last.stamp + 60)).tm_wday = 0 then 7
          else (L.localtime_r (last.stamp + 60)).tm_wday) ∧
    (check_data L data now last).now.tz
      = (if (check_data_tz data).2 = (L.localtime_r (last.stamp + 60)).tm_isdst + 1
          then (L.localtime_r (last.stamp + 60)).tm_isdst + 1 else last.tz) := by
  have hnow : (check_data L data now last).now
      = (check_data_locked L (check_data_fields data now).2 last).1 := by
    unfold check_data
    simp only [if_neg hs]
  obtain ⟨f1, f2, f3, f4, f5, f6, f7⟩ :=
    check_data_locked_fields L (check_data_fields data now).2 last
  have htz : (check_data_fields data now).2.tz = (check_data_tz data).2 := rfl
  have hw : (check_data_fields data now).2.wday = check_number data 42 3 1 7 :=
    (check_data_fields_date data now).2.1
  have hwr := check_number_range data 42 3 1 7
  rw [hnow, f1, f2, f3, f4, f5, f6, f7, htz, hw]
  generalize L.localtime_r (last.stamp + 60) = t at *
  generalize check_number data 42 3 1 7 = w at *
  generalize (check_data_fields data now).2 = d at *
  have i1 := int8_of_range t.tm_min (by omega) (by omega)
  have i2 := int8_of_range t.tm_hour (by omega) (by omega)
  have i3 := int8_of_range t.tm_mday (by omega) (by omega)
  have i4 := int8_of_range (t.tm_mon + 1) (by omega) (by omega)
  have i5 := int8_of_range (t.tm_year - 100) (by omega) (by omega)
  have i6 := int8_of_range t.tm_wday (by omega) (by omega)
  rw [i1, i2, i3, i4, i5, i6]
  refine ⟨?_, ?_, ?_, ?_, ?_, ?_, ?_⟩
  · by_cases h : d.min = t.tm_min
    · rw [if_neg (not_not.mpr h), h]
    · rw [if_pos h]
  · by_cases h : d.hour = t.tm_hour
    · rw [if_neg (not_not.mpr h), h]
    · rw [if_pos h]
  · by_cases h : d.day = t.tm_mday
    · rw [if_neg (not_not.mpr h), h]
    · rw [if_pos h]
  · by_cases h : d.mon = t.tm_mon + 1
    · rw [if_neg (not_not.mpr h), h]
    · rw [if_pos h]
  · by_cases h : d.year = t.tm_year - 100
    · rw [if_neg (not_not.mpr h), h]
    · rw [if_pos h]
  · by_cases h : c_rem w 7 = t.tm_wday
    · rw [if_neg (not_not.mpr h)]
      rcases hwr with e | ⟨a, b⟩
      · rw [e] at h
        have : c_rem (-1) 7 = -1 := by decide
        omega
      · rw [c_rem_of_nonneg w 7 (by omega) (by decide)] at h
        omega
    · rw [if_pos h]
  · by_cases h : (check_data_tz data).2 = t.tm_isdst + 1
    · rw [if_neg (not_not.mpr h), if_pos h, h]
    · rw [if_pos h, if_neg h]

set_option maxRecDepth 8000 in
theorem locked_forcing_witness :
    (check_data berlin (List.replicate 60 (-1)) init_dcf77_time
      { calendar 34 12 15 1 1 24 1 with stamp := 1705318440, stamp_chk := 5 }).now.min
      = (berlin.localtime_r (1705318440 + 60)).tm_min ∧
    (berlin.localtime_r (1705318440 + 60)).tm_min = 35 :=
  ⟨(locked_forcing berlin (List.replicate 60 (-1)) init_dcf77_time
      { calendar 34 12 15 1 1 24 1 with stamp := 1705318440, stamp_chk := 5 }
      (by decide) (by decide) (by decide) (by decide) (by decide) (by decide) (by decide)).1,
   by decide⟩

set_option maxRecDepth 8000 in
/-- C25, counterexample. Locked at 01:59 CET on Sunday 31 March 2024, the last minute before
summer time begins, and a frame of unknown symbols only: the predicted local time of the
next minute is 03:00 with `tm_isdst = 1`, the six calendar fields are forced to it, and
`now.tz` is 1 (the time zone of `last`), not `tm_isdst + 1 = 2`. -/
theorem locked_time_zone_kept :
    (berlin.localtime_r (1711846740 + 60)).tm_isdst = 1 ∧
    (berlin.localtime_r (1711846740 + 60)).tm_hour = 3 ∧
    (check_data berlin (List.replicate 60 (-1)) init_dcf77_time
      { calendar 59 1 31 7 3 24 1 with stamp := 1711846740, stamp_chk := 5 }).now.hour = 3 ∧
    (check_data berlin (List.replicate 60 (-1)) init_dcf77_time
      { calendar 59 1 31 7 3 24 1 with stamp := 1711846740, stamp_chk := 5 }).now.tz = 1 := by
  decide

end DCF77
